import Mathlib

/-!
# Body-Shape-Estimation: residual blocks, distance cache and pose prior

A shallow embedding of `AbsoluteDistanceBase.cpp`, `AbsoluteDistanceForPose.cpp` and the
prior handling of `ShapeUnderClothOptimizer.cpp`.

Conventions of the embedding
* `double` is the exact rational field `ℚ`; rounding is not modelled.
* `Eigen::MatrixXd` is a list of rows, `Eigen::VectorXd` and `double const*` inputs are lists.
* `double*` output arrays (`residuals`, `jacobians[k]`) are raw memory `Nat → ℚ`.
* A read or write outside an Eigen object or a `std::vector`, a failed `assert` and a thrown
  `std::exception` are the three kinds of `Fault`; fallible code returns `Except Fault _`.
* `SMPLWrapper`, `GeneralMesh`, `igl::signed_distance`, `ceres::NormalPrior` and the
  element-wise policies declared in `AbsoluteDistanceBase.h` are not part of the sources at
  hand; they enter as structure fields (parameters).
-/

namespace BodyShape

/-! ## Data -/

abbrev VectorXd := List ℚ
abbrev VectorXi := List Int
abbrev MatrixXd := List (List ℚ)
abbrev MatrixXi := List (List Int)
/-- Raw `double*` output memory. -/
abbrev Buf := Nat → ℚ

inductive Fault
  | noParameterType
  | assertFailed
  | outOfBounds
  | stiffnessNotSquare
  | priorSizeMismatch
  deriving DecidableEq, Repr

/-- Element `v(i)` of a vector. -/
def coeffV (v : VectorXd) (i : Nat) : Except Fault ℚ :=
  match v[i]? with
  | some x => .ok x
  | none => .error .outOfBounds

/-- Element `v(i)` of an integer vector. -/
def coeffI (v : VectorXi) (i : Nat) : Except Fault Int :=
  match v[i]? with
  | some x => .ok x
  | none => .error .outOfBounds

/-- Row `m.row(i)` of a matrix. -/
def rowM (m : MatrixXd) (i : Nat) : Except Fault (List ℚ) :=
  match m[i]? with
  | some r => .ok r
  | none => .error .outOfBounds

/-- Row `m.row(i)` for an `int` index. -/
def rowInt (m : MatrixXd) (i : Int) : Except Fault (List ℚ) :=
  if i < 0 then .error .outOfBounds else rowM m i.toNat

/-- Element `m(i, j)` of a matrix. -/
def coeffM (m : MatrixXd) (i j : Nat) : Except Fault ℚ := do
  let r ← rowM m i
  coeffV r j

/-- Entry `v[i]` of a `std::vector<Eigen::MatrixXd>`. -/
def blockAt (v : List MatrixXd) (i : Nat) : Except Fault MatrixXd :=
  match v[i]? with
  | some m => .ok m
  | none => .error .outOfBounds

/-- The loop `for (int i = 0; i < n; ++i) body`. -/
def forLoop {σ : Type} (n : Nat) (body : Nat → σ → Except Fault σ) (init : σ) :
    Except Fault σ :=
  (List.range n).foldlM (fun s i => body i s) init

/-- The loop `for (int i = lo; i < hi; ++i) body`. -/
def forRange {σ : Type} (lo hi : Nat) (body : Nat → σ → Except Fault σ) (init : σ) :
    Except Fault σ :=
  (List.range' lo (hi - lo)).foldlM (fun s i => body i s) init

/-- The call `std::vector<Eigen::MatrixXd>::resize(n)`: keeps the first `n` entries and pads with
empty matrices. -/
def resize (v : List MatrixXd) (n : Nat) : List MatrixXd :=
  v.take n ++ List.replicate (n - v.length) []

/-- A callee writing `n` matrices through the pointer `&v[0]`. -/
def writeBlocks (v : List MatrixXd) (n : Nat) (blk : Nat → MatrixXd) :
    Except Fault (List MatrixXd) :=
  if n ≤ v.length then .ok ((List.range n).map blk ++ v.drop n) else .error .outOfBounds

/-! ## External collaborators -/

/-- Modelled from the spec: `SMPLWrapper::SPACE_DIM`, the spatial dimension, "fixed at 3"
(both `Evaluate` methods assert it). -/
def SPACE_DIM : Nat := 3

/-- The value of `smpl_->getStatePointers()`. -/
structure StatePointers where
  translation : VectorXd
  pose : VectorXd
  shape : VectorXd
  displacements : MatrixXd
  deriving DecidableEq, Repr

/-- Which Jacobian output pointer of `calcModel` is not null. -/
inductive JacRequest
  | noJac
  | pose
  | shape
  | displacement
  deriving DecidableEq, Repr

/-- Modelled from the spec: `SMPLWrapper` (the DeformableModel) is absent from the sources.
`forward(translation, pose, shape, displacement?) -> vertices`, with optional Jacobian outputs
per pose dimension, per shape dimension and per displacement axis; `vertexNormals`; the
dimensional constants. `vertsPS` and `pose_jacPS` are the two-parameter `calcModel(pose, shape,
pose_jac, shape_jac)` overload that `AbsoluteDistanceForPose` and the logging callback call. -/
structure SMPLWrapper where
  VERTICES_NUM : Nat
  POSE_SIZE : Nat
  SHAPE_SIZE : Nat
  verts : VectorXd → VectorXd → VectorXd → Option MatrixXd → MatrixXd
  pose_jac : VectorXd → VectorXd → VectorXd → Option MatrixXd → Nat → MatrixXd
  shape_jac : VectorXd → VectorXd → VectorXd → Option MatrixXd → Nat → MatrixXd
  displacement_jac : VectorXd → VectorXd → VectorXd → Option MatrixXd → Nat → MatrixXd
  calcVertexNormals : MatrixXd → MatrixXd
  vertsPS : VectorXd → Option VectorXd → MatrixXd
  pose_jacPS : VectorXd → Option VectorXd → Nat → MatrixXd
  getTemplateMeanPoint : VectorXd

/-- The call `smpl_->calcModel(translation, pose, shape, displacement, pose_jac, shape_jac,
displacement_jac)` where the one non-null Jacobian pointer, if any, is `&jacobian[0]`.
Returns the vertices and the `jacobian` vector after the callee has written through the
pointer. -/
def SMPLWrapper.calcModel (smpl : SMPLWrapper) (translation pose shape : VectorXd)
    (displacement : Option MatrixXd) (req : JacRequest) (jacobian : List MatrixXd) :
    Except Fault (MatrixXd × List MatrixXd) :=
  match req with
  | .noJac => .ok (smpl.verts translation pose shape displacement, jacobian)
  | .pose => do
      let j ← writeBlocks jacobian smpl.POSE_SIZE
        (smpl.pose_jac translation pose shape displacement)
      pure (smpl.verts translation pose shape displacement, j)
  | .shape => do
      let j ← writeBlocks jacobian smpl.SHAPE_SIZE
        (smpl.shape_jac translation pose shape displacement)
      pure (smpl.verts translation pose shape displacement, j)
  | .displacement => do
      let j ← writeBlocks jacobian SPACE_DIM
        (smpl.displacement_jac translation pose shape displacement)
      pure (smpl.verts translation pose shape displacement, j)

/-- The target surface (`GeneralMesh`), absent from the sources: only its getters are used. -/
structure GeneralMesh where
  getVertices : MatrixXd
  getNormalizedVertices : MatrixXd
  getFaces : MatrixXi
  getFaceNormals : MatrixXd
  getMeanPoint : VectorXd

/-- The four outputs `S, I, C, N` of `igl::signed_distance`. -/
structure SignedDistanceOut where
  S : VectorXd
  I : VectorXi
  C : MatrixXd
  N : MatrixXd
  deriving DecidableEq, Repr

/-- The library routine `igl::signed_distance(P, V, F, SIGNED_DISTANCE_TYPE_PSEUDONORMAL, ...)`,
taken as a parameter. -/
abbrev SignedDistanceFn := MatrixXd → MatrixXd → MatrixXi → SignedDistanceOut

/-! ## `AbsoluteDistanceBase` -/

/-- The `ParameterType` tag. The enumeration is declared in the absent header; `other` stands
for any enumerator that the `default:` branches of the switches catch. -/
inductive ParameterType
  | TRANSLATION
  | SHAPE
  | POSE
  | DISPLACEMENT
  | other
  deriving DecidableEq, Repr

structure DistanceResult where
  verts : MatrixXd
  verts_normals : MatrixXd
  signedDists : VectorXd
  closest_face_ids : VectorXi
  closest_points : MatrixXd
  normals_for_sign : MatrixXd
  jacobian : List MatrixXd
  deriving DecidableEq, Repr

/-- A default-constructed `DistanceResult`. -/
def DistanceResult.empty : DistanceResult :=
  ⟨[], [], [], [], [], [], []⟩

/-- The element-wise policies `residual_elem_`, `jac_elem_` and `translation_jac_elem_`; they
are declared in the absent header and selected there by `dist_type` and
`pruning_threshold`. -/
structure ElemPolicy where
  residual_elem_ : ℚ → List ℚ → List ℚ → ℚ
  jac_elem_ : List ℚ → List ℚ → ℚ → List ℚ → ℚ
  translation_jac_elem_ : ℚ → ℚ → ℚ → ℚ

/-- The immutable members of an `AbsoluteDistanceBase` cost function, together with the two
`ceres::CostFunction` size declarations. -/
structure AbsoluteDistanceBase where
  toMesh_ : GeneralMesh
  smpl_ : SMPLWrapper
  signed_distance : SignedDistanceFn
  policy : ElemPolicy
  parameter_type_ : ParameterType
  vertex_id_for_displacement_ : Nat
  use_evaluation_callback_ : Bool
  num_residuals : Nat
  parameter_block_sizes : List Nat

/-- The constructor `AbsoluteDistanceBase::AbsoluteDistanceBase`. A fresh `ceres::CostFunction`
has zero residuals and no parameter block. -/
def AbsoluteDistanceBase.ctor (smpl : SMPLWrapper) (toMesh : GeneralMesh)
    (sd : SignedDistanceFn) (policy : ElemPolicy) (parameter : ParameterType)
    (use_pre_computation : Bool) (vertex_id : Nat) : AbsoluteDistanceBase :=
  let base : AbsoluteDistanceBase :=
    { toMesh_ := toMesh, smpl_ := smpl, signed_distance := sd, policy := policy,
      parameter_type_ := parameter, vertex_id_for_displacement_ := vertex_id,
      use_evaluation_callback_ := use_pre_computation,
      num_residuals := 0, parameter_block_sizes := [] }
  match parameter with
  | .TRANSLATION =>
      { base with num_residuals := smpl.VERTICES_NUM,
                  parameter_block_sizes := base.parameter_block_sizes ++ [SPACE_DIM] }
  | .SHAPE =>
      { base with num_residuals := smpl.VERTICES_NUM,
                  parameter_block_sizes := base.parameter_block_sizes ++ [smpl.SHAPE_SIZE] }
  | .POSE =>
      { base with num_residuals := smpl.VERTICES_NUM,
                  parameter_block_sizes := base.parameter_block_sizes ++ [smpl.POSE_SIZE] }
  | .DISPLACEMENT =>
      { base with num_residuals := 1,
                  parameter_block_sizes := base.parameter_block_sizes ++ [SPACE_DIM] }
  | .other => base

/-- The expression `parameter_block_sizes()[0]`. -/
def AbsoluteDistanceBase.blockSize0 (b : AbsoluteDistanceBase) : Except Fault Nat :=
  match b.parameter_block_sizes[0]? with
  | some n => .ok n
  | none => .error .outOfBounds

/-- The mutable state a block works on: the current parameters of the model, the static
`last_result_`, the member `displacement_jac_evaluated` (declared in the absent header; the
frozen flag of the spec, clear in a fresh block), and two ghost counters that record the
forward passes (`calcModel` calls, each with the Jacobian it was asked for) and the distance
resolutions made by `updateDistanceCalculations`. -/
structure Sys where
  state : StatePointers
  last_result_ : DistanceResult
  displacement_jac_evaluated : Bool
  model_calls : List JacRequest
  distance_calls : Nat
  deriving DecidableEq, Repr

/-- The method `calcSignedDistByVertecies`. -/
def AbsoluteDistanceBase.calcSignedDistByVertecies (b : AbsoluteDistanceBase)
    (r : DistanceResult) : Except Fault DistanceResult :=
  let o := b.signed_distance r.verts b.toMesh_.getNormalizedVertices b.toMesh_.getFaces
  let r1 := { r with signedDists := o.S, closest_face_ids := o.I, closest_points := o.C,
                     normals_for_sign := o.N }
  if r1.signedDists.length ≠ b.smpl_.VERTICES_NUM then .error .assertFailed
  else if r1.closest_points.length ≠ b.smpl_.VERTICES_NUM then .error .assertFailed
  else .ok r1

/-- The body of `case SHAPE:` in `updateDistanceCalculations`. -/
def AbsoluteDistanceBase.updateShapeCase (b : AbsoluteDistanceBase) (s : Sys)
    (r : DistanceResult) : Except Fault (DistanceResult × List JacRequest) := do
  let (v, j) ← b.smpl_.calcModel s.state.translation s.state.pose s.state.shape
    (some s.state.displacements) .shape r.jacobian
  pure ({ r with verts := v, jacobian := j }, [.shape])

/-- The method `updateDistanceCalculations(with_jacobian, last_result_)`. The `TRANSLATION`
case has no `break`, so control runs on into the `SHAPE` case. -/
def AbsoluteDistanceBase.updateDistanceCalculations (b : AbsoluteDistanceBase)
    (with_jacobian : Bool) (s : Sys) : Except Fault Sys := do
  let calc_jac : Bool :=
    if b.parameter_type_ = .DISPLACEMENT ∧ s.displacement_jac_evaluated = true then false
    else with_jacobian
  let (r1, calls, flag) ←
    (if calc_jac then do
      let n ← b.blockSize0
      let r0 := { s.last_result_ with jacobian := resize s.last_result_.jacobian n }
      match b.parameter_type_ with
      | .TRANSLATION => do
          let (v, j) ← b.smpl_.calcModel s.state.translation s.state.pose s.state.shape
            (some s.state.displacements) .noJac r0.jacobian
          let (r, c) ← b.updateShapeCase s { r0 with verts := v, jacobian := j }
          pure (r, JacRequest.noJac :: c, s.displacement_jac_evaluated)
      | .SHAPE => do
          let (r, c) ← b.updateShapeCase s r0
          pure (r, c, s.displacement_jac_evaluated)
      | .POSE => do
          let (v, j) ← b.smpl_.calcModel s.state.translation s.state.pose s.state.shape
            (some s.state.displacements) .pose r0.jacobian
          pure ({ r0 with verts := v, jacobian := j }, [JacRequest.pose],
            s.displacement_jac_evaluated)
      | .DISPLACEMENT => do
          let (v, j) ← b.smpl_.calcModel s.state.translation s.state.pose s.state.shape
            (some s.state.displacements) .displacement r0.jacobian
          pure ({ r0 with verts := v, jacobian := j }, [JacRequest.displacement], true)
      | .other => throw Fault.noParameterType
    else do
      let (v, j) ← b.smpl_.calcModel s.state.translation s.state.pose s.state.shape
        (some s.state.displacements) .noJac s.last_result_.jacobian
      pure ({ s.last_result_ with verts := v, jacobian := j }, [JacRequest.noJac],
        s.displacement_jac_evaluated)
      : Except Fault (DistanceResult × List JacRequest × Bool))
  let r2 := { r1 with verts_normals := b.smpl_.calcVertexNormals r1.verts }
  let r3 ← b.calcSignedDistByVertecies r2
  pure { s with last_result_ := r3, displacement_jac_evaluated := flag,
                model_calls := s.model_calls ++ calls,
                distance_calls := s.distance_calls + 1 }

/-- The method `PrepareForEvaluation(evaluate_jacobians, new_evaluation_point)`. -/
def AbsoluteDistanceBase.PrepareForEvaluation (b : AbsoluteDistanceBase)
    (evaluate_jacobians new_evaluation_point : Bool) (s : Sys) : Except Fault Sys :=
  if evaluate_jacobians || new_evaluation_point then
    b.updateDistanceCalculations evaluate_jacobians s
  else .ok s

/-- The method `calcDistance(parameter, with_jacobian)` of immediate mode. -/
def AbsoluteDistanceBase.calcDistance (b : AbsoluteDistanceBase) (st : StatePointers)
    (parameter : VectorXd) (with_jacobian : Bool) : Except Fault DistanceResult := do
  let r0 ←
    (if with_jacobian then do
      let n ← b.blockSize0
      pure { DistanceResult.empty with jacobian := resize DistanceResult.empty.jacobian n }
    else pure DistanceResult.empty : Except Fault DistanceResult)
  let r1 ←
    (match b.parameter_type_ with
    | .TRANSLATION => do
        let (v, j) ← b.smpl_.calcModel parameter st.pose st.shape none .noJac r0.jacobian
        pure { r0 with verts := v, jacobian := j }
    | .SHAPE =>
        if with_jacobian then do
          let (v, j) ← b.smpl_.calcModel st.translation st.pose parameter none .shape
            r0.jacobian
          pure { r0 with verts := v, jacobian := j }
        else do
          let (v, j) ← b.smpl_.calcModel st.translation st.pose parameter none .noJac
            r0.jacobian
          pure { r0 with verts := v, jacobian := j }
    | .POSE =>
        if with_jacobian then do
          let (v, j) ← b.smpl_.calcModel st.translation parameter st.shape none .pose
            r0.jacobian
          pure { r0 with verts := v, jacobian := j }
        else do
          let (v, j) ← b.smpl_.calcModel st.translation parameter st.shape none .noJac
            r0.jacobian
          pure { r0 with verts := v, jacobian := j }
    | .DISPLACEMENT => pure r0
    | .other => throw Fault.noParameterType : Except Fault DistanceResult)
  let r2 := { r1 with verts_normals := b.smpl_.calcVertexNormals r1.verts }
  b.calcSignedDistByVertecies r2

/-- The method `fillJac`. -/
def AbsoluteDistanceBase.fillJac (b : AbsoluteDistanceBase) (distance_res : DistanceResult)
    (residuals : Buf) (jacobian : Buf) : Except Fault Buf :=
  forLoop b.smpl_.VERTICES_NUM (fun v_id jac => do
    let n ← b.blockSize0
    forLoop n (fun param_id jac => do
      let n ← b.blockSize0
      let vrow ← rowM distance_res.verts v_id
      let crow ← rowM distance_res.closest_points v_id
      let blk ← blockAt distance_res.jacobian param_id
      let grow ← rowM blk v_id
      pure (Function.update jac (v_id * n + param_id)
        (b.policy.jac_elem_ vrow crow (residuals v_id) grow))) jac) jacobian

/-- The method `fillDisplacementJac`. The local `distance` is computed and never used. -/
def AbsoluteDistanceBase.fillDisplacementJac (b : AbsoluteDistanceBase)
    (distance_res : DistanceResult) (residuals : Buf) (jacobian : Buf) : Except Fault Buf := do
  let _distance ← (fun x => |x|) <$>
    coeffV distance_res.signedDists b.vertex_id_for_displacement_
  let n ← b.blockSize0
  forLoop n (fun axis_id jac => do
    let vrow ← rowM distance_res.verts b.vertex_id_for_displacement_
    let crow ← rowM distance_res.closest_points b.vertex_id_for_displacement_
    let blk ← blockAt distance_res.jacobian axis_id
    let grow ← rowM blk b.vertex_id_for_displacement_
    pure (Function.update jac axis_id
      (b.policy.jac_elem_ vrow crow (residuals 0) grow))) jacobian

/-- The method `fillTranslationJac`. -/
def AbsoluteDistanceBase.fillTranslationJac (b : AbsoluteDistanceBase)
    (distance_res : DistanceResult) (residuals : Buf) (jacobian : Buf) : Except Fault Buf :=
  forLoop b.smpl_.VERTICES_NUM (fun v_id jac => do
    let n ← b.blockSize0
    forLoop n (fun p_id jac => do
      let n ← b.blockSize0
      let x ← coeffM distance_res.verts v_id p_id
      let c ← coeffM distance_res.closest_points v_id p_id
      pure (Function.update jac (v_id * n + p_id)
        (b.policy.translation_jac_elem_ x c (residuals v_id)))) jac) jacobian

/-- What one `Evaluate` call leaves behind: the return value and the two output arrays.
`jacobian0` is `none` when no Jacobian array was passed. -/
structure EvalOut where
  ret : Bool
  residuals : Buf
  jacobian0 : Option Buf

/-- The residual of vertex `i` as `Evaluate` computes it from a distance result. -/
def AbsoluteDistanceBase.residualAt (b : AbsoluteDistanceBase) (d : DistanceResult) (i : Nat) :
    Except Fault ℚ := do
  let sd ← coeffV d.signedDists i
  let vn ← rowM d.verts_normals i
  let fid ← coeffI d.closest_face_ids i
  let fn ← rowInt b.toMesh_.getFaceNormals fid
  pure (b.policy.residual_elem_ sd vn fn)

/-- The block `// fill resuduals` of `Evaluate`. -/
def AbsoluteDistanceBase.fillResiduals (b : AbsoluteDistanceBase) (d : DistanceResult)
    (residuals : Buf) : Except Fault Buf :=
  if b.parameter_type_ = .DISPLACEMENT then do
    let r ← b.residualAt d b.vertex_id_for_displacement_
    pure (Function.update residuals 0 r)
  else
    forLoop b.smpl_.VERTICES_NUM (fun i res => do
      let r ← b.residualAt d i
      pure (Function.update res i r)) residuals

/-- The block `// fill out jacobians` of `Evaluate`, entered when `jacobians[0]` is the
array `J`. -/
def AbsoluteDistanceBase.fillJacobians (b : AbsoluteDistanceBase) (d : DistanceResult)
    (residuals : Buf) (J : Buf) : Except Fault Buf :=
  match b.parameter_type_ with
  | .TRANSLATION => b.fillTranslationJac d residuals J
  | .SHAPE | .POSE => b.fillJac d residuals J
  | .DISPLACEMENT => b.fillDisplacementJac d residuals J
  | .other => throw Fault.noParameterType

/-- The method `AbsoluteDistanceBase::Evaluate(parameters, residuals, jacobians)`.
`parameters0` is `parameters[0]`; `jacobians` is `none` for a null `jacobians`, `some none`
for a null `jacobians[0]` and `some (some J)` for the array `J = jacobians[0]`. -/
def AbsoluteDistanceBase.Evaluate (b : AbsoluteDistanceBase) (s : Sys)
    (parameters0 : VectorXd) (residuals : Buf) (jacobians : Option (Option Buf)) :
    Except Fault EvalOut := do
  let distance_to_use ←
    (if b.use_evaluation_callback_ then pure s.last_result_
    else b.calcDistance s.state parameters0 jacobians.join.isSome :
      Except Fault DistanceResult)
  let residuals ← b.fillResiduals distance_to_use residuals
  match jacobians.join with
  | some J => do
      let J1 ← b.fillJacobians distance_to_use residuals J
      pure ⟨true, residuals, some J1⟩
  | none => pure ⟨true, residuals, none⟩

/-! ## `AbsoluteDistanceForPose` -/

/-- The difference `a - b` of two Eigen row vectors. -/
def rowSub (a b : List ℚ) : List ℚ := List.zipWith (fun x y => x - y) a b

/-- The product `a.dot(b)` of two Eigen row vectors. -/
def dot (a b : List ℚ) : ℚ := (List.zipWith (fun x y => x * y) a b).sum

/-- The update `m(i, j) += x`. -/
def addAt (m : MatrixXd) (i j : Nat) (x : ℚ) : Except Fault MatrixXd := do
  let r ← rowM m i
  let a ← coeffV r j
  pure (m.set i (r.set j (a + x)))

structure AbsoluteDistanceForPose where
  toMesh_ : GeneralMesh
  smpl_ : SMPLWrapper
  signed_distance : SignedDistanceFn
  shape_ : Option VectorXd
  inside_coef_ : ℚ
  num_residuals : Nat
  parameter_block_sizes : List Nat

/-- The constructor `AbsoluteDistanceForPose::AbsoluteDistanceForPose`. -/
def AbsoluteDistanceForPose.ctor (smpl : SMPLWrapper) (toMesh : GeneralMesh)
    (sd : SignedDistanceFn) (inside_coef : ℚ) (shape : Option VectorXd) :
    AbsoluteDistanceForPose :=
  { toMesh_ := toMesh, smpl_ := smpl, signed_distance := sd, shape_ := shape,
    inside_coef_ := inside_coef, num_residuals := smpl.VERTICES_NUM,
    parameter_block_sizes := ([] ++ [smpl.POSE_SIZE]) ++ [SPACE_DIM] }

/-- What one `AbsoluteDistanceForPose::Evaluate` call leaves behind. -/
structure EvalOut2 where
  ret : Bool
  residuals : Buf
  jacobian0 : Option Buf
  jacobian1 : Option Buf

/-- The `// translate` loop of `AbsoluteDistanceForPose::Evaluate`. -/
def AbsoluteDistanceForPose.translate (b : AbsoluteDistanceForPose) (verts : MatrixXd)
    (parameters1 : VectorXd) : Except Fault MatrixXd :=
  forLoop b.smpl_.VERTICES_NUM (fun i m =>
    forLoop SPACE_DIM (fun j m => do
      let t ← coeffV parameters1 j
      addAt m i j t) m) verts

/-- The residual loop of `AbsoluteDistanceForPose::Evaluate`. -/
def AbsoluteDistanceForPose.fillResiduals (b : AbsoluteDistanceForPose)
    (signedDists : VectorXd) (residuals : Buf) : Except Fault Buf :=
  forLoop b.smpl_.VERTICES_NUM (fun i res => do
    let sd ← coeffV signedDists i
    pure (Function.update res i
      (if sd > 0 then sd * sd else b.inside_coef_ * sd * sd))) residuals

/-- The loop nest `// w.r.t. pose` of `AbsoluteDistanceForPose::Evaluate`. -/
def AbsoluteDistanceForPose.fillPoseJac (b : AbsoluteDistanceForPose)
    (signedDists : VectorXd) (verts closest_points : MatrixXd) (pose_jac : List MatrixXd)
    (J : Buf) : Except Fault Buf :=
  forLoop b.smpl_.VERTICES_NUM (fun v_id J =>
    forLoop b.smpl_.POSE_SIZE (fun p_id J => do
      let sd ← coeffV signedDists v_id
      let vrow ← rowM verts v_id
      let crow ← rowM closest_points v_id
      let blk ← blockAt pose_jac p_id
      let grow ← rowM blk v_id
      pure (Function.update J (v_id * b.smpl_.POSE_SIZE + p_id)
        (if sd > 0 then 2 * dot (rowSub vrow crow) grow
         else b.inside_coef_ * 2 * dot (rowSub vrow crow) grow))) J) J

/-- The loop nest `// wrt translation` of `AbsoluteDistanceForPose::Evaluate`. -/
def AbsoluteDistanceForPose.fillTranslationJac (b : AbsoluteDistanceForPose)
    (signedDists : VectorXd) (verts closest_points : MatrixXd) (J : Buf) :
    Except Fault Buf :=
  forLoop b.smpl_.VERTICES_NUM (fun v_id J =>
    forLoop SPACE_DIM (fun k J => do
      let sd ← coeffV signedDists v_id
      let x ← coeffM verts v_id k
      let c ← coeffM closest_points v_id k
      pure (Function.update J (v_id * SPACE_DIM + k)
        (if sd > 0 then 2 * (x - c) else b.inside_coef_ * 2 * (x - c)))) J) J

/-- The method `AbsoluteDistanceForPose::Evaluate(parameters, residuals, jacobians)`.
`parameters0 = parameters[0]` is the pose, `parameters1 = parameters[1]` the translation;
`jacobians` is `none` for a null pointer, else the pair `(jacobians[0], jacobians[1])`, each
`none` when null. -/
def AbsoluteDistanceForPose.Evaluate (b : AbsoluteDistanceForPose)
    (parameters0 parameters1 : VectorXd) (residuals : Buf)
    (jacobians : Option (Option Buf × Option Buf)) : Except Fault EvalOut2 := do
  if b.parameter_block_sizes[0]? ≠ some b.smpl_.POSE_SIZE then throw Fault.assertFailed
  if b.parameter_block_sizes[1]? ≠ some SPACE_DIM then throw Fault.assertFailed
  let jac0 : Option Buf := jacobians.bind (fun js => js.1)
  let jac1 : Option Buf := jacobians.bind (fun js => js.2)
  let pose_jac : List MatrixXd :=
    if jac0.isSome then
      (List.range b.smpl_.POSE_SIZE).map (b.smpl_.pose_jacPS parameters0 b.shape_)
    else List.replicate b.smpl_.POSE_SIZE []
  let verts ← b.translate (b.smpl_.vertsPS parameters0 b.shape_) parameters1
  let o := b.signed_distance verts b.toMesh_.getVertices b.toMesh_.getFaces
  let signedDists := o.S
  let closest_points := o.C
  if signedDists.length ≠ b.smpl_.VERTICES_NUM then throw Fault.assertFailed
  if closest_points.length ≠ b.smpl_.VERTICES_NUM then throw Fault.assertFailed
  let residuals ← b.fillResiduals signedDists residuals
  let J0 ←
    (match jac0 with
    | some J => do
        let J ← b.fillPoseJac signedDists verts closest_points pose_jac J
        pure (some J)
    | none => pure none : Except Fault (Option Buf))
  let J1 ←
    (match jac1 with
    | some J => do
        let J ← b.fillTranslationJac signedDists verts closest_points J
        pure (some J)
    | none => pure none : Except Fault (Option Buf))
  pure ⟨true, residuals, J0, J1⟩

/-! ## `ShapeUnderClothOptimizer`: the pose prior -/

/-- Modelled from the spec: `ceres::NormalPrior(A, b)` is library code; its residual is "its
matrix argument applied to pose - m", that is `A (x - b)`. -/
def NormalPrior.residual {m n : Nat} (A : Matrix (Fin m) (Fin n) ℚ) (b x : Fin n → ℚ) :
    Fin m → ℚ :=
  A.mulVec (x - b)

/-- The members `mean_pose_` and `stiffness_` of `ShapeUnderClothOptimizer`, after their
`resize` to `POSE_SIZE` and `POSE_SIZE x POSE_SIZE`. -/
structure PriorModel (POSE_SIZE : Nat) where
  mean_pose_ : Fin POSE_SIZE → ℚ
  stiffness_ : Matrix (Fin POSE_SIZE) (Fin POSE_SIZE) ℚ

/-- The residual of the regularizer that `directionalPoseEstimation_` and
`generalPoseEstimation_` add to the problem: `new NormalPrior(stiffness_, mean_pose_)` on the
parameter block `pose_`. -/
def PriorModel.priorResidual {P : Nat} (o : PriorModel P) (pose : Fin P → ℚ) : Fin P → ℚ :=
  NormalPrior.residual o.stiffness_ o.mean_pose_ pose

/-- The sum of squares of the prior residual. -/
def PriorModel.priorSumSq {P : Nat} (o : PriorModel P) (pose : Fin P → ℚ) : ℚ :=
  ∑ i, (o.priorResidual pose i) ^ 2

/-- The Gaussian negative log-likelihood quadratic form `(x - m)^T S (x - m)` of precision
`S` and mean `m`. -/
def gaussianForm {n : Nat} (S : Matrix (Fin n) (Fin n) ℚ) (m x : Fin n → ℚ) : ℚ :=
  Matrix.dotProduct (x - m) (S.mulVec (x - m))

/-- The text after the header of a prior file, as the stream delivers it. -/
structure IStream where
  rest : List ℚ
  fail : Bool
  deriving DecidableEq, Repr

/-- The extraction `inFile >> x` of a `double` into a variable holding `old`: the next value
when there is one; at the end of the text the first failing extraction stores zero and sets
the fail bit, and an extraction from a failed stream leaves the variable as it is. -/
def IStream.extract (st : IStream) (old : ℚ) : ℚ × IStream :=
  if st.fail then (old, st)
  else
    match st.rest with
    | x :: xs => (x, ⟨xs, false⟩)
    | [] => (0, ⟨[], true⟩)

/-- The file `mean_pose.txt`: the declared count, as `inFile >> size` yields it, and the
values that follow. -/
structure MeanPoseFile where
  size : Int
  body : List ℚ
  deriving DecidableEq, Repr

/-- The file `stiffness.txt`: the declared `rows` and `cols` and the values that follow. -/
structure StiffnessFile where
  rows : Int
  cols : Int
  body : List ℚ
  deriving DecidableEq, Repr

/-- The read `v(i)` of a vector of size `n`. -/
def getV {n : Nat} (v : Fin n → ℚ) (i : Nat) : Except Fault ℚ :=
  if h : i < n then .ok (v ⟨i, h⟩) else .error .outOfBounds

/-- The write `v(i) = x` on a vector of size `n`. -/
def setV {n : Nat} (v : Fin n → ℚ) (i : Nat) (x : ℚ) : Except Fault (Fin n → ℚ) :=
  if h : i < n then .ok (Function.update v ⟨i, h⟩ x) else .error .outOfBounds

/-- The read `M(i, j)` of an `n x n` matrix. -/
def getM {n : Nat} (M : Matrix (Fin n) (Fin n) ℚ) (i j : Nat) : Except Fault ℚ :=
  if h : i < n ∧ j < n then .ok (M ⟨i, h.1⟩ ⟨j, h.2⟩) else .error .outOfBounds

/-- The write `M(i, j) = x` on an `n x n` matrix. -/
def setM {n : Nat} (M : Matrix (Fin n) (Fin n) ℚ) (i j : Nat) (x : ℚ) :
    Except Fault (Matrix (Fin n) (Fin n) ℚ) :=
  if h : i < n ∧ j < n then
    .ok (Function.update M ⟨i, h.1⟩ (Function.update (M ⟨i, h.1⟩) ⟨j, h.2⟩ x))
  else .error .outOfBounds

/-- The loop of `readMeanPose_` that sets the root rotation of the mean pose to zero. -/
def zeroRootPose {POSE_SIZE : Nat} (mp : Fin POSE_SIZE → ℚ) :
    Except Fault (Fin POSE_SIZE → ℚ) :=
  forLoop SPACE_DIM (fun i mp => setV mp i 0) mp

/-- The loop `// Now read from file` of `readMeanPose_`. -/
def readPoseBody {POSE_SIZE : Nat} (mp : Fin POSE_SIZE → ℚ) (inFile : IStream) :
    Except Fault ((Fin POSE_SIZE → ℚ) × IStream) :=
  forRange SPACE_DIM POSE_SIZE (fun i (acc : (Fin POSE_SIZE → ℚ) × IStream) => do
    let cur ← getV acc.1 i
    let (x, st) := acc.2.extract cur
    let mp ← setV acc.1 i x
    pure (mp, st)) (mp, inFile)

/-- The method `readMeanPose_`. `old` is the content of `mean_pose_` right after
`resize(POSE_SIZE)`, which Eigen leaves unspecified. -/
def readMeanPose_ (POSE_SIZE : Nat) (old : Fin POSE_SIZE → ℚ) (f : MeanPoseFile) :
    Except Fault (Fin POSE_SIZE → ℚ) := do
  if f.size ≠ (POSE_SIZE : Int) - (SPACE_DIM : Int) then throw Fault.priorSizeMismatch
  let mp ← zeroRootPose old
  let (mp, _) ← readPoseBody mp ⟨f.body, false⟩
  pure mp

/-- The loop nest `// To make matrix applicable to full pose vector` of `readStiffness_`. In
`stiffness_(i, j) = stiffness_(j, i) = 0.` the entry `(j, i)` is assigned first. -/
def zeroRootStiffness {POSE_SIZE : Nat} (S : Matrix (Fin POSE_SIZE) (Fin POSE_SIZE) ℚ) :
    Except Fault (Matrix (Fin POSE_SIZE) (Fin POSE_SIZE) ℚ) :=
  forLoop SPACE_DIM (fun i S =>
    forLoop POSE_SIZE (fun j S => do
      let S ← setM S j i 0
      setM S i j 0) S) S

/-- The loop nest `// Now read from file` of `readStiffness_`. -/
def readStiffnessBody {POSE_SIZE : Nat} (S : Matrix (Fin POSE_SIZE) (Fin POSE_SIZE) ℚ)
    (inFile : IStream) : Except Fault (Matrix (Fin POSE_SIZE) (Fin POSE_SIZE) ℚ × IStream) :=
  forRange SPACE_DIM POSE_SIZE
    (fun i (acc : Matrix (Fin POSE_SIZE) (Fin POSE_SIZE) ℚ × IStream) =>
      forRange SPACE_DIM POSE_SIZE (fun j acc => do
        let cur ← getM acc.1 i j
        let (x, st) := acc.2.extract cur
        let S ← setM acc.1 i j x
        pure (S, st)) acc) (S, inFile)

/-- The method `readStiffness_`. `old` is the content of `stiffness_` right after
`resize(POSE_SIZE, POSE_SIZE)`. -/
def readStiffness_ (POSE_SIZE : Nat) (old : Matrix (Fin POSE_SIZE) (Fin POSE_SIZE) ℚ)
    (f : StiffnessFile) : Except Fault (Matrix (Fin POSE_SIZE) (Fin POSE_SIZE) ℚ) := do
  if f.rows ≠ f.cols then throw Fault.stiffnessNotSquare
  if f.rows ≠ (POSE_SIZE : Int) - (SPACE_DIM : Int) then throw Fault.priorSizeMismatch
  let S ← zeroRootStiffness old
  let (S, _) ← readStiffnessBody S ⟨f.body, false⟩
  pure S

/-- The prior that the constructor of `ShapeUnderClothOptimizer` loads: `readMeanPose_`, then
`readStiffness_`. -/
def loadPrior (POSE_SIZE : Nat) (old : PriorModel POSE_SIZE) (fm : MeanPoseFile)
    (fs : StiffnessFile) : Except Fault (PriorModel POSE_SIZE) := do
  let m ← readMeanPose_ POSE_SIZE old.mean_pose_ fm
  let S ← readStiffness_ POSE_SIZE old.stiffness_ fs
  pure ⟨m, S⟩

/-! ## Runs and a small concrete instance -/

/-- A run of the evaluation callback: before each `PrepareForEvaluation` call the solver has
stored the current iterate in the model state. -/
def AbsoluteDistanceBase.runPrepares (b : AbsoluteDistanceBase)
    (calls : List (StatePointers × Bool × Bool)) (s : Sys) : Except Fault Sys :=
  calls.foldlM (fun s c => b.PrepareForEvaluation c.2.1 c.2.2 { s with state := c.1 }) s

/-- How often the model was asked for the displacement Jacobian. -/
def Sys.displacementJacRequests (s : Sys) : Nat :=
  s.model_calls.count JacRequest.displacement

/-- Sizes that the collaborators guarantee: the model returns `VERTICES_NUM` vertices, and
the distance resolver returns one distance and one closest point per query point. -/
def WellSized (smpl : SMPLWrapper) (sd : SignedDistanceFn) : Prop :=
  (∀ t p s d, (smpl.verts t p s d).length = smpl.VERTICES_NUM) ∧
  (∀ P V F, (sd P V F).S.length = P.length ∧ (sd P V F).C.length = P.length)

/-- A one-vertex model: the vertex is `(t0 + shape0 + d00, t1 + pose3, t2)`; through the
two-parameter overload it is `(shape0 + pose3, pose3, 0)`. -/
def toySMPL : SMPLWrapper where
  VERTICES_NUM := 1
  POSE_SIZE := 4
  SHAPE_SIZE := 2
  verts := fun t p s d =>
    [[t.getD 0 0 + s.getD 0 0 + ((d.getD []).getD 0 []).getD 0 0, t.getD 1 0 + p.getD 3 0,
      t.getD 2 0]]
  pose_jac := fun _ _ _ _ i => if i = 3 then [[0, 1, 0]] else [[0, 0, 0]]
  shape_jac := fun _ _ _ _ i => if i = 0 then [[1, 0, 0]] else [[0, 0, 0]]
  displacement_jac := fun _ _ _ _ i =>
    [[if i = 0 then 1 else 0, if i = 1 then 1 else 0, if i = 2 then 1 else 0]]
  calcVertexNormals := fun m => m.map (fun _ => [1, 0, 0])
  vertsPS := fun p s => [[(s.getD []).getD 0 0 + p.getD 3 0, p.getD 3 0, 0]]
  pose_jacPS := fun _ _ i => if i = 3 then [[1, 1, 0]] else [[0, 0, 0]]
  getTemplateMeanPoint := [0, 0, 0]

/-- A target whose surface is the plane `x = 0`, with the outside at `x > 0`. -/
def toyMesh : GeneralMesh where
  getVertices := [[0, 0, 0], [0, 1, 0], [0, 0, 1]]
  getNormalizedVertices := [[0, 0, 0], [0, 1, 0], [0, 0, 1]]
  getFaces := [[0, 1, 2]]
  getFaceNormals := [[1, 0, 0]]
  getMeanPoint := [0, 1 / 3, 1 / 3]

/-- Signed distance to the plane `x = 0`. -/
def toySignedDistance : SignedDistanceFn := fun P _ _ =>
  { S := P.map (fun r => r.getD 0 0)
    I := P.map (fun _ => 0)
    C := P.map (fun r => [0, r.getD 1 0, r.getD 2 0])
    N := P.map (fun _ => [1, 0, 0]) }

/-- Squared distance, with the derivatives of the squared distance. -/
def toyPolicy : ElemPolicy where
  residual_elem_ := fun sd _ _ => sd * sd
  jac_elem_ := fun v c _ g => 2 * dot (rowSub v c) g
  translation_jac_elem_ := fun x c _ => 2 * (x - c)

/-- The block of kind `k` over the concrete instance. -/
def toyBlock (k : ParameterType) (use_pre_computation : Bool) : AbsoluteDistanceBase :=
  AbsoluteDistanceBase.ctor toySMPL toyMesh toySignedDistance toyPolicy k use_pre_computation 0

/-- A fresh system state around the model state `st`. -/
def Sys.fresh (st : StatePointers) : Sys :=
  { state := st, last_result_ := DistanceResult.empty, displacement_jac_evaluated := false,
    model_calls := [], distance_calls := 0 }

/-- An output array filled with zeros. -/
def zeroBuf : Buf := fun _ => 0

deriving instance DecidableEq for Except

/-- The forward pass at the state `st` gives the same vertices and the same pose and shape
Jacobian blocks with the current displacements as without displacements. -/
def DisplacementFree (smpl : SMPLWrapper) (st : StatePointers) : Prop :=
  smpl.verts st.translation st.pose st.shape (some st.displacements)
    = smpl.verts st.translation st.pose st.shape none ∧
  (∀ i, smpl.pose_jac st.translation st.pose st.shape (some st.displacements) i
    = smpl.pose_jac st.translation st.pose st.shape none i) ∧
  (∀ i, smpl.shape_jac st.translation st.pose st.shape (some st.displacements) i
    = smpl.shape_jac st.translation st.pose st.shape none i)

/-- The run "`PrepareForEvaluation(true, true)`, then `Evaluate`" of cached mode. -/
def AbsoluteDistanceBase.cachedEvaluate (b : AbsoluteDistanceBase) (s : Sys)
    (parameters0 : VectorXd) (residuals : Buf) (jacobians : Option (Option Buf)) :
    Except Fault EvalOut :=
  b.PrepareForEvaluation true true s >>= fun s1 => b.Evaluate s1 parameters0 residuals jacobians

/-- A model state with the selected vertex displaced by one unit along `x`. -/
def toyStateDisplaced : StatePointers := ⟨[0, 0, 0], [0, 0, 0, 0], [2, 0], [[1, 0, 0]]⟩

/-- A model state without displacement. -/
def toyStatePlain : StatePointers := ⟨[0, 0, 0], [0, 0, 0, 0], [2, 0], [[0, 0, 0]]⟩

/-- The one-vertex model with ten shape dimensions, the number the SMPL model has. -/
def toySMPL10 : SMPLWrapper := { toySMPL with SHAPE_SIZE := 10 }

/-- The model vertices for (pose, fixed shape) with the translation parameter added to each
coordinate of every vertex. -/
def AbsoluteDistanceForPose.translatedVerts (b : AbsoluteDistanceForPose)
    (pose translation : VectorXd) : MatrixXd :=
  (b.smpl_.vertsPS pose b.shape_).map (fun row => List.zipWith (fun x t => x + t) row translation)

/-- The signed-distance resolution of the translated model vertices against the target
surface. -/
def AbsoluteDistanceForPose.distanceOf (b : AbsoluteDistanceForPose)
    (pose translation : VectorXd) : SignedDistanceOut :=
  b.signed_distance (b.translatedVerts pose translation) b.toMesh_.getVertices
    b.toMesh_.getFaces

/-- Sizes that the collaborators of `AbsoluteDistanceForPose` guarantee: the model returns
`VERTICES_NUM` vertices with three coordinates and Jacobian blocks with `VERTICES_NUM` rows;
the resolver returns one distance and one closest point with three coordinates per query
point. -/
def WellSizedPose (smpl : SMPLWrapper) (sd : SignedDistanceFn) : Prop :=
  (∀ p s, (smpl.vertsPS p s).length = smpl.VERTICES_NUM ∧
    ∀ r ∈ smpl.vertsPS p s, r.length = SPACE_DIM) ∧
  (∀ p s i, (smpl.pose_jacPS p s i).length = smpl.VERTICES_NUM) ∧
  (∀ P V F, (sd P V F).S.length = P.length ∧ (sd P V F).C.length = P.length ∧
    ∀ r ∈ (sd P V F).C, r.length = SPACE_DIM)

/-- The directional block over the concrete instance, with `inside_coef = 1 / 2` and the fixed
shape `[-3]`. -/
def toyPoseBlock : AbsoluteDistanceForPose :=
  AbsoluteDistanceForPose.ctor toySMPL toyMesh toySignedDistance (1 / 2) (some [-3])

/-- The residual of the directional block in the words of the spec: the squared signed
distance, weighted by `inside_coef` when the vertex is not outside. -/
def residualFormula (inside_coef s : ℚ) : ℚ :=
  if s > 0 then s ^ 2 else inside_coef * s ^ 2

/-- The pose derivative of the directional residual in the words of the spec:
`2 * (vertex - closest) . (d vertex / d pose_p)`, scaled by `inside_coef` when inside. -/
def poseJacFormula (inside_coef s : ℚ) (vertex closest dvertex : List ℚ) : ℚ :=
  if s > 0 then 2 * dot (rowSub vertex closest) dvertex
  else inside_coef * (2 * dot (rowSub vertex closest) dvertex)

/-- The translation derivative of the directional residual in the words of the spec:
`2 * (vertex_k - closest_k)`, scaled by `inside_coef` when inside. -/
def translationJacFormula (inside_coef s x c : ℚ) : ℚ :=
  if s > 0 then 2 * (x - c) else inside_coef * (2 * (x - c))

/-- The rows and columns below index `k` are zero. -/
def RootZero {n : Nat} (k : Nat) (M : Matrix (Fin n) (Fin n) ℚ) : Prop :=
  ∀ c d : Fin n, c.val < k ∨ d.val < k → M c d = 0

/-- The content of a prior as lists. -/
def PriorModel.toLists {P : Nat} (o : PriorModel P) : List ℚ × List (List ℚ) :=
  (List.ofFn o.mean_pose_, List.ofFn (fun i => List.ofFn (o.stiffness_ i)))

/-- A prior for four pose dimensions, one of them outside the root rotation. -/
def toyPrior (stiffness : ℚ) : PriorModel 4 where
  mean_pose_ := ![0, 0, 0, 7]
  stiffness_ := !![0, 0, 0, 0; 0, 0, 0, 0; 0, 0, 0, 0; 0, 0, 0, stiffness]

/-- The pose that leaves the mean pose by one unit in the non-root dimension. -/
def toyPose : Fin 4 → ℚ := ![0, 0, 0, 8]

/-- The content of `mean_pose_` and `stiffness_` before loading. -/
def toyOldPrior : PriorModel 4 where
  mean_pose_ := fun _ => 5
  stiffness_ := fun _ _ => 5

/-! ## `ShapeUnderClothOptimizer`: the driver -/

/-- The members `translation_`, `pose_` and `shape_` of `ShapeUnderClothOptimizer`: a null
pointer or the content of the array pointed to. -/
structure ParameterBlocks where
  translation_ : Option (List ℚ)
  pose_ : Option (List ℚ)
  shape_ : Option (List ℚ)
  deriving DecidableEq, Repr

/-- The method `erase_params_`. -/
def erase_params_ (o : ParameterBlocks) : ParameterBlocks :=
  let o := if o.translation_ ≠ none then { o with translation_ := none } else o
  let o := if o.pose_ ≠ none then { o with pose_ := none } else o
  let o := if o.shape_ ≠ none then { o with shape_ := none } else o
  o

/-- The expression `new double[n]`: an array of `n` entries whose content `garbage` is not
specified. -/
def newArray (n : Nat) (garbage : Nat → ℚ) : List ℚ :=
  (List.range n).map garbage

/-- The write `arr[i] = x` on an array. -/
def setArr (arr : List ℚ) (i : Nat) (x : ℚ) : Except Fault (List ℚ) :=
  if i < arr.length then .ok (arr.set i x) else .error .outOfBounds

/-- The method `zeros_(arr, size)`. -/
def zeros_ (arr : List ℚ) (size : Nat) : Except Fault (List ℚ) :=
  forLoop size (fun i arr => setArr arr i 0) arr

/-- The values of `ceres::LinearSolverType` that matter here. -/
inductive LinearSolverType
  | DENSE_QR
  | otherSolver
  deriving DecidableEq, Repr

/-- The values of `ceres::CallbackReturnType`. -/
inductive CallbackReturnType
  | SOLVER_CONTINUE
  | SOLVER_ABORT
  | SOLVER_TERMINATE_SUCCESSFULLY
  deriving DecidableEq, Repr

/-- An entry of `options.callbacks`. The only callback class of the driver is
`SMPLVertsLoggingCallBack`, constructed over the model, the three parameter arrays and the
caller-supplied sequence. -/
inductive IterationCallback
  | SMPLVertsLoggingCallBack
  deriving DecidableEq, Repr

/-- The fields of `ceres::Solver::Options` that `findOptimalParameters` sets. -/
structure SolverOptions where
  linear_solver_type : LinearSolverType
  minimizer_progress_to_stdout : Bool
  max_num_iterations : Nat
  callbacks : List IterationCallback
  update_state_every_iteration : Bool
  deriving DecidableEq, Repr

/-- The solver options that `findOptimalParameters(iteration_results)` sets up. `defaults` is
a default-constructed `Solver::Options`; `iteration_results` is `none` for a null pointer. -/
def findOptimalParameters_options (defaults : SolverOptions)
    (iteration_results : Option (List MatrixXd)) : SolverOptions :=
  let options := { defaults with linear_solver_type := LinearSolverType.DENSE_QR,
                                 minimizer_progress_to_stdout := true,
                                 max_num_iterations := 500 }
  if iteration_results ≠ none then
    { options with
      callbacks := options.callbacks ++ [IterationCallback.SMPLVertsLoggingCallBack],
      update_state_every_iteration := true }
  else options

/-- The part of `findOptimalParameters(iteration_results)` that precedes the solver call
`directionalPoseEstimation_(options)`: the parameter blocks are released and allocated anew
and initialised, and the solver options are set up. `gt`, `gp` and `gs` are the unspecified
contents of the three new arrays. -/
def findOptimalParameters_init (smpl : SMPLWrapper) (input : GeneralMesh)
    (o : ParameterBlocks) (defaults : SolverOptions)
    (iteration_results : Option (List MatrixXd)) (gt gp gs : Nat → ℚ) :
    Except Fault (ParameterBlocks × SolverOptions) := do
  let o := erase_params_ o
  let translation := newArray SPACE_DIM gt
  let pose := newArray smpl.POSE_SIZE gp
  let shape := newArray smpl.SHAPE_SIZE gs
  let translation_guess := rowSub input.getMeanPoint smpl.getTemplateMeanPoint
  if translation_guess.length ≠ SPACE_DIM then throw Fault.assertFailed
  let translation ← forLoop SPACE_DIM (fun i arr => do
    let g ← coeffV translation_guess i
    setArr arr i g) translation
  let pose ← zeros_ pose smpl.POSE_SIZE
  let shape ← zeros_ shape smpl.SHAPE_SIZE
  let o := { o with translation_ := some translation, pose_ := some pose, shape_ := some shape }
  pure (o, findOptimalParameters_options defaults iteration_results)

/-- What the logging callback points to: the three parameter arrays that the solver updates
and the caller-supplied sequence `smpl_verts_results_`. -/
structure LoggingState where
  pose_ : List ℚ
  shape_ : List ℚ
  translation_ : List ℚ
  smpl_verts_results_ : List MatrixXd
  deriving DecidableEq, Repr

/-- The method `SMPLVertsLoggingCallBack::operator()`. -/
def SMPLVertsLoggingCallBack.call (smpl : SMPLWrapper) (s : LoggingState) :
    Except Fault (CallbackReturnType × LoggingState) := do
  let verts := smpl.vertsPS s.pose_ (some s.shape_)
  let verts ← forLoop smpl.VERTICES_NUM (fun i m =>
    forLoop SPACE_DIM (fun j m => do
      let t ← coeffV s.translation_ j
      addAt m i j t) m) verts
  pure (CallbackReturnType.SOLVER_CONTINUE,
    { s with smpl_verts_results_ := s.smpl_verts_results_ ++ [verts] })

/-- A default-constructed `Solver::Options`: no callback, the state not updated every
iteration. -/
def toyDefaults : SolverOptions :=
  { linear_solver_type := LinearSolverType.otherSolver, minimizer_progress_to_stdout := false,
    max_num_iterations := 50, callbacks := [], update_state_every_iteration := false }

/-- The indices of the output array that `fillJac` stores to, in the order of the stores: the
loop nest of `fillJac` with every store `jacobian[k] = ...` recorded as `k`. -/
def AbsoluteDistanceBase.fillJacStores (b : AbsoluteDistanceBase) : Except Fault (List Nat) :=
  forLoop b.smpl_.VERTICES_NUM (fun v_id log => do
    let n ← b.blockSize0
    forLoop n (fun param_id log => do
      let n ← b.blockSize0
      pure (log ++ [v_id * n + param_id])) log) []

/-- A distance result of the one-vertex model with three Jacobian blocks. -/
def toyResult : DistanceResult :=
  { verts := [[2, 1, 0]], verts_normals := [[1, 0, 0]], signedDists := [2],
    closest_face_ids := [0], closest_points := [[0, 1, 0]], normals_for_sign := [[1, 0, 0]],
    jacobian := [[[1, 0, 0]], [[0, 1, 0]], [[3, 0, 1]]] }

/-! ## Theorems -/

/-- C7: a block constructed by `AbsoluteDistanceBase` declares exactly one parameter block;
Translation has `V` residuals and parameter size 3, Shape `V` and `SHAPE_SIZE`, Pose `V` and
`POSE_SIZE`, Displacement 1 residual and parameter size 3. -/
theorem AbsoluteDistanceBase.ctor_sizes (smpl : SMPLWrapper) (toMesh : GeneralMesh)
    (sd : SignedDistanceFn) (policy : ElemPolicy) (use_pre_computation : Bool)
    (vertex_id : Nat) :
    ((ctor smpl toMesh sd policy .TRANSLATION use_pre_computation vertex_id).num_residuals
        = smpl.VERTICES_NUM ∧
      (ctor smpl toMesh sd policy .TRANSLATION use_pre_computation vertex_id).parameter_block_sizes
        = [3]) ∧
    ((ctor smpl toMesh sd policy .SHAPE use_pre_computation vertex_id).num_residuals
        = smpl.VERTICES_NUM ∧
      (ctor smpl toMesh sd policy .SHAPE use_pre_computation vertex_id).parameter_block_sizes
        = [smpl.SHAPE_SIZE]) ∧
    ((ctor smpl toMesh sd policy .POSE use_pre_computation vertex_id).num_residuals
        = smpl.VERTICES_NUM ∧
      (ctor smpl toMesh sd policy .POSE use_pre_computation vertex_id).parameter_block_sizes
        = [smpl.POSE_SIZE]) ∧
    ((ctor smpl toMesh sd policy .DISPLACEMENT use_pre_computation vertex_id).num_residuals
        = 1 ∧
      (ctor smpl toMesh sd policy .DISPLACEMENT use_pre_computation vertex_id).parameter_block_sizes
        = [3]) := by
  simp [ctor, SPACE_DIM]

/-! ### Evaluation in the error monad and loops -/

theorem forLoop_zero {σ : Type} (body : Nat → σ → Except Fault σ) (init : σ) :
    forLoop 0 body init = .ok init := by
  simp [forLoop]
  rfl

theorem forLoop_succ {σ : Type} (n : Nat) (body : Nat → σ → Except Fault σ) (init : σ) :
    forLoop (n + 1) body init = (forLoop n body init >>= fun s => body n s) := by
  simp [forLoop, List.range_succ, List.foldlM_append]

/-- Loop invariants: an invariant that every iteration re-establishes, without fault, holds
after the loop, which then ends without fault. -/
theorem forLoop_inv {σ : Type} (P : Nat → σ → Prop) (n : Nat)
    (body : Nat → σ → Except Fault σ) (init : σ) (h0 : P 0 init)
    (hstep : ∀ i s, i < n → P i s → ∃ s1, body i s = .ok s1 ∧ P (i + 1) s1) :
    ∃ s1, forLoop n body init = .ok s1 ∧ P n s1 := by
  induction n with
  | zero => exact ⟨init, forLoop_zero body init, h0⟩
  | succ k ih =>
    obtain ⟨s1, h1, hp1⟩ := ih (fun i s hi hp => hstep i s (Nat.lt_succ_of_lt hi) hp)
    obtain ⟨s2, h2, hp2⟩ := hstep k s1 (Nat.lt_succ_self k) hp1
    refine ⟨s2, ?_, hp2⟩
    rw [forLoop_succ, h1]
    exact h2

theorem forRange_eq_forLoop {σ : Type} (lo hi : Nat) (body : Nat → σ → Except Fault σ)
    (init : σ) :
    forRange lo hi body init = forLoop (hi - lo) (fun k s => body (lo + k) s) init := by
  simp [forRange, forLoop, List.range'_eq_map_range, List.foldlM_map]

/-- A loop that stores `f i` at index `i`. -/
theorem forLoop_fill1D (n : Nat) (body : Nat → Buf → Except Fault Buf) (f : Nat → ℚ)
    (hbody : ∀ i J, i < n → body i J = .ok (Function.update J i (f i))) (J0 : Buf) :
    forLoop n body J0 = .ok (fun k => if k < n then f k else J0 k) := by
  obtain ⟨s1, h, hp⟩ := forLoop_inv (fun i J => J = fun k => if k < i then f k else J0 k)
    n body J0 (by simp) (by
      intro i s hi hp
      refine ⟨_, hbody i s hi, ?_⟩
      subst hp
      funext k
      by_cases hk : k = i
      · subst hk; simp
      · have : k < i + 1 ↔ k < i := by omega
        simp [Function.update, hk, this])
  rw [h, hp]

/-- A loop nest that stores `f v p` at the row-major index `v * n + p`. -/
theorem forLoop_fill2D (V n : Nat) (body : Nat → Nat → Buf → Except Fault Buf)
    (f : Nat → Nat → ℚ)
    (hbody : ∀ v p J, v < V → p < n →
      body v p J = .ok (Function.update J (v * n + p) (f v p))) (J0 : Buf) :
    forLoop V (fun v J => forLoop n (fun p J => body v p J) J) J0
      = .ok (fun k => if k < V * n then f (k / n) (k % n) else J0 k) := by
  obtain ⟨s1, h, hp⟩ := forLoop_inv
    (fun v J => J = fun k => if k < v * n then f (k / n) (k % n) else J0 k)
    V (fun v J => forLoop n (fun p J => body v p J) J) J0 (by simp) (by
      intro v s hv hs
      obtain ⟨t, ht, hpt⟩ := forLoop_inv
        (fun p J => J = fun k => if k < v * n + p then f (k / n) (k % n) else J0 k)
        n (fun p J => body v p J) s (by simpa using hs) (by
          intro p J hp hJ
          refine ⟨_, hbody v p J hv hp, ?_⟩
          subst hJ
          funext k
          by_cases hk : k = v * n + p
          · subst hk
            have h1 : (v * n + p) / n = v := by
              rw [Nat.mul_comm, Nat.mul_add_div (by omega), Nat.div_eq_of_lt hp]; simp
            have h2 : (v * n + p) % n = p := by
              rw [Nat.mul_comm, Nat.mul_add_mod, Nat.mod_eq_of_lt hp]
            simp [h1, h2]
          · have : k < v * n + (p + 1) ↔ k < v * n + p := by omega
            simp [Function.update, hk, this])
      refine ⟨t, ht, ?_⟩
      rw [hpt]
      show _ = fun k => if k < (v + 1) * n then f (k / n) (k % n) else J0 k
      rw [Nat.succ_mul])
  rw [h, hp]

@[simp] theorem ok_bind {α β : Type} (a : α) (f : α → Except Fault β) :
    (Except.ok a >>= f) = f a := rfl

@[simp] theorem error_bind {α β : Type} (e : Fault) (f : α → Except Fault β) :
    ((Except.error e : Except Fault α) >>= f) = Except.error e := rfl

@[simp] theorem throw_eq_error {α : Type} (e : Fault) :
    (throw e : Except Fault α) = Except.error e := rfl

@[simp] theorem pure_eq_ok {α : Type} (a : α) :
    (pure a : Except Fault α) = Except.ok a := rfl

theorem resize_length (v : List MatrixXd) (n : Nat) : (resize v n).length = n := by
  simp [resize]; omega

@[simp] theorem writeBlocks_resize (v : List MatrixXd) (n : Nat) (blk : Nat → MatrixXd) :
    writeBlocks (resize v n) n blk = .ok ((List.range n).map blk) := by
  have h := resize_length v n
  simp [writeBlocks, h, List.drop_eq_nil_of_le]

/-! ### C1: cached mode against immediate mode -/

/-- C1 (as amended): for a Shape or Pose block, when the model state holds `p` for the own
parameter of the block and the forward pass of the model gives the same vertices and Jacobian
blocks with the current displacements as without them, `Evaluate` in cached mode after
`PrepareForEvaluation(true, true)` leaves the same return value, residuals and Jacobian as
`Evaluate` in immediate mode called with `parameters[0] = p`, whether or not a Jacobian is
requested. -/
theorem AbsoluteDistanceBase.cached_eq_immediate (smpl : SMPLWrapper) (toMesh : GeneralMesh)
    (sd : SignedDistanceFn) (policy : ElemPolicy) (vertex_id : Nat) (k : ParameterType)
    (s : Sys) (p : VectorXd) (residuals : Buf) (jacobians : Option (Option Buf))
    (hk : k = .SHAPE ∨ k = .POSE)
    (hp : (k = .SHAPE → s.state.shape = p) ∧ (k = .POSE → s.state.pose = p))
    (hd : DisplacementFree smpl s.state) :
    (ctor smpl toMesh sd policy k true vertex_id).cachedEvaluate s p residuals jacobians
      = (ctor smpl toMesh sd policy k false vertex_id).Evaluate s p residuals jacobians := by
  obtain ⟨hv, hpj, hsj⟩ := hd
  have hpj1 := funext hpj
  have hsj1 := funext hsj
  rcases hk with rfl | rfl
  · obtain rfl := hp.1 rfl
    rcases jacobians with _ | _ | J0 <;>
    simp [cachedEvaluate, PrepareForEvaluation, updateDistanceCalculations, Evaluate,
      calcDistance, updateShapeCase, ctor, blockSize0, SMPLWrapper.calcModel,
      calcSignedDistByVertecies, fillResiduals, fillJacobians, residualAt, fillJac,
      hv, hsj1, DistanceResult.empty] <;>
    split <;> try simp
    all_goals split <;> try simp
  · obtain rfl := hp.2 rfl
    rcases jacobians with _ | _ | J0 <;>
    simp [cachedEvaluate, PrepareForEvaluation, updateDistanceCalculations, Evaluate,
      calcDistance, updateShapeCase, ctor, blockSize0, SMPLWrapper.calcModel,
      calcSignedDistByVertecies, fillResiduals, fillJacobians, residualAt, fillJac,
      hv, hpj1, DistanceResult.empty] <;>
    split <;> try simp
    all_goals split <;> try simp

/-- C1, witness: a Shape block over the one-vertex model at a state without displacement;
both modes leave the residual 4 and the Jacobian row `(4, 0)`. -/
theorem AbsoluteDistanceBase.cached_eq_immediate_witness :
    ((ParameterType.SHAPE = .SHAPE ∨ ParameterType.SHAPE = .POSE) ∧
      ((ParameterType.SHAPE = .SHAPE → (Sys.fresh toyStatePlain).state.shape = [2, 0]) ∧
        (ParameterType.SHAPE = .POSE → (Sys.fresh toyStatePlain).state.pose = [2, 0])) ∧
      DisplacementFree toySMPL (Sys.fresh toyStatePlain).state) ∧
    (toyBlock .SHAPE true).cachedEvaluate (Sys.fresh toyStatePlain) [2, 0] zeroBuf
        (some (some zeroBuf))
      = (toyBlock .SHAPE false).Evaluate (Sys.fresh toyStatePlain) [2, 0] zeroBuf
        (some (some zeroBuf)) ∧
    (fun o => (o.ret, o.residuals 0, o.jacobian0.map (fun J => [J 0, J 1]))) <$>
        (toyBlock .SHAPE false).Evaluate (Sys.fresh toyStatePlain) [2, 0] zeroBuf
          (some (some zeroBuf))
      = .ok (true, 4, some [4, 0]) :=
  have h1 : ParameterType.SHAPE = .SHAPE ∨ ParameterType.SHAPE = .POSE := Or.inl rfl
  have h2 : (ParameterType.SHAPE = .SHAPE → (Sys.fresh toyStatePlain).state.shape = [2, 0]) ∧
      (ParameterType.SHAPE = .POSE → (Sys.fresh toyStatePlain).state.pose = [2, 0]) :=
    ⟨fun _ => rfl, fun h => by cases h⟩
  have h3 : DisplacementFree toySMPL (Sys.fresh toyStatePlain).state :=
    ⟨by decide!, fun _ => rfl, fun _ => rfl⟩
  ⟨⟨h1, h2, h3⟩,
    cached_eq_immediate toySMPL toyMesh toySignedDistance toyPolicy 0 .SHAPE
      (Sys.fresh toyStatePlain) [2, 0] zeroBuf (some (some zeroBuf)) h1 h2 h3,
    by decide!⟩

/-- C1, counterexample to the claim as stated: a Shape block whose own parameter `[2, 0]` is the
one the model state holds, at a state with a displaced vertex. Cached mode runs the forward
pass with the displacements and leaves the residual 9; immediate mode runs it without them
and leaves the residual 4. -/
theorem AbsoluteDistanceBase.cached_ne_immediate :
    toyStateDisplaced.shape = [2, 0] ∧
    (fun o => o.residuals 0) <$>
        (toyBlock .SHAPE true).cachedEvaluate (Sys.fresh toyStateDisplaced) [2, 0] zeroBuf none
      = .ok 9 ∧
    (fun o => o.residuals 0) <$>
        (toyBlock .SHAPE false).Evaluate (Sys.fresh toyStateDisplaced) [2, 0] zeroBuf none
      = .ok 4 := by
  decide!

/-! ### C2: one forward pass per recomputation -/

/-- C2 (the code at the failing input): `PrepareForEvaluation(true, false)` of a Translation
block runs the forward pass twice, first without Jacobian and then, since `case TRANSLATION`
has no `break`, again with the shape Jacobian written through `&jacobian[0]`, before the one
distance resolution; with ten shape dimensions that second pass writes past the three entries
of the `jacobian` vector. -/
theorem AbsoluteDistanceBase.prepare_translation_two_passes :
    (fun s => (s.model_calls, s.distance_calls)) <$>
        (toyBlock .TRANSLATION true).PrepareForEvaluation true false (Sys.fresh toyStatePlain)
      = .ok ([JacRequest.noJac, JacRequest.shape], 1) ∧
    (ctor toySMPL10 toyMesh toySignedDistance toyPolicy .TRANSLATION true
        0).PrepareForEvaluation true false (Sys.fresh toyStatePlain)
      = .error Fault.outOfBounds := by
  decide!

/-- For Shape, Pose and Displacement blocks `PrepareForEvaluation` recomputes as described:
with a flag set it runs one forward pass at the current state and one distance resolution,
with both flags clear it leaves the system as it is. -/
theorem AbsoluteDistanceBase.prepare_one_pass (smpl : SMPLWrapper) (toMesh : GeneralMesh)
    (sd : SignedDistanceFn) (policy : ElemPolicy) (use_pre_computation : Bool)
    (vertex_id : Nat) (k : ParameterType) (s : Sys) (ej nep : Bool)
    (hk : k = .SHAPE ∨ k = .POSE ∨ k = .DISPLACEMENT) (hw : WellSized smpl sd) :
    ∃ s1, (ctor smpl toMesh sd policy k use_pre_computation vertex_id).PrepareForEvaluation
        ej nep s = .ok s1 ∧
      (if (ej || nep) = true then
        s1.model_calls.length = s.model_calls.length + 1 ∧
        s1.distance_calls = s.distance_calls + 1 ∧
        s1.last_result_.verts = smpl.verts s.state.translation s.state.pose s.state.shape
          (some s.state.displacements)
      else s1 = s) := by
  have hv := hw.1 s.state.translation s.state.pose s.state.shape (some s.state.displacements)
  have hs := hw.2 (smpl.verts s.state.translation s.state.pose s.state.shape
    (some s.state.displacements)) toMesh.getNormalizedVertices toMesh.getFaces
  rcases hk with rfl | rfl | rfl <;> cases ej <;> cases nep <;>
  simp [PrepareForEvaluation, updateDistanceCalculations, updateShapeCase, ctor, blockSize0,
    SMPLWrapper.calcModel, calcSignedDistByVertecies, hv, hs.1, hs.2, SPACE_DIM]
  all_goals (cases hf : s.displacement_jac_evaluated <;> simp [hf, hv, hs.1, hs.2])

/-! ### C3: the displacement Jacobian is computed once -/

/-- A `PrepareForEvaluation` call of a Displacement block that does not compute the Jacobian:
no Jacobian is asked of the model and the stored Jacobian entries stay as they are. -/
theorem AbsoluteDistanceBase.prepare_displacement_keep (smpl : SMPLWrapper)
    (toMesh : GeneralMesh) (sd : SignedDistanceFn) (policy : ElemPolicy)
    (use_pre_computation : Bool) (vertex_id : Nat) (hw : WellSized smpl sd) (s : Sys)
    (ej nep : Bool) (h : ej = false ∨ s.displacement_jac_evaluated = true) :
    ∃ s1, (ctor smpl toMesh sd policy .DISPLACEMENT use_pre_computation
        vertex_id).PrepareForEvaluation ej nep s = .ok s1 ∧
      s1.displacement_jac_evaluated = s.displacement_jac_evaluated ∧
      s1.displacementJacRequests = s.displacementJacRequests ∧
      s1.last_result_.jacobian = s.last_result_.jacobian := by
  have hv := hw.1 s.state.translation s.state.pose s.state.shape (some s.state.displacements)
  have hs := hw.2 (smpl.verts s.state.translation s.state.pose s.state.shape
    (some s.state.displacements)) toMesh.getNormalizedVertices toMesh.getFaces
  rcases h with rfl | h
  · cases nep <;>
    simp [PrepareForEvaluation, updateDistanceCalculations, ctor,
      SMPLWrapper.calcModel, calcSignedDistByVertecies, hv, hs.1, hs.2,
      Sys.displacementJacRequests]
  · cases ej <;> cases nep <;>
    simp [PrepareForEvaluation, updateDistanceCalculations, ctor, h,
      SMPLWrapper.calcModel, calcSignedDistByVertecies, hv, hs.1, hs.2,
      Sys.displacementJacRequests]

/-- The first `PrepareForEvaluation` call of a Displacement block that asks for the Jacobian:
the model is asked for the displacement Jacobian once and the flag is set. -/
theorem AbsoluteDistanceBase.prepare_displacement_first (smpl : SMPLWrapper)
    (toMesh : GeneralMesh) (sd : SignedDistanceFn) (policy : ElemPolicy)
    (use_pre_computation : Bool) (vertex_id : Nat) (hw : WellSized smpl sd) (s : Sys)
    (nep : Bool) (h : s.displacement_jac_evaluated = false) :
    ∃ s1, (ctor smpl toMesh sd policy .DISPLACEMENT use_pre_computation
        vertex_id).PrepareForEvaluation true nep s = .ok s1 ∧
      s1.displacement_jac_evaluated = true ∧
      s1.displacementJacRequests = s.displacementJacRequests + 1 ∧
      s1.last_result_.jacobian = (List.range 3).map (smpl.displacement_jac
        s.state.translation s.state.pose s.state.shape (some s.state.displacements)) := by
  have hv := hw.1 s.state.translation s.state.pose s.state.shape (some s.state.displacements)
  have hs := hw.2 (smpl.verts s.state.translation s.state.pose s.state.shape
    (some s.state.displacements)) toMesh.getNormalizedVertices toMesh.getFaces
  simp [PrepareForEvaluation, updateDistanceCalculations, ctor, h, blockSize0,
    SMPLWrapper.calcModel, calcSignedDistByVertecies, hv, hs.1, hs.2,
    Sys.displacementJacRequests, SPACE_DIM]


theorem AbsoluteDistanceBase.runPrepares_append (b : AbsoluteDistanceBase)
    (xs ys : List (StatePointers × Bool × Bool)) (s : Sys) :
    b.runPrepares (xs ++ ys) s = (b.runPrepares xs s >>= fun s1 => b.runPrepares ys s1) := by
  simp [runPrepares, List.foldlM_append]

/-- A run of a Displacement block in which no call computes the Jacobian. -/
theorem AbsoluteDistanceBase.runPrepares_displacement_keep (smpl : SMPLWrapper)
    (toMesh : GeneralMesh) (sd : SignedDistanceFn) (policy : ElemPolicy)
    (use_pre_computation : Bool) (vertex_id : Nat) (hw : WellSized smpl sd)
    (calls : List (StatePointers × Bool × Bool)) (s : Sys)
    (h : s.displacement_jac_evaluated = true ∨ ∀ c ∈ calls, c.2.1 = false) :
    ∃ s1, (ctor smpl toMesh sd policy .DISPLACEMENT use_pre_computation
        vertex_id).runPrepares calls s = .ok s1 ∧
      s1.displacement_jac_evaluated = s.displacement_jac_evaluated ∧
      s1.displacementJacRequests = s.displacementJacRequests ∧
      s1.last_result_.jacobian = s.last_result_.jacobian := by
  induction calls generalizing s with
  | nil => exact ⟨s, rfl, rfl, rfl, rfl⟩
  | cons c cs ih =>
    have hc : c.2.1 = false ∨
        ({ s with state := c.1 } : Sys).displacement_jac_evaluated = true := by
      rcases h with h | h
      · exact Or.inr h
      · exact Or.inl (h c (List.mem_cons_self c cs))
    obtain ⟨s1, h1, hf1, hr1, hj1⟩ := prepare_displacement_keep smpl toMesh sd policy
      use_pre_computation vertex_id hw { s with state := c.1 } c.2.1 c.2.2 hc
    have hcs : s1.displacement_jac_evaluated = true ∨ ∀ x ∈ cs, x.2.1 = false := by
      rcases h with h | h
      · exact Or.inl (by rw [hf1]; exact h)
      · exact Or.inr (fun x hx => h x (List.mem_cons_of_mem c hx))
    obtain ⟨s2, h2, hf2, hr2, hj2⟩ := ih s1 hcs
    refine ⟨s2, ?_, ?_, ?_, ?_⟩
    · have : (ctor smpl toMesh sd policy .DISPLACEMENT use_pre_computation
          vertex_id).runPrepares (c :: cs) s
          = ((ctor smpl toMesh sd policy .DISPLACEMENT use_pre_computation
              vertex_id).PrepareForEvaluation c.2.1 c.2.2 { s with state := c.1 } >>= fun s1 =>
            (ctor smpl toMesh sd policy .DISPLACEMENT use_pre_computation
              vertex_id).runPrepares cs s1) := by
        simp [runPrepares, List.foldlM_cons]
      rw [this, h1]
      exact h2
    · rw [hf2, hf1]
    · rw [hr2, hr1]; rfl
    · rw [hj2, hj1]

/-- C3: for a Displacement block with a fresh flag, in every run of `PrepareForEvaluation`
calls the model is asked for the displacement Jacobian exactly once, at the first call with
`evaluate_jacobians = true`: not in the calls `pre` before it, once in that call, and never in
the calls `post` after it, which leave the stored Jacobian entries unchanged whatever they
request. -/
theorem AbsoluteDistanceBase.displacement_jacobian_once (smpl : SMPLWrapper)
    (toMesh : GeneralMesh) (sd : SignedDistanceFn) (policy : ElemPolicy)
    (use_pre_computation : Bool) (vertex_id : Nat) (s : Sys)
    (pre post : List (StatePointers × Bool × Bool)) (st : StatePointers) (nep : Bool)
    (hw : WellSized smpl sd) (hfresh : s.displacement_jac_evaluated = false)
    (hpre : ∀ c ∈ pre, c.2.1 = false) :
    ∃ s1 s2 s3,
      (ctor smpl toMesh sd policy .DISPLACEMENT use_pre_computation vertex_id).runPrepares
        pre s = .ok s1 ∧
      (ctor smpl toMesh sd policy .DISPLACEMENT use_pre_computation vertex_id).runPrepares
        (pre ++ [(st, true, nep)]) s = .ok s2 ∧
      (ctor smpl toMesh sd policy .DISPLACEMENT use_pre_computation vertex_id).runPrepares
        (pre ++ (st, true, nep) :: post) s = .ok s3 ∧
      s1.displacementJacRequests = s.displacementJacRequests ∧
      s2.displacementJacRequests = s.displacementJacRequests + 1 ∧
      s3.displacementJacRequests = s.displacementJacRequests + 1 ∧
      s3.last_result_.jacobian = s2.last_result_.jacobian := by
  obtain ⟨s1, h1, hf1, hr1, _⟩ := runPrepares_displacement_keep smpl toMesh sd policy
    use_pre_computation vertex_id hw pre s (Or.inr hpre)
  obtain ⟨s2, h2, hf2, hr2, _⟩ := prepare_displacement_first smpl toMesh sd policy
    use_pre_computation vertex_id hw { s1 with state := st } nep (by simpa [hfresh] using hf1)
  obtain ⟨s3, h3, _, hr3, hj3⟩ := runPrepares_displacement_keep smpl toMesh sd policy
    use_pre_computation vertex_id hw post s2 (Or.inl hf2)
  have hstep : (ctor smpl toMesh sd policy .DISPLACEMENT use_pre_computation
      vertex_id).runPrepares [(st, true, nep)] s1 = .ok s2 := by
    simp only [runPrepares, List.foldlM_cons, List.foldlM_nil]
    rw [h2]
    rfl
  have hstep3 : (ctor smpl toMesh sd policy .DISPLACEMENT use_pre_computation
      vertex_id).runPrepares ((st, true, nep) :: post) s1 = .ok s3 := by
    have := runPrepares_append (ctor smpl toMesh sd policy .DISPLACEMENT use_pre_computation
      vertex_id) [(st, true, nep)] post s1
    simp only [List.singleton_append] at this
    rw [this, hstep]
    exact h3
  have hr2' : s2.displacementJacRequests = s.displacementJacRequests + 1 := by
    rw [hr2, ← hr1]; rfl
  refine ⟨s1, s2, s3, h1, ?_, ?_, hr1, hr2', ?_, hj3⟩
  · rw [runPrepares_append, h1]; exact hstep
  · rw [runPrepares_append, h1]; exact hstep3
  · rw [hr3, hr2']


/-- The concrete model and resolver keep the guaranteed sizes. -/
theorem toy_wellSized : WellSized toySMPL toySignedDistance :=
  ⟨fun _ _ _ _ => rfl, fun P _ _ => by simp [toySignedDistance]⟩

/-- C3, witness: a run of four calls over the one-vertex model, the second being the first
that asks for Jacobians. -/
theorem AbsoluteDistanceBase.displacement_jacobian_once_witness :
    (WellSized toySMPL toySignedDistance ∧
      (Sys.fresh toyStatePlain).displacement_jac_evaluated = false ∧
      ∀ c ∈ [(toyStatePlain, false, true)], c.2.1 = false) ∧
    ∃ s1 s2 s3,
      (ctor toySMPL toyMesh toySignedDistance toyPolicy .DISPLACEMENT true 0).runPrepares
        [(toyStatePlain, false, true)] (Sys.fresh toyStatePlain) = .ok s1 ∧
      (ctor toySMPL toyMesh toySignedDistance toyPolicy .DISPLACEMENT true 0).runPrepares
        ([(toyStatePlain, false, true)] ++ [(toyStateDisplaced, true, false)])
        (Sys.fresh toyStatePlain) = .ok s2 ∧
      (ctor toySMPL toyMesh toySignedDistance toyPolicy .DISPLACEMENT true 0).runPrepares
        ([(toyStatePlain, false, true)] ++ (toyStateDisplaced, true, false) ::
          [(toyStatePlain, true, true), (toyStateDisplaced, true, false)])
        (Sys.fresh toyStatePlain) = .ok s3 ∧
      s1.displacementJacRequests = (Sys.fresh toyStatePlain).displacementJacRequests ∧
      s2.displacementJacRequests = (Sys.fresh toyStatePlain).displacementJacRequests + 1 ∧
      s3.displacementJacRequests = (Sys.fresh toyStatePlain).displacementJacRequests + 1 ∧
      s3.last_result_.jacobian = s2.last_result_.jacobian :=
  have hpre : ∀ c ∈ [(toyStatePlain, false, true)], c.2.1 = false := by
    intro c hc
    rw [List.mem_singleton] at hc
    rw [hc]
  ⟨⟨toy_wellSized, rfl, hpre⟩,
    displacement_jacobian_once toySMPL toyMesh toySignedDistance toyPolicy true 0
      (Sys.fresh toyStatePlain) [(toyStatePlain, false, true)]
      [(toyStatePlain, true, true), (toyStateDisplaced, true, false)] toyStateDisplaced false
      toy_wellSized rfl hpre⟩

/-! ### C4, C5, C6: the directional pose and translation block -/

theorem coeffV_of_lt (v : VectorXd) (i : Nat) (h : i < v.length) :
    coeffV v i = .ok (v.getD i 0) := by
  simp [coeffV, List.getD, List.getElem?_eq_getElem h]

theorem rowM_of_lt (m : MatrixXd) (i : Nat) (h : i < m.length) :
    rowM m i = .ok (m.getD i []) := by
  simp [rowM, List.getD, List.getElem?_eq_getElem h]

theorem blockAt_of_lt (v : List MatrixXd) (i : Nat) (h : i < v.length) :
    blockAt v i = .ok (v.getD i []) := by
  simp [blockAt, List.getD, List.getElem?_eq_getElem h]

theorem coeffM_of_lt (m : MatrixXd) (i j : Nat) (hi : i < m.length)
    (hj : j < (m.getD i []).length) :
    coeffM m i j = .ok ((m.getD i []).getD j 0) := by
  simp only [coeffM, rowM_of_lt m i hi, ok_bind, coeffV_of_lt _ j hj]

/-- The inner `// translate` loop adds the translation to the three coordinates of row `i`. -/
theorem translate_row (m : MatrixXd) (t : VectorXd) (i : Nat) (hi : i < m.length)
    (hr : (m.getD i []).length = SPACE_DIM) (ht : t.length = SPACE_DIM) :
    forLoop SPACE_DIM (fun j m => do
        let x ← coeffV t j
        addAt m i j x) m
      = .ok (m.set i (List.zipWith (fun x t => x + t) (m.getD i []) t)) := by
  have hmi : m[i]? = some (m.getD i []) := by
    simp [List.getD, List.getElem?_eq_getElem hi]
  generalize hrow : m.getD i [] = r at hr hmi
  match r, hr with
  | [a, b, c], _ =>
    match t, ht with
    | [x, y, z], _ =>
      simp [forLoop, SPACE_DIM, List.range_succ, coeffV, addAt, rowM, hmi, hi]


/-- The `// translate` loop adds the translation parameter to every vertex. -/
theorem AbsoluteDistanceForPose.translate_eq (b : AbsoluteDistanceForPose) (verts : MatrixXd)
    (t : VectorXd) (hv : verts.length = b.smpl_.VERTICES_NUM)
    (hr : ∀ r ∈ verts, r.length = SPACE_DIM) (ht : t.length = SPACE_DIM) :
    b.translate verts t
      = .ok (verts.map (fun row => List.zipWith (fun x t => x + t) row t)) := by
  obtain ⟨m, hm, hlen, hget⟩ := forLoop_inv
    (fun i m => m.length = verts.length ∧ ∀ k, m[k]? =
      if k < i then (verts[k]?).map (fun row => List.zipWith (fun x t => x + t) row t)
      else verts[k]?)
    b.smpl_.VERTICES_NUM (fun i m => forLoop SPACE_DIM (fun j m => do
        let x ← coeffV t j
        addAt m i j x) m) verts ⟨rfl, fun k => by simp⟩ (by
      intro i m hi ⟨hlen, hget⟩
      have hi1 : i < m.length := by omega
      have hi2 : i < verts.length := by omega
      have hrow : m.getD i [] = verts.getD i [] := by
        have := hget i
        simp only [lt_irrefl, if_false] at this
        simp [List.getD, this]
      have hrl : (m.getD i []).length = SPACE_DIM := by
        rw [hrow]
        apply hr
        have hg : verts.getD i [] = verts[i] := by
          simp [List.getD, List.getElem?_eq_getElem hi2]
        rw [hg]
        exact List.getElem_mem hi2
      refine ⟨_, translate_row m t i hi1 hrl ht, by simp [hlen], ?_⟩
      intro k
      rw [List.getElem?_set]
      by_cases hk : i = k
      · subst hk
        have hg : verts[i]? = some (verts.getD i []) := by
          simp [List.getD, List.getElem?_eq_getElem hi2]
        rw [hrow, hg]
        simp [hi1]
      · have h1 : (k < i + 1) = (k < i) := by
          apply propext
          constructor <;> intro h <;> omega
        simp only [hk, if_false, hget k, h1])
  rw [AbsoluteDistanceForPose.translate, hm]
  congr 1
  apply List.ext_getElem?
  intro k
  rw [hget k]
  by_cases hk : k < b.smpl_.VERTICES_NUM
  · simp [hk]
  · have hk2 : verts.length ≤ k := by omega
    simp [hk, List.getElem?_eq_none hk2]


theorem AbsoluteDistanceForPose.fillResiduals_eq (b : AbsoluteDistanceForPose)
    (S : VectorXd) (res : Buf) (hS : S.length = b.smpl_.VERTICES_NUM) :
    b.fillResiduals S res = .ok (fun k =>
      if k < b.smpl_.VERTICES_NUM then
        (if S.getD k 0 > 0 then S.getD k 0 * S.getD k 0
         else b.inside_coef_ * S.getD k 0 * S.getD k 0)
      else res k) := by
  unfold AbsoluteDistanceForPose.fillResiduals
  apply forLoop_fill1D
  intro i J hi
  rw [coeffV_of_lt S i (by omega)]
  rfl

theorem AbsoluteDistanceForPose.fillPoseJac_eq (b : AbsoluteDistanceForPose)
    (S : VectorXd) (verts C : MatrixXd) (pj : List MatrixXd) (J : Buf)
    (hS : S.length = b.smpl_.VERTICES_NUM) (hv : verts.length = b.smpl_.VERTICES_NUM)
    (hC : C.length = b.smpl_.VERTICES_NUM) (hpj : pj.length = b.smpl_.POSE_SIZE)
    (hblk : ∀ p, p < b.smpl_.POSE_SIZE → (pj.getD p []).length = b.smpl_.VERTICES_NUM) :
    b.fillPoseJac S verts C pj J = .ok (fun k =>
      if k < b.smpl_.VERTICES_NUM * b.smpl_.POSE_SIZE then
        (if S.getD (k / b.smpl_.POSE_SIZE) 0 > 0 then
          2 * dot (rowSub (verts.getD (k / b.smpl_.POSE_SIZE) [])
            (C.getD (k / b.smpl_.POSE_SIZE) []))
            ((pj.getD (k % b.smpl_.POSE_SIZE) []).getD (k / b.smpl_.POSE_SIZE) [])
         else b.inside_coef_ * 2 * dot (rowSub (verts.getD (k / b.smpl_.POSE_SIZE) [])
            (C.getD (k / b.smpl_.POSE_SIZE) []))
            ((pj.getD (k % b.smpl_.POSE_SIZE) []).getD (k / b.smpl_.POSE_SIZE) []))
      else J k) := by
  unfold AbsoluteDistanceForPose.fillPoseJac
  apply forLoop_fill2D b.smpl_.VERTICES_NUM b.smpl_.POSE_SIZE _ (fun v p =>
    if S.getD v 0 > 0 then
      2 * dot (rowSub (verts.getD v []) (C.getD v [])) ((pj.getD p []).getD v [])
    else b.inside_coef_ * 2 * dot (rowSub (verts.getD v []) (C.getD v []))
      ((pj.getD p []).getD v []))
  intro v p J hv1 hp1
  rw [coeffV_of_lt S v (by omega), rowM_of_lt verts v (by omega), rowM_of_lt C v (by omega),
    blockAt_of_lt pj p (by omega)]
  simp only [ok_bind]
  rw [rowM_of_lt _ v (by rw [hblk p hp1]; exact hv1)]
  rfl

theorem AbsoluteDistanceForPose.fillTranslationJac_eq (b : AbsoluteDistanceForPose)
    (S : VectorXd) (verts C : MatrixXd) (J : Buf)
    (hS : S.length = b.smpl_.VERTICES_NUM) (hv : verts.length = b.smpl_.VERTICES_NUM)
    (hC : C.length = b.smpl_.VERTICES_NUM)
    (hvr : ∀ r ∈ verts, r.length = SPACE_DIM) (hCr : ∀ r ∈ C, r.length = SPACE_DIM) :
    b.fillTranslationJac S verts C J = .ok (fun k =>
      if k < b.smpl_.VERTICES_NUM * SPACE_DIM then
        (if S.getD (k / SPACE_DIM) 0 > 0 then
          2 * ((verts.getD (k / SPACE_DIM) []).getD (k % SPACE_DIM) 0
            - (C.getD (k / SPACE_DIM) []).getD (k % SPACE_DIM) 0)
         else b.inside_coef_ * 2 * ((verts.getD (k / SPACE_DIM) []).getD (k % SPACE_DIM) 0
            - (C.getD (k / SPACE_DIM) []).getD (k % SPACE_DIM) 0))
      else J k) := by
  unfold AbsoluteDistanceForPose.fillTranslationJac
  apply forLoop_fill2D b.smpl_.VERTICES_NUM SPACE_DIM _ (fun v k =>
    if S.getD v 0 > 0 then 2 * ((verts.getD v []).getD k 0 - (C.getD v []).getD k 0)
    else b.inside_coef_ * 2 * ((verts.getD v []).getD k 0 - (C.getD v []).getD k 0))
  intro v k J hv1 hk1
  have hrow : ∀ (m : MatrixXd), (∀ r ∈ m, r.length = SPACE_DIM) → v < m.length →
      (m.getD v []).length = SPACE_DIM := by
    intro m hm hlt
    have hg : m.getD v [] = m[v] := by
      simp [List.getD, List.getElem?_eq_getElem hlt]
    rw [hg]
    exact hm _ (List.getElem_mem hlt)
  rw [coeffV_of_lt S v (by omega),
    coeffM_of_lt verts v k (by omega) (by rw [hrow verts hvr (by omega)]; exact hk1),
    coeffM_of_lt C v k (by omega) (by rw [hrow C hCr (by omega)]; exact hk1)]
  rfl


theorem getD_eq_of_lt {α : Type} (l : List α) (i : Nat) (d : α) (h : i < l.length) :
    l[i]? = some (l.getD i d) := by
  simp [List.getD, List.getElem?_eq_getElem h]

/-- The result of `AbsoluteDistanceForPose::Evaluate` in closed form. -/
theorem AbsoluteDistanceForPose.Evaluate_eq (b : AbsoluteDistanceForPose)
    (hpbs : b.parameter_block_sizes = [b.smpl_.POSE_SIZE, SPACE_DIM])
    (hw : WellSizedPose b.smpl_ b.signed_distance) (p0 p1 : VectorXd)
    (hp1 : p1.length = SPACE_DIM) (res : Buf) (jacobians : Option (Option Buf × Option Buf)) :
    ∃ r J0 J1,
      b.Evaluate p0 p1 res jacobians = .ok ⟨true, r, J0, J1⟩ ∧
      b.fillResiduals (b.distanceOf p0 p1).S res = .ok r ∧
      (∀ J, jacobians.bind (fun js => js.1) = some J →
        ∃ Jout, J0 = some Jout ∧ b.fillPoseJac (b.distanceOf p0 p1).S (b.translatedVerts p0 p1)
          (b.distanceOf p0 p1).C
          ((List.range b.smpl_.POSE_SIZE).map (b.smpl_.pose_jacPS p0 b.shape_)) J = .ok Jout) ∧
      (∀ J, jacobians.bind (fun js => js.2) = some J →
        ∃ Jout, J1 = some Jout ∧ b.fillTranslationJac (b.distanceOf p0 p1).S
          (b.translatedVerts p0 p1) (b.distanceOf p0 p1).C J = .ok Jout) := by
  obtain ⟨hverts, hjac, hsd⟩ := hw
  have htr := b.translate_eq (b.smpl_.vertsPS p0 b.shape_) p1 (hverts p0 b.shape_).1
    (hverts p0 b.shape_).2 hp1
  have htvlen : (b.translatedVerts p0 p1).length = b.smpl_.VERTICES_NUM := by
    simp [translatedVerts, (hverts p0 b.shape_).1]
  have htvrow : ∀ r ∈ b.translatedVerts p0 p1, r.length = SPACE_DIM := by
    intro r hr
    simp only [translatedVerts, List.mem_map] at hr
    obtain ⟨a, ha, rfl⟩ := hr
    simp [(hverts p0 b.shape_).2 a ha, hp1]
  obtain ⟨hS, hC, hCr⟩ := hsd (b.translatedVerts p0 p1) b.toMesh_.getVertices b.toMesh_.getFaces
  rw [htvlen] at hS hC
  obtain ⟨r, hr⟩ : ∃ r, b.fillResiduals (b.distanceOf p0 p1).S res = .ok r :=
    ⟨_, b.fillResiduals_eq (b.distanceOf p0 p1).S res hS⟩
  have hJ0 : ∀ J, ∃ Jout, b.fillPoseJac (b.distanceOf p0 p1).S (b.translatedVerts p0 p1)
      (b.distanceOf p0 p1).C
      ((List.range b.smpl_.POSE_SIZE).map (b.smpl_.pose_jacPS p0 b.shape_)) J = .ok Jout :=
    fun J => ⟨_, b.fillPoseJac_eq (b.distanceOf p0 p1).S (b.translatedVerts p0 p1)
      (b.distanceOf p0 p1).C ((List.range b.smpl_.POSE_SIZE).map (b.smpl_.pose_jacPS p0 b.shape_))
      J hS htvlen hC (by simp) (by
        intro p hp
        have : ((List.range b.smpl_.POSE_SIZE).map (b.smpl_.pose_jacPS p0 b.shape_)).getD p []
            = b.smpl_.pose_jacPS p0 b.shape_ p := by
          simp [List.getD, List.getElem?_eq_getElem, hp]
        rw [this]
        exact hjac p0 b.shape_ p)⟩
  have hJ1 : ∀ J, ∃ Jout, b.fillTranslationJac (b.distanceOf p0 p1).S (b.translatedVerts p0 p1)
      (b.distanceOf p0 p1).C J = .ok Jout :=
    fun J => ⟨_, b.fillTranslationJac_eq (b.distanceOf p0 p1).S (b.translatedVerts p0 p1)
      (b.distanceOf p0 p1).C J hS htvlen hC htvrow hCr⟩
  have htr1 : b.translate (b.smpl_.vertsPS p0 b.shape_) p1
      = .ok (b.translatedVerts p0 p1) := htr
  have hdo : b.signed_distance (b.translatedVerts p0 p1) b.toMesh_.getVertices
      b.toMesh_.getFaces = b.distanceOf p0 p1 := rfl
  rw [hdo] at hS hC
  rcases jacobians with _ | ⟨_ | Ja, _ | Jb⟩
  · exact ⟨r, none, none, by simp [Evaluate, hpbs, htr1, hdo, hS, hC, hr], hr, by simp,
      by simp⟩
  · exact ⟨r, none, none, by simp [Evaluate, hpbs, htr1, hdo, hS, hC, hr], hr, by simp,
      by simp⟩
  · obtain ⟨Jb1, hb⟩ := hJ1 Jb
    exact ⟨r, none, some Jb1, by simp [Evaluate, hpbs, htr1, hdo, hS, hC, hr, hb], hr, by simp,
      by simp [hb]⟩
  · obtain ⟨Ja1, ha⟩ := hJ0 Ja
    exact ⟨r, some Ja1, none, by simp [Evaluate, hpbs, htr1, hdo, hS, hC, hr, ha], hr,
      by simp [ha], by simp⟩
  · obtain ⟨Ja1, ha⟩ := hJ0 Ja
    obtain ⟨Jb1, hb⟩ := hJ1 Jb
    exact ⟨r, some Ja1, some Jb1,
      by simp [Evaluate, hpbs, htr1, hdo, hS, hC, hr, ha, hb], hr, by simp [ha], by simp [hb]⟩

/-- C4: for every vertex `i`, `AbsoluteDistanceForPose::Evaluate` returns true and writes
`residual_i = s_i^2` when `s_i > 0` and `inside_coef * s_i^2` otherwise, where `s_i` is the
signed distance to the target surface of model vertex `i` computed from (pose, fixed shape)
with the translation parameter added to each coordinate. -/
theorem AbsoluteDistanceForPose.Evaluate_residuals (smpl : SMPLWrapper) (toMesh : GeneralMesh)
    (sd : SignedDistanceFn) (inside_coef : ℚ) (shape : Option VectorXd)
    (pose translation : VectorXd) (residuals : Buf)
    (jacobians : Option (Option Buf × Option Buf))
    (hw : WellSizedPose smpl sd) (ht : translation.length = SPACE_DIM) :
    ∃ out, (ctor smpl toMesh sd inside_coef shape).Evaluate pose translation residuals jacobians
        = .ok out ∧ out.ret = true ∧
      ∀ i, i < smpl.VERTICES_NUM →
        ∃ s, ((ctor smpl toMesh sd inside_coef shape).distanceOf pose translation).S[i]?
            = some s ∧
          out.residuals i = residualFormula inside_coef s := by
  obtain ⟨r, J0, J1, hE, hr, -, -⟩ := Evaluate_eq (ctor smpl toMesh sd inside_coef shape) rfl hw
    pose translation ht residuals jacobians
  have hS : ((ctor smpl toMesh sd inside_coef shape).distanceOf pose translation).S.length
      = smpl.VERTICES_NUM := by
    have h := (hw.2.2 ((ctor smpl toMesh sd inside_coef shape).translatedVerts pose translation)
      toMesh.getVertices toMesh.getFaces).1
    have hl : ((ctor smpl toMesh sd inside_coef shape).translatedVerts pose translation).length
        = smpl.VERTICES_NUM := by
      simp only [translatedVerts, List.length_map]
      exact (hw.1 pose shape).1
    rw [hl] at h
    exact h
  rw [fillResiduals_eq _ _ _ hS] at hr
  injection hr with hr
  refine ⟨_, hE, rfl, ?_⟩
  intro i hi
  refine ⟨_, getD_eq_of_lt _ i 0 (by rw [hS]; exact hi), ?_⟩
  show r i = _
  rw [← hr]
  have hi1 : i < (ctor smpl toMesh sd inside_coef shape).smpl_.VERTICES_NUM := hi
  simp only [hi1, if_true, residualFormula]
  split
  · ring
  · show inside_coef * _ * _ = _
    ring


/-- Sizes of the translated vertices and of their distance resolution. -/
theorem AbsoluteDistanceForPose.sizes (smpl : SMPLWrapper) (toMesh : GeneralMesh)
    (sd : SignedDistanceFn) (inside_coef : ℚ) (shape : Option VectorXd)
    (pose translation : VectorXd) (hw : WellSizedPose smpl sd)
    (ht : translation.length = SPACE_DIM) :
    ((ctor smpl toMesh sd inside_coef shape).translatedVerts pose translation).length
      = smpl.VERTICES_NUM ∧
    (∀ r ∈ (ctor smpl toMesh sd inside_coef shape).translatedVerts pose translation,
      r.length = SPACE_DIM) ∧
    ((ctor smpl toMesh sd inside_coef shape).distanceOf pose translation).S.length
      = smpl.VERTICES_NUM ∧
    ((ctor smpl toMesh sd inside_coef shape).distanceOf pose translation).C.length
      = smpl.VERTICES_NUM ∧
    (∀ r ∈ ((ctor smpl toMesh sd inside_coef shape).distanceOf pose translation).C,
      r.length = SPACE_DIM) := by
  have hl : ((ctor smpl toMesh sd inside_coef shape).translatedVerts pose translation).length
      = smpl.VERTICES_NUM := by
    simp only [translatedVerts, List.length_map]
    exact (hw.1 pose shape).1
  have h := hw.2.2 ((ctor smpl toMesh sd inside_coef shape).translatedVerts pose translation)
    toMesh.getVertices toMesh.getFaces
  rw [hl] at h
  refine ⟨hl, ?_, h.1, h.2.1, h.2.2⟩
  intro r hr
  simp only [translatedVerts, List.mem_map] at hr
  obtain ⟨a, ha, rfl⟩ := hr
  have := (hw.1 pose shape).2 a ha
  simp [this, ht]

theorem AbsoluteDistanceForPose.ctor_smpl (smpl : SMPLWrapper) (toMesh : GeneralMesh)
    (sd : SignedDistanceFn) (inside_coef : ℚ) (shape : Option VectorXd) :
    (ctor smpl toMesh sd inside_coef shape).smpl_ = smpl := rfl

theorem AbsoluteDistanceForPose.ctor_shape (smpl : SMPLWrapper) (toMesh : GeneralMesh)
    (sd : SignedDistanceFn) (inside_coef : ℚ) (shape : Option VectorXd) :
    (ctor smpl toMesh sd inside_coef shape).shape_ = shape := rfl

theorem AbsoluteDistanceForPose.ctor_inside (smpl : SMPLWrapper) (toMesh : GeneralMesh)
    (sd : SignedDistanceFn) (inside_coef : ℚ) (shape : Option VectorXd) :
    (ctor smpl toMesh sd inside_coef shape).inside_coef_ = inside_coef := rfl

theorem getD_length_of_mem (m : MatrixXd) (i n : Nat) (hi : i < m.length)
    (hm : ∀ r ∈ m, r.length = n) : (m.getD i []).length = n := by
  have hg : m.getD i [] = m[i] := by
    simp [List.getD, List.getElem?_eq_getElem hi]
  rw [hg]
  exact hm _ (List.getElem_mem hi)

/-- C5: when the pose Jacobian is requested, for every vertex `i` and pose dimension `p` the
entry `jacobians[0][i * POSE_SIZE + p]` is `2 * (vertex_i - closest_i) . (d vertex_i / d pose_p)`
when `s_i > 0` and `inside_coef` times that value otherwise; `vertex_i` is the translated
model vertex and `d vertex_i / d pose_p` is row `i` of the `p`-th pose Jacobian block. -/
theorem AbsoluteDistanceForPose.Evaluate_pose_jacobian (smpl : SMPLWrapper)
    (toMesh : GeneralMesh) (sd : SignedDistanceFn) (inside_coef : ℚ)
    (shape : Option VectorXd) (pose translation : VectorXd) (residuals : Buf) (J : Buf)
    (jacobian1 : Option Buf)
    (hw : WellSizedPose smpl sd) (ht : translation.length = SPACE_DIM) :
    ∃ out Jout, (ctor smpl toMesh sd inside_coef shape).Evaluate pose translation residuals
        (some (some J, jacobian1)) = .ok out ∧ out.jacobian0 = some Jout ∧
      ∀ i p, i < smpl.VERTICES_NUM → p < smpl.POSE_SIZE →
        ∃ s vertex closest dvertex,
          ((ctor smpl toMesh sd inside_coef shape).distanceOf pose translation).S[i]? = some s ∧
          ((ctor smpl toMesh sd inside_coef shape).translatedVerts pose translation)[i]?
            = some vertex ∧
          ((ctor smpl toMesh sd inside_coef shape).distanceOf pose translation).C[i]?
            = some closest ∧
          (smpl.pose_jacPS pose shape p)[i]? = some dvertex ∧
          Jout (i * smpl.POSE_SIZE + p) = poseJacFormula inside_coef s vertex closest dvertex := by
  obtain ⟨r, J0, J1, hE, -, hJ, -⟩ := Evaluate_eq (ctor smpl toMesh sd inside_coef shape) rfl hw
    pose translation ht residuals (some (some J, jacobian1))
  obtain ⟨hV, hVr, hS, hC, hCr⟩ := sizes smpl toMesh sd inside_coef shape pose translation hw ht
  obtain ⟨Jout, hJ0, hfill⟩ := hJ J rfl
  have hblk : ∀ p, p < smpl.POSE_SIZE →
      ((List.range smpl.POSE_SIZE).map (smpl.pose_jacPS pose shape)).getD p []
        = smpl.pose_jacPS pose shape p := by
    intro p hp
    simp [List.getD, List.getElem?_eq_getElem, hp]
  rw [fillPoseJac_eq _ _ _ _ _ _ hS hV hC (by simp [ctor]) (by
    intro p hp
    show (((List.range smpl.POSE_SIZE).map (smpl.pose_jacPS pose shape)).getD p []).length = _
    rw [hblk p hp]
    exact hw.2.1 pose shape p)] at hfill
  injection hfill with hfill
  simp only [ctor_smpl, ctor_shape, ctor_inside] at hfill
  refine ⟨_, Jout, hE, hJ0, ?_⟩
  intro i p hi hp
  refine ⟨_, _, _, _, getD_eq_of_lt _ i 0 (by rw [hS]; exact hi),
    getD_eq_of_lt _ i [] (by rw [hV]; exact hi), getD_eq_of_lt _ i [] (by rw [hC]; exact hi),
    getD_eq_of_lt _ i [] (by rw [hw.2.1 pose shape p]; exact hi), ?_⟩
  rw [← hfill]
  have hlt : i * smpl.POSE_SIZE + p < smpl.VERTICES_NUM * smpl.POSE_SIZE := by
    calc i * smpl.POSE_SIZE + p < i * smpl.POSE_SIZE + smpl.POSE_SIZE := by omega
      _ = (i + 1) * smpl.POSE_SIZE := by ring
      _ ≤ smpl.VERTICES_NUM * smpl.POSE_SIZE := Nat.mul_le_mul_right _ hi
  have h1 : (i * smpl.POSE_SIZE + p) / smpl.POSE_SIZE = i := by
    rw [Nat.mul_comm, Nat.mul_add_div (by omega), Nat.div_eq_of_lt hp]; simp
  have h2 : (i * smpl.POSE_SIZE + p) % smpl.POSE_SIZE = p := by
    rw [Nat.mul_comm, Nat.mul_add_mod, Nat.mod_eq_of_lt hp]
  show (if i * smpl.POSE_SIZE + p < smpl.VERTICES_NUM * smpl.POSE_SIZE then _ else _) = _
  rw [if_pos hlt, h1, h2, hblk p hp]
  simp only [poseJacFormula]
  split
  · rfl
  · ring

/-- C6: when the translation Jacobian is requested, whether or not the pose Jacobian is, for
every vertex `i` and axis `k` the entry `jacobians[1][i * 3 + k]` is
`2 * (vertex_i,k - closest_i,k)` when `s_i > 0` and `inside_coef` times that value
otherwise. -/
theorem AbsoluteDistanceForPose.Evaluate_translation_jacobian (smpl : SMPLWrapper)
    (toMesh : GeneralMesh) (sd : SignedDistanceFn) (inside_coef : ℚ)
    (shape : Option VectorXd) (pose translation : VectorXd) (residuals : Buf)
    (jacobian0 : Option Buf) (J : Buf)
    (hw : WellSizedPose smpl sd) (ht : translation.length = SPACE_DIM) :
    ∃ out Jout, (ctor smpl toMesh sd inside_coef shape).Evaluate pose translation residuals
        (some (jacobian0, some J)) = .ok out ∧ out.jacobian1 = some Jout ∧
      ∀ i k, i < smpl.VERTICES_NUM → k < 3 →
        ∃ s vertex closest x c,
          ((ctor smpl toMesh sd inside_coef shape).distanceOf pose translation).S[i]? = some s ∧
          ((ctor smpl toMesh sd inside_coef shape).translatedVerts pose translation)[i]?
            = some vertex ∧
          ((ctor smpl toMesh sd inside_coef shape).distanceOf pose translation).C[i]?
            = some closest ∧
          vertex[k]? = some x ∧ closest[k]? = some c ∧
          Jout (i * 3 + k) = translationJacFormula inside_coef s x c := by
  obtain ⟨r, J0, J1, hE, -, -, hJ⟩ := Evaluate_eq (ctor smpl toMesh sd inside_coef shape) rfl hw
    pose translation ht residuals (some (jacobian0, some J))
  obtain ⟨hV, hVr, hS, hC, hCr⟩ := sizes smpl toMesh sd inside_coef shape pose translation hw ht
  obtain ⟨Jout, hJ1, hfill⟩ := hJ J rfl
  rw [fillTranslationJac_eq _ _ _ _ _ hS hV hC hVr hCr] at hfill
  injection hfill with hfill
  simp only [ctor_smpl, ctor_shape, ctor_inside] at hfill
  refine ⟨_, Jout, hE, hJ1, ?_⟩
  intro i k hi hk
  refine ⟨_, _, _, _, _, getD_eq_of_lt _ i 0 (by rw [hS]; exact hi),
    getD_eq_of_lt _ i [] (by rw [hV]; exact hi), getD_eq_of_lt _ i [] (by rw [hC]; exact hi),
    getD_eq_of_lt _ k 0 (by rw [getD_length_of_mem _ i _ (by rw [hV]; exact hi) hVr]; exact hk),
    getD_eq_of_lt _ k 0 (by rw [getD_length_of_mem _ i _ (by rw [hC]; exact hi) hCr]; exact hk),
    ?_⟩
  rw [← hfill]
  have hlt : i * 3 + k < smpl.VERTICES_NUM * 3 := by omega
  have h1 : (i * 3 + k) / 3 = i := by omega
  have h2 : (i * 3 + k) % 3 = k := by omega
  show (if i * 3 + k < smpl.VERTICES_NUM * 3 then _ else _) = _
  rw [if_pos hlt]
  simp only [SPACE_DIM, h1, h2, translationJacFormula]
  split
  · rfl
  · ring


/-- The concrete model and resolver keep the sizes that the directional block relies on. -/
theorem toy_wellSizedPose : WellSizedPose toySMPL toySignedDistance := by
  refine ⟨fun p s => ⟨rfl, ?_⟩, fun p s i => ?_, fun P V F => ?_⟩
  · intro r hr
    simp only [toySMPL, List.mem_singleton] at hr
    rw [hr]
    rfl
  · simp only [toySMPL]
    split <;> rfl
  · simp [toySignedDistance, SPACE_DIM]

/-- C4, witness: the vertex `(-2, 1, 0)` lies inside, at signed distance `-2`; with
`inside_coef = 1 / 2` the residual is 2. -/
theorem AbsoluteDistanceForPose.Evaluate_residuals_witness :
    (WellSizedPose toySMPL toySignedDistance ∧ ([0, 0, 0] : VectorXd).length = SPACE_DIM) ∧
    (∃ out, (ctor toySMPL toyMesh toySignedDistance (1 / 2) (some [-3])).Evaluate [0, 0, 0, 1]
          [0, 0, 0] zeroBuf none = .ok out ∧ out.ret = true ∧
        ∀ i, i < toySMPL.VERTICES_NUM →
          ∃ s, ((ctor toySMPL toyMesh toySignedDistance (1 / 2) (some [-3])).distanceOf
              [0, 0, 0, 1] [0, 0, 0]).S[i]? = some s ∧
            out.residuals i = residualFormula (1 / 2) s) ∧
    (fun o => o.residuals 0) <$> toyPoseBlock.Evaluate [0, 0, 0, 1] [0, 0, 0] zeroBuf none
      = .ok 2 :=
  ⟨⟨toy_wellSizedPose, rfl⟩,
    Evaluate_residuals toySMPL toyMesh toySignedDistance (1 / 2) (some [-3]) [0, 0, 0, 1]
      [0, 0, 0] zeroBuf none toy_wellSizedPose rfl,
    by decide!⟩

/-- C5, witness: at the inside vertex `(-2, 1, 0)` the derivative along pose dimension 3 is
`(1 / 2) * 2 * (-2) = -2`. -/
theorem AbsoluteDistanceForPose.Evaluate_pose_jacobian_witness :
    (WellSizedPose toySMPL toySignedDistance ∧ ([0, 0, 0] : VectorXd).length = SPACE_DIM) ∧
    (∃ out Jout, (ctor toySMPL toyMesh toySignedDistance (1 / 2) (some [-3])).Evaluate
          [0, 0, 0, 1] [0, 0, 0] zeroBuf (some (some zeroBuf, none)) = .ok out ∧
        out.jacobian0 = some Jout ∧
        ∀ i p, i < toySMPL.VERTICES_NUM → p < toySMPL.POSE_SIZE →
          ∃ s vertex closest dvertex,
            ((ctor toySMPL toyMesh toySignedDistance (1 / 2) (some [-3])).distanceOf
              [0, 0, 0, 1] [0, 0, 0]).S[i]? = some s ∧
            ((ctor toySMPL toyMesh toySignedDistance (1 / 2) (some [-3])).translatedVerts
              [0, 0, 0, 1] [0, 0, 0])[i]? = some vertex ∧
            ((ctor toySMPL toyMesh toySignedDistance (1 / 2) (some [-3])).distanceOf
              [0, 0, 0, 1] [0, 0, 0]).C[i]? = some closest ∧
            (toySMPL.pose_jacPS [0, 0, 0, 1] (some [-3]) p)[i]? = some dvertex ∧
            Jout (i * toySMPL.POSE_SIZE + p)
              = poseJacFormula (1 / 2) s vertex closest dvertex) ∧
    (fun o => o.jacobian0.map (fun J => [J 0, J 1, J 2, J 3])) <$>
        toyPoseBlock.Evaluate [0, 0, 0, 1] [0, 0, 0] zeroBuf (some (some zeroBuf, none))
      = .ok (some [0, 0, 0, -2]) :=
  ⟨⟨toy_wellSizedPose, rfl⟩,
    Evaluate_pose_jacobian toySMPL toyMesh toySignedDistance (1 / 2) (some [-3]) [0, 0, 0, 1]
      [0, 0, 0] zeroBuf zeroBuf none toy_wellSizedPose rfl,
    by decide!⟩

/-- C6, witness: at the outside vertex `(3, 5, 0)`, translated by `(1, 0, 0)`, the derivatives
along the three axes are `(6, 0, 0)`, with and without the pose Jacobian requested. -/
theorem AbsoluteDistanceForPose.Evaluate_translation_jacobian_witness :
    (WellSizedPose toySMPL toySignedDistance ∧ ([1, 0, 0] : VectorXd).length = SPACE_DIM) ∧
    (∃ out Jout, (ctor toySMPL toyMesh toySignedDistance (1 / 2) (some [-3])).Evaluate
          [0, 0, 0, 5] [1, 0, 0] zeroBuf (some (none, some zeroBuf)) = .ok out ∧
        out.jacobian1 = some Jout ∧
        ∀ i k, i < toySMPL.VERTICES_NUM → k < 3 →
          ∃ s vertex closest x c,
            ((ctor toySMPL toyMesh toySignedDistance (1 / 2) (some [-3])).distanceOf
              [0, 0, 0, 5] [1, 0, 0]).S[i]? = some s ∧
            ((ctor toySMPL toyMesh toySignedDistance (1 / 2) (some [-3])).translatedVerts
              [0, 0, 0, 5] [1, 0, 0])[i]? = some vertex ∧
            ((ctor toySMPL toyMesh toySignedDistance (1 / 2) (some [-3])).distanceOf
              [0, 0, 0, 5] [1, 0, 0]).C[i]? = some closest ∧
            vertex[k]? = some x ∧ closest[k]? = some c ∧
            Jout (i * 3 + k) = translationJacFormula (1 / 2) s x c) ∧
    (fun o => o.jacobian1.map (fun J => [J 0, J 1, J 2])) <$>
        toyPoseBlock.Evaluate [0, 0, 0, 5] [1, 0, 0] zeroBuf (some (none, some zeroBuf))
      = .ok (some [6, 0, 0]) ∧
    (fun o => o.jacobian1.map (fun J => [J 0, J 1, J 2])) <$>
        toyPoseBlock.Evaluate [0, 0, 0, 5] [1, 0, 0] zeroBuf (some (some zeroBuf, some zeroBuf))
      = .ok (some [6, 0, 0]) :=
  ⟨⟨toy_wellSizedPose, rfl⟩,
    Evaluate_translation_jacobian toySMPL toyMesh toySignedDistance (1 / 2) (some [-3])
      [0, 0, 0, 5] [1, 0, 0] zeroBuf none zeroBuf toy_wellSizedPose rfl,
    by decide!⟩

/-! ### C8, C9, C10: the pose prior -/

/-- Loop invariants for a loop that is known to end without fault. -/
theorem forLoop_inv_ok {σ : Type} (P : Nat → σ → Prop) (n : Nat)
    (body : Nat → σ → Except Fault σ) (init s1 : σ) (h0 : P 0 init)
    (hstep : ∀ i s t, i < n → P i s → body i s = .ok t → P (i + 1) t)
    (hok : forLoop n body init = .ok s1) : P n s1 := by
  induction n generalizing s1 with
  | zero =>
    rw [forLoop_zero] at hok
    injection hok with hok
    rw [← hok]
    exact h0
  | succ k ih =>
    rw [forLoop_succ] at hok
    cases hk : forLoop k body init with
    | error e => rw [hk] at hok; cases hok
    | ok s =>
      rw [hk] at hok
      exact hstep k s s1 (Nat.lt_succ_self k)
        (ih s (fun i s t hi => hstep i s t (Nat.lt_succ_of_lt hi)) hk) hok

theorem forRange_inv_ok {σ : Type} (P : Nat → σ → Prop) (lo hi : Nat)
    (body : Nat → σ → Except Fault σ) (init s1 : σ) (h0 : P lo init)
    (hstep : ∀ i s t, lo ≤ i → i < hi → P i s → body i s = .ok t → P (i + 1) t)
    (hok : forRange lo hi body init = .ok s1) : P (lo + (hi - lo)) s1 := by
  rw [forRange_eq_forLoop] at hok
  exact forLoop_inv_ok (fun k s => P (lo + k) s) (hi - lo) (fun k s => body (lo + k) s) init s1
    h0 (fun i s t hi1 hp hb => hstep (lo + i) s t (by omega) (by omega) hp hb) hok

theorem setM_ok {n : Nat} (M M1 : Matrix (Fin n) (Fin n) ℚ) (a b : Nat) (x : ℚ)
    (h : setM M a b x = .ok M1) :
    a < n ∧ b < n ∧ ∀ c d : Fin n, M1 c d = if c.val = a ∧ d.val = b then x else M c d := by
  unfold setM at h
  split at h
  · rename_i hab
    injection h with h
    refine ⟨hab.1, hab.2, ?_⟩
    intro c d
    rw [← h]
    by_cases hc : c = ⟨a, hab.1⟩
    · subst hc
      by_cases hd : d = ⟨b, hab.2⟩
      · subst hd; simp
      · have : ¬ d.val = b := fun hh => hd (Fin.ext hh)
        simp [Function.update, hd, this]
    · have : ¬ c.val = a := fun hh => hc (Fin.ext hh)
      simp [Function.update, hc, this]
  · cases h


theorem zeroRootStiffness_rootZero {P : Nat} (old S : Matrix (Fin P) (Fin P) ℚ)
    (h : zeroRootStiffness old = .ok S) : RootZero SPACE_DIM S := by
  refine forLoop_inv_ok (fun i M => RootZero i M) SPACE_DIM _ old S ?_ ?_ h
  · intro c d hcd
    omega
  · intro i M M1 _ hM hrow
    have key := forLoop_inv_ok
      (fun j N => ∀ c d : Fin P, (c.val < i ∨ d.val < i) ∨
        (c.val = i ∧ d.val < j) ∨ (d.val = i ∧ c.val < j) → N c d = 0)
      P _ M M1 (by
        intro c d hcd
        rcases hcd with hcd | hcd | hcd
        · exact hM c d hcd
        · omega
        · omega) (by
        intro j N N2 _ hN hstep
        cases hA : setM N j i 0 with
        | error e => rw [hA] at hstep; cases hstep
        | ok N1 =>
          rw [hA] at hstep
          obtain ⟨_, _, hN1⟩ := setM_ok N N1 j i 0 hA
          obtain ⟨_, _, hN2⟩ := setM_ok N1 N2 i j 0 hstep
          intro c d hcd
          rw [hN2 c d]
          split
          · rfl
          · rename_i hne
            rw [hN1 c d]
            split
            · rfl
            · rename_i hne1
              apply hN c d
              rcases hcd with hcd | hcd | hcd
              · exact Or.inl hcd
              · refine Or.inr (Or.inl ⟨hcd.1, ?_⟩)
                have : d.val ≠ j := fun hh => hne ⟨hcd.1, hh⟩
                omega
              · refine Or.inr (Or.inr ⟨hcd.1, ?_⟩)
                have : c.val ≠ j := fun hh => hne1 ⟨hh, hcd.1⟩
                omega) hrow
    intro c d hcd
    apply key c d
    rcases hcd with hcd | hcd
    · by_cases hc : c.val = i
      · exact Or.inr (Or.inl ⟨hc, d.isLt⟩)
      · exact Or.inl (Or.inl (by omega))
    · by_cases hd : d.val = i
      · exact Or.inr (Or.inr ⟨hd, c.isLt⟩)
      · exact Or.inl (Or.inr (by omega))

theorem readStiffnessBody_rootZero {P : Nat} (S0 S : Matrix (Fin P) (Fin P) ℚ)
    (st0 st : IStream) (h0 : RootZero SPACE_DIM S0)
    (h : readStiffnessBody S0 st0 = .ok (S, st)) : RootZero SPACE_DIM S := by
  have key := forRange_inv_ok (fun _ (acc : Matrix (Fin P) (Fin P) ℚ × IStream) =>
    RootZero SPACE_DIM acc.1) SPACE_DIM P _ (S0, st0) (S, st) h0 (by
      intro i acc acc1 hi _ hacc hrow
      exact forRange_inv_ok (fun _ (a : Matrix (Fin P) (Fin P) ℚ × IStream) =>
        RootZero SPACE_DIM a.1) SPACE_DIM P _ acc acc1 hacc (by
          intro j a a1 hj _ ha hstep
          cases hg : getM a.1 i j with
          | error e => rw [hg] at hstep; cases hstep
          | ok cur =>
            rw [hg] at hstep
            simp only [ok_bind] at hstep
            cases hs : setM a.1 i j (a.2.extract cur).1 with
            | error e => rw [hs] at hstep; cases hstep
            | ok M1 =>
              rw [hs] at hstep
              injection hstep with hstep
              obtain ⟨_, _, hM1⟩ := setM_ok _ _ _ _ _ hs
              rw [← hstep]
              intro c d hcd
              show M1 c d = 0
              rw [hM1 c d]
              split
              · rename_i heq
                omega
              · exact ha c d hcd) hrow) h
  exact key

theorem readStiffness_rootZero (P : Nat) (old S : Matrix (Fin P) (Fin P) ℚ)
    (f : StiffnessFile) (h : readStiffness_ P old f = .ok S) : RootZero SPACE_DIM S := by
  unfold readStiffness_ at h
  by_cases h1 : f.rows ≠ f.cols
  · simp [h1] at h
  by_cases h2 : f.rows ≠ (P : Int) - (SPACE_DIM : Int)
  · simp [h1, h2] at h
  simp only [h1, h2, if_false] at h
  cases hA : zeroRootStiffness old with
  | error e => simp [hA] at h
  | ok S1 =>
    cases hB : readStiffnessBody S1 ⟨f.body, false⟩ with
    | error e => simp [hA, hB] at h
    | ok r =>
      obtain ⟨S2, st⟩ := r
      simp [hA, hB] at h
      subst h
      exact readStiffnessBody_rootZero S1 S2 _ st (zeroRootStiffness_rootZero old S1 hA) hB


/-- C8 (as amended): for every stiffness matrix `S` and mean pose `m`, the sum of squares of
the prior residual of `NormalPrior(stiffness_, mean_pose_)` is, for every pose, the quadratic
form `(pose - m)^T (S^T S) (pose - m)`: the Gaussian negative log-likelihood whose precision
is `S^T S`. -/
theorem PriorModel.priorSumSq_eq_gaussianForm {P : Nat} (o : PriorModel P)
    (pose : Fin P → ℚ) :
    o.priorSumSq pose
      = gaussianForm (o.stiffness_.transpose * o.stiffness_) o.mean_pose_ pose := by
  unfold priorSumSq priorResidual NormalPrior.residual gaussianForm
  rw [← Matrix.mulVec_mulVec, Matrix.dotProduct_mulVec, Matrix.vecMul_transpose]
  simp [Matrix.dotProduct, pow_two]

/-- C8, counterexample to the claim as stated: with stiffness 2 on the one non-root dimension
and a pose one unit away from the mean, the sum of squares of the prior residual is 4 while
the quadratic form of precision `S` is 2; with stiffness 3 they are 9 and 3, so no constant
factor relates the two. -/
theorem PriorModel.priorSumSq_ne_gaussianForm :
    (toyPrior 2).priorSumSq toyPose = 4 ∧
    gaussianForm (toyPrior 2).stiffness_ (toyPrior 2).mean_pose_ toyPose = 2 ∧
    (toyPrior 3).priorSumSq toyPose = 9 ∧
    gaussianForm (toyPrior 3).stiffness_ (toyPrior 3).mean_pose_ toyPose = 3 ∧
    ¬ ∃ c : ℚ, ∀ (o : PriorModel 4) (pose : Fin 4 → ℚ),
      o.priorSumSq pose = c * gaussianForm o.stiffness_ o.mean_pose_ pose := by
  have h1 : (toyPrior 2).priorSumSq toyPose = 4 := by decide!
  have h2 : gaussianForm (toyPrior 2).stiffness_ (toyPrior 2).mean_pose_ toyPose = 2 := by
    decide!
  have h3 : (toyPrior 3).priorSumSq toyPose = 9 := by decide!
  have h4 : gaussianForm (toyPrior 3).stiffness_ (toyPrior 3).mean_pose_ toyPose = 3 := by
    decide!
  refine ⟨h1, h2, h3, h4, ?_⟩
  rintro ⟨c, hc⟩
  have e1 := hc (toyPrior 2) toyPose
  have e2 := hc (toyPrior 3) toyPose
  rw [h1, h2] at e1
  rw [h3, h4] at e2
  linarith

/-- C9: for every stiffness matrix, when the current pose equals the mean pose vector, every
component of the prior residual is exactly zero. -/
theorem PriorModel.priorResidual_at_mean {P : Nat} (o : PriorModel P) (i : Fin P) :
    o.priorResidual o.mean_pose_ i = 0 := by
  simp [priorResidual, NormalPrior.residual]

/-- C10: the prior never penalizes root orientation. For every prior loaded by `readMeanPose_`
and `readStiffness_`, two poses that differ only in their first `SPACE_DIM` entries have equal
prior residual vectors, and the prior residual is zero for a pose that equals the mean pose
outside the root entries. -/
theorem PriorModel.prior_ignores_root (P : Nat) (old o : PriorModel P) (fm : MeanPoseFile)
    (fs : StiffnessFile) (hload : loadPrior P old fm fs = .ok o) :
    (∀ x y : Fin P → ℚ, (∀ j : Fin P, SPACE_DIM ≤ j.val → x j = y j) →
      o.priorResidual x = o.priorResidual y) ∧
    (∀ x : Fin P → ℚ, (∀ j : Fin P, SPACE_DIM ≤ j.val → x j = o.mean_pose_ j) →
      ∀ i, o.priorResidual x i = 0) := by
  have hz : RootZero SPACE_DIM o.stiffness_ := by
    unfold loadPrior at hload
    cases hm : readMeanPose_ P old.mean_pose_ fm with
    | error e => simp [hm] at hload
    | ok m =>
      cases hs : readStiffness_ P old.stiffness_ fs with
      | error e => simp [hm, hs] at hload
      | ok S =>
        simp [hm, hs] at hload
        rw [← hload]
        exact readStiffness_rootZero P old.stiffness_ S fs hs
  constructor
  · intro x y hxy
    funext i
    simp only [priorResidual, NormalPrior.residual, Matrix.mulVec, Matrix.dotProduct]
    apply Finset.sum_congr rfl
    intro j _
    by_cases hj : j.val < SPACE_DIM
    · rw [hz i j (Or.inr hj)]
      simp
    · rw [Pi.sub_apply, Pi.sub_apply, hxy j (by omega)]
  · intro x hx i
    simp only [priorResidual, NormalPrior.residual, Matrix.mulVec, Matrix.dotProduct]
    apply Finset.sum_eq_zero
    intro j _
    by_cases hj : j.val < SPACE_DIM
    · rw [hz i j (Or.inr hj)]
      simp
    · rw [Pi.sub_apply, hx j (by omega)]
      simp

theorem PriorModel.toLists_injective {P : Nat} (a b : PriorModel P)
    (h : a.toLists = b.toLists) : a = b := by
  cases a with
  | mk m S =>
    cases b with
    | mk m1 S1 =>
      simp only [toLists, Prod.mk.injEq] at h
      have h1 : m = m1 := List.ofFn_injective h.1
      have h2 : S = S1 := by
        have := List.ofFn_injective h.2
        funext i
        exact List.ofFn_injective (congrFun this i)
      rw [h1, h2]

/-- The concrete prior files load into the concrete prior. -/
theorem toy_load : loadPrior 4 toyOldPrior ⟨1, [7]⟩ ⟨1, 1, [2]⟩ = .ok (toyPrior 2) := by
  have h : (loadPrior 4 toyOldPrior ⟨1, [7]⟩ ⟨1, 1, [2]⟩).map PriorModel.toLists
      = .ok (toyPrior 2).toLists := by decide!
  cases hL : loadPrior 4 toyOldPrior ⟨1, [7]⟩ ⟨1, 1, [2]⟩ with
  | error e => rw [hL] at h; cases h
  | ok o =>
    rw [hL] at h
    simp only [Except.map] at h
    injection h with h
    rw [PriorModel.toLists_injective o (toyPrior 2) h]


/-- C10, witness: the prior files `1 / 7` and `1 1 / 2` load, over arbitrary old content,
into the mean pose `(0, 0, 0, 7)` and the stiffness with the single non-zero entry 2. -/
theorem PriorModel.prior_ignores_root_witness :
    loadPrior 4 toyOldPrior ⟨1, [7]⟩ ⟨1, 1, [2]⟩ = .ok (toyPrior 2) ∧
    ((∀ x y : Fin 4 → ℚ, (∀ j : Fin 4, SPACE_DIM ≤ j.val → x j = y j) →
        (toyPrior 2).priorResidual x = (toyPrior 2).priorResidual y) ∧
      (∀ x : Fin 4 → ℚ,
        (∀ j : Fin 4, SPACE_DIM ≤ j.val → x j = (toyPrior 2).mean_pose_ j) →
        ∀ i, (toyPrior 2).priorResidual x i = 0)) :=
  ⟨toy_load,
    prior_ignores_root 4 toyOldPrior (toyPrior 2) ⟨1, [7]⟩ ⟨1, 1, [2]⟩ toy_load⟩

/-! ### C11, C12, C13: the prior loaders -/

theorem extract_drop (body : List ℚ) (k : Nat) (cur : ℚ) (hk : k < body.length) :
    (⟨body.drop k, false⟩ : IStream).extract cur
      = (body.getD k 0, ⟨body.drop (k + 1), false⟩) := by
  have h : body.drop k = body.getD k 0 :: body.drop (k + 1) := by
    rw [List.drop_eq_getElem_cons hk]
    simp [List.getD, List.getElem?_eq_getElem hk]
  rw [h]
  simp [IStream.extract]

theorem getV_of_lt {n : Nat} (v : Fin n → ℚ) (i : Nat) (h : i < n) :
    getV v i = .ok (v ⟨i, h⟩) := by
  simp [getV, h]

theorem setV_of_lt {n : Nat} (v : Fin n → ℚ) (i : Nat) (x : ℚ) (h : i < n) :
    setV v i x = .ok (Function.update v ⟨i, h⟩ x) := by
  simp [setV, h]

theorem getM_of_lt {n : Nat} (M : Matrix (Fin n) (Fin n) ℚ) (i j : Nat) (hi : i < n)
    (hj : j < n) : getM M i j = .ok (M ⟨i, hi⟩ ⟨j, hj⟩) := by
  simp [getM, hi, hj]

theorem setM_of_lt {n : Nat} (M : Matrix (Fin n) (Fin n) ℚ) (i j : Nat) (x : ℚ) (hi : i < n)
    (hj : j < n) : ∃ M1, setM M i j x = .ok M1 ∧
      ∀ c d : Fin n, M1 c d = if c.val = i ∧ d.val = j then x else M c d := by
  have h : setM M i j x = .ok (Function.update M ⟨i, hi⟩
      (Function.update (M ⟨i, hi⟩) ⟨j, hj⟩ x)) := by
    simp [setM, hi, hj]
  exact ⟨_, h, (setM_ok M _ i j x h).2.2⟩

/-- The root loop of `readMeanPose_` ends without fault when the pose has the three root
entries, and zeroes exactly them. -/
theorem zeroRootPose_spec {P : Nat} (old : Fin P → ℚ) (hP : SPACE_DIM ≤ P) :
    ∃ mp, zeroRootPose old = .ok mp ∧
      ∀ j : Fin P, mp j = if j.val < SPACE_DIM then 0 else old j := by
  obtain ⟨mp, h, hp⟩ := forLoop_inv
    (fun i (mp : Fin P → ℚ) => ∀ j : Fin P, mp j = if j.val < i then 0 else old j)
    SPACE_DIM (fun i mp => setV mp i 0) old (by intro j; simp) (by
      intro i s hi hs
      have hiP : i < P := by omega
      refine ⟨_, setV_of_lt s i 0 hiP, ?_⟩
      intro j
      by_cases hj : j = ⟨i, hiP⟩
      · subst hj; simp
      · have hne : j.val ≠ i := fun hh => hj (Fin.ext hh)
        rw [Function.update_noteq hj, hs j]
        split_ifs <;> first | rfl | omega)
  exact ⟨mp, h, hp⟩

theorem forLoop_inv_imp {σ : Type} (P : Nat → σ → Prop) (Q : σ → Prop) (n : Nat)
    (body : Nat → σ → Except Fault σ) (init : σ) (h0 : P 0 init)
    (hstep : ∀ i s, i < n → P i s → ∃ s1, body i s = .ok s1 ∧ P (i + 1) s1)
    (hQ : ∀ s, P n s → Q s) :
    ∃ s1, forLoop n body init = .ok s1 ∧ Q s1 := by
  obtain ⟨s1, h, hp⟩ := forLoop_inv P n body init h0 hstep
  exact ⟨s1, h, hQ s1 hp⟩

theorem forRange_inv_imp {σ : Type} (P : Nat → σ → Prop) (Q : σ → Prop) (lo hi : Nat)
    (body : Nat → σ → Except Fault σ) (init : σ) (h0 : P lo init)
    (hstep : ∀ i s, lo ≤ i → i < hi → P i s → ∃ s1, body i s = .ok s1 ∧ P (i + 1) s1)
    (hQ : ∀ s, P (lo + (hi - lo)) s → Q s) :
    ∃ s1, forRange lo hi body init = .ok s1 ∧ Q s1 := by
  rw [forRange_eq_forLoop]
  exact forLoop_inv_imp (fun k s => P (lo + k) s) Q (hi - lo) (fun k s => body (lo + k) s) init
    h0 (fun i s hi1 hp => hstep (lo + i) s (by omega) (by omega) hp) hQ

/-- The reading loop of `readMeanPose_` over a body with enough values. -/
theorem readPoseBody_spec {P : Nat} (mp0 : Fin P → ℚ) (body : List ℚ)
    (hlen : P - SPACE_DIM ≤ body.length) :
    ∃ r, readPoseBody mp0 ⟨body, false⟩ = .ok r ∧
      ∀ j : Fin P, r.1 j = if SPACE_DIM ≤ j.val then body.getD (j.val - SPACE_DIM) 0
        else mp0 j := by
  unfold readPoseBody
  refine forRange_inv_imp
    (fun i (acc : (Fin P → ℚ) × IStream) => acc.2 = ⟨body.drop (i - SPACE_DIM), false⟩ ∧
      ∀ j : Fin P, acc.1 j = if SPACE_DIM ≤ j.val ∧ j.val < i then
        body.getD (j.val - SPACE_DIM) 0 else mp0 j)
    _ _ _ _ _ ?h0 ?hstep ?hQ
  case hQ =>
    intro acc hacc j
    rw [hacc.2 j]
    have := j.isLt
    split_ifs <;> first | rfl | omega
  case h0 =>
    refine ⟨by simp, ?_⟩
    intro j
    show mp0 j = _
    split_ifs <;> first | rfl | omega
  case hstep =>
    intro i acc hlo hi ⟨hst, hacc⟩
    have hkl : i - SPACE_DIM < body.length := by omega
    refine ⟨(Function.update acc.1 ⟨i, hi⟩ (body.getD (i - SPACE_DIM) 0),
      ⟨body.drop (i + 1 - SPACE_DIM), false⟩), ?_, rfl, ?_⟩
    · rw [getV_of_lt acc.1 _ hi]
      simp only [ok_bind, hst, extract_drop body _ _ hkl]
      rw [setV_of_lt acc.1 _ _ hi]
      have : i - SPACE_DIM + 1 = i + 1 - SPACE_DIM := by omega
      rw [this]
      rfl
    · intro j
      show Function.update acc.1 ⟨i, hi⟩ (body.getD (i - SPACE_DIM) 0) j = _
      by_cases hj : j = ⟨i, hi⟩
      · subst hj
        simp [hlo]
      · have hne : j.val ≠ i := fun hh => hj (Fin.ext hh)
        rw [Function.update_noteq hj, hacc j]
        split_ifs <;> first | rfl | omega

/-- The reading loop of `readMeanPose_` ends without fault whatever the body holds. -/
theorem readPoseBody_ok {P : Nat} (mp0 : Fin P → ℚ) (st0 : IStream) :
    ∃ r, readPoseBody mp0 st0 = .ok r ∧ True := by
  unfold readPoseBody
  refine forRange_inv_imp (fun _ (_ : (Fin P → ℚ) × IStream) => True) _ _ _ _ _ trivial
    ?hstep (fun _ _ => trivial)
  case hstep =>
    intro i acc _ hi _
    refine ⟨(Function.update acc.1 ⟨i, hi⟩ (acc.2.extract (acc.1 ⟨i, hi⟩)).1,
      (acc.2.extract (acc.1 ⟨i, hi⟩)).2), ?_, trivial⟩
    rw [getV_of_lt acc.1 _ hi]
    simp only [ok_bind]
    rw [setV_of_lt acc.1 _ _ hi]
    rfl


/-- The root loop nest of `readStiffness_` ends without fault when the matrix has the three
root rows and columns. -/
theorem zeroRootStiffness_ok {P : Nat} (old : Matrix (Fin P) (Fin P) ℚ)
    (hP : SPACE_DIM ≤ P) : ∃ S, zeroRootStiffness old = .ok S ∧ True := by
  unfold zeroRootStiffness
  refine forLoop_inv_imp (fun _ (_ : Matrix (Fin P) (Fin P) ℚ) => True) _ _ _ _ trivial
    ?hstep (fun _ _ => trivial)
  case hstep =>
    intro i S hi _
    have hiP : i < P := by omega
    obtain ⟨S1, h1, -⟩ := forLoop_inv_imp (fun _ (_ : Matrix (Fin P) (Fin P) ℚ) => True)
      (fun _ => True) P (fun j S => do
        let S ← setM S j i 0
        setM S i j 0) S trivial (by
        intro j M hj _
        obtain ⟨M1, hM1, -⟩ := setM_of_lt M j i 0 hj hiP
        obtain ⟨M2, hM2, -⟩ := setM_of_lt M1 i j 0 hiP hj
        refine ⟨M2, ?_, trivial⟩
        show (setM M j i 0 >>= fun S => setM S i j 0) = Except.ok M2
        rw [hM1]
        exact hM2) (fun _ _ => trivial)
    exact ⟨S1, h1, trivial⟩

theorem index_lt_sq (a b n : Nat) (ha : a < n) (hb : b < n) : a * n + b < n * n := by
  calc a * n + b < a * n + n := by omega
    _ = (a + 1) * n := by ring
    _ ≤ n * n := Nat.mul_le_mul_right n ha

/-- One extraction of the reading loop nest of `readStiffness_`. -/
theorem readStiffness_step {P : Nat} (acc : Matrix (Fin P) (Fin P) ℚ × IStream) (i j : Nat)
    (hi : i < P) (hj : j < P) :
    ∃ M1, (do
        let cur ← getM acc.1 i j
        let (x, st) := acc.2.extract cur
        let S ← setM acc.1 i j x
        pure (S, st) : Except Fault (Matrix (Fin P) (Fin P) ℚ × IStream))
      = .ok (M1, (acc.2.extract (acc.1 ⟨i, hi⟩ ⟨j, hj⟩)).2) ∧
      ∀ c d : Fin P, M1 c d = if c.val = i ∧ d.val = j then
        (acc.2.extract (acc.1 ⟨i, hi⟩ ⟨j, hj⟩)).1 else acc.1 c d := by
  obtain ⟨M1, hM1, hM1e⟩ := setM_of_lt acc.1 i j (acc.2.extract (acc.1 ⟨i, hi⟩ ⟨j, hj⟩)).1 hi hj
  refine ⟨M1, ?_, hM1e⟩
  rw [getM_of_lt acc.1 i j hi hj]
  simp only [ok_bind]
  rw [hM1]
  rfl

/-- The reading loop nest of `readStiffness_` ends without fault whatever the body holds. -/
theorem readStiffnessBody_ok {P : Nat} (S0 : Matrix (Fin P) (Fin P) ℚ) (st0 : IStream) :
    ∃ r, readStiffnessBody S0 st0 = .ok r ∧ True := by
  unfold readStiffnessBody
  refine forRange_inv_imp (fun _ (_ : Matrix (Fin P) (Fin P) ℚ × IStream) => True) _ _ _ _ _
    trivial ?hstep (fun _ _ => trivial)
  case hstep =>
    intro i acc _ hi _
    obtain ⟨r, hr, -⟩ := forRange_inv_imp
      (fun _ (_ : Matrix (Fin P) (Fin P) ℚ × IStream) => True) (fun _ => True) SPACE_DIM P
      (fun j acc => do
        let cur ← getM acc.1 i j
        let (x, st) := acc.2.extract cur
        let S ← setM acc.1 i j x
        pure (S, st)) acc trivial (by
        intro j a _ hj _
        obtain ⟨M1, hM1, -⟩ := readStiffness_step a i j hi hj
        exact ⟨_, hM1, trivial⟩) (fun _ _ => trivial)
    exact ⟨r, hr, trivial⟩

/-- The reading loop nest of `readStiffness_` over a body with enough values: the non-root
block holds the body in row-major order. -/
theorem readStiffnessBody_spec {P : Nat} (S0 : Matrix (Fin P) (Fin P) ℚ) (body : List ℚ)
    (hlen : (P - SPACE_DIM) * (P - SPACE_DIM) ≤ body.length) :
    ∃ r, readStiffnessBody S0 ⟨body, false⟩ = .ok r ∧
      ∀ c d : Fin P, r.1 c d = if SPACE_DIM ≤ c.val ∧ SPACE_DIM ≤ d.val then
        body.getD ((c.val - SPACE_DIM) * (P - SPACE_DIM) + (d.val - SPACE_DIM)) 0
        else S0 c d := by
  unfold readStiffnessBody
  refine forRange_inv_imp
    (fun i (acc : Matrix (Fin P) (Fin P) ℚ × IStream) =>
      acc.2 = ⟨body.drop ((i - SPACE_DIM) * (P - SPACE_DIM)), false⟩ ∧
      ∀ c d : Fin P, acc.1 c d = if SPACE_DIM ≤ c.val ∧ c.val < i ∧ SPACE_DIM ≤ d.val then
        body.getD ((c.val - SPACE_DIM) * (P - SPACE_DIM) + (d.val - SPACE_DIM)) 0
        else S0 c d)
    _ _ _ _ _ ?h0 ?hstep ?hQ
  case hQ =>
    intro acc hacc c d
    rw [hacc.2 c d]
    have := c.isLt
    split_ifs <;> first | rfl | omega
  case h0 =>
    refine ⟨by simp, ?_⟩
    intro c d
    show S0 c d = _
    split_ifs <;> first | rfl | omega
  case hstep =>
    intro i acc hlo hi ⟨hst, hacc⟩
    obtain ⟨r, hr, hrs, hre⟩ := forRange_inv_imp
      (fun j (a : Matrix (Fin P) (Fin P) ℚ × IStream) =>
        a.2 = ⟨body.drop ((i - SPACE_DIM) * (P - SPACE_DIM) + (j - SPACE_DIM)), false⟩ ∧
        ∀ c d : Fin P, a.1 c d =
          if (SPACE_DIM ≤ c.val ∧ c.val < i ∧ SPACE_DIM ≤ d.val) ∨
              (c.val = i ∧ SPACE_DIM ≤ d.val ∧ d.val < j) then
            body.getD ((c.val - SPACE_DIM) * (P - SPACE_DIM) + (d.val - SPACE_DIM)) 0
          else S0 c d)
      (fun (a : Matrix (Fin P) (Fin P) ℚ × IStream) =>
        a.2 = ⟨body.drop ((i + 1 - SPACE_DIM) * (P - SPACE_DIM)), false⟩ ∧
        ∀ c d : Fin P, a.1 c d =
          if SPACE_DIM ≤ c.val ∧ c.val < i + 1 ∧ SPACE_DIM ≤ d.val then
            body.getD ((c.val - SPACE_DIM) * (P - SPACE_DIM) + (d.val - SPACE_DIM)) 0
          else S0 c d)
      SPACE_DIM P
      (fun j acc => do
        let cur ← getM acc.1 i j
        let (x, st) := acc.2.extract cur
        let S ← setM acc.1 i j x
        pure (S, st)) acc
      (by
        refine ⟨by simpa using hst, ?_⟩
        intro c d
        rw [hacc c d]
        split_ifs <;> first | rfl | omega)
      (by
        intro j a hjlo hj ⟨hast, ha⟩
        obtain ⟨M1, hM1, hM1e⟩ := readStiffness_step a i j hi hj
        have hk : (i - SPACE_DIM) * (P - SPACE_DIM) + (j - SPACE_DIM) < body.length :=
          lt_of_lt_of_le (index_lt_sq _ _ _ (by omega) (by omega)) hlen
        refine ⟨(M1, (a.2.extract (a.1 ⟨i, hi⟩ ⟨j, hj⟩)).2), hM1, ?_, ?_⟩
        · show (a.2.extract (a.1 ⟨i, hi⟩ ⟨j, hj⟩)).2 = _
          rw [hast, extract_drop body _ _ hk]
          have : (i - SPACE_DIM) * (P - SPACE_DIM) + (j - SPACE_DIM) + 1
              = (i - SPACE_DIM) * (P - SPACE_DIM) + (j + 1 - SPACE_DIM) := by omega
          rw [this]
        · intro c d
          show M1 c d = _
          rw [hM1e c d, hast, extract_drop body _ _ hk]
          by_cases hcd : c.val = i ∧ d.val = j
          · rw [if_pos hcd, if_pos (Or.inr ⟨hcd.1, by omega, by omega⟩), hcd.1, hcd.2]
          · rw [if_neg hcd, ha c d]
            split_ifs <;> first | rfl | omega)
      (by
        intro a ⟨hast, ha⟩
        refine ⟨?_, ?_⟩
        · rw [hast]
          have : (i - SPACE_DIM) * (P - SPACE_DIM) + (SPACE_DIM + (P - SPACE_DIM) - SPACE_DIM)
              = (i + 1 - SPACE_DIM) * (P - SPACE_DIM) := by
            have h1 : i + 1 - SPACE_DIM = (i - SPACE_DIM) + 1 := by omega
            have h2 : SPACE_DIM + (P - SPACE_DIM) - SPACE_DIM = P - SPACE_DIM := by omega
            rw [h1, h2]
            ring
          rw [this]
        · intro c d
          rw [ha c d]
          have := d.isLt
          split_ifs <;> first | rfl | omega)
    exact ⟨r, hr, hrs, hre⟩


/-- The mean pose that `readMeanPose_` loads from a file with the right declared count and
enough values. -/
theorem readMeanPose_spec (P : Nat) (old : Fin P → ℚ) (f : MeanPoseFile)
    (hP : SPACE_DIM ≤ P) (hsize : f.size = (P : Int) - (SPACE_DIM : Int))
    (hlen : P - SPACE_DIM ≤ f.body.length) :
    ∃ m, readMeanPose_ P old f = .ok m ∧
      ∀ j : Fin P, m j = if SPACE_DIM ≤ j.val then f.body.getD (j.val - SPACE_DIM) 0
        else 0 := by
  obtain ⟨mp, hmp, hmpe⟩ := zeroRootPose_spec old hP
  obtain ⟨r, hr, hre⟩ := readPoseBody_spec mp f.body hlen
  refine ⟨r.1, ?_, ?_⟩
  · simp [readMeanPose_, hsize, hmp, hr]
  · intro j
    rw [hre j, hmpe j]
    split_ifs <;> first | rfl | omega

/-- The stiffness that `readStiffness_` loads from a file with the right declared dimensions
and enough values. -/
theorem readStiffness_spec (P : Nat) (old : Matrix (Fin P) (Fin P) ℚ) (f : StiffnessFile)
    (hP : SPACE_DIM ≤ P) (hsq : f.rows = f.cols)
    (hrows : f.rows = (P : Int) - (SPACE_DIM : Int))
    (hlen : (P - SPACE_DIM) * (P - SPACE_DIM) ≤ f.body.length) :
    ∃ S, readStiffness_ P old f = .ok S ∧
      ∀ c d : Fin P, S c d = if SPACE_DIM ≤ c.val ∧ SPACE_DIM ≤ d.val then
        f.body.getD ((c.val - SPACE_DIM) * (P - SPACE_DIM) + (d.val - SPACE_DIM)) 0
        else 0 := by
  obtain ⟨S1, hS1, -⟩ := zeroRootStiffness_ok old hP
  have hz := zeroRootStiffness_rootZero old S1 hS1
  obtain ⟨r, hr, hre⟩ := readStiffnessBody_spec S1 f.body hlen
  refine ⟨r.1, ?_, ?_⟩
  · simp [readStiffness_, hsq, hrows, hS1, hr]
    rw [← hsq]
    simp [hrows]
  · intro c d
    rw [hre c d]
    split_ifs with h
    · rfl
    · apply hz c d
      omega

/-- C11: the prior loaders fail exactly on malformed declared dimensions. `readMeanPose_`
raises if and only if the declared count differs from `POSE_SIZE - SPACE_DIM`, and
`readStiffness_` raises if and only if the declared rows differ from the declared cols or from
`POSE_SIZE - SPACE_DIM`; otherwise they return. In the failing case no value of the file body
is read: the exception is the outcome whatever the body and the old content are. -/
theorem prior_loaders_fail_iff (P : Nat) (oldm : Fin P → ℚ)
    (oldS : Matrix (Fin P) (Fin P) ℚ) (fm : MeanPoseFile) (fs : StiffnessFile)
    (hP : SPACE_DIM ≤ P) :
    ((∃ e, readMeanPose_ P oldm fm = .error e) ↔ fm.size ≠ (P : Int) - (SPACE_DIM : Int)) ∧
    ((∃ m, readMeanPose_ P oldm fm = .ok m) ↔ fm.size = (P : Int) - (SPACE_DIM : Int)) ∧
    (fm.size ≠ (P : Int) - (SPACE_DIM : Int) → ∀ old1 body1,
      readMeanPose_ P old1 ⟨fm.size, body1⟩ = .error Fault.priorSizeMismatch) ∧
    ((∃ e, readStiffness_ P oldS fs = .error e) ↔
      (fs.rows ≠ fs.cols ∨ fs.rows ≠ (P : Int) - (SPACE_DIM : Int))) ∧
    ((∃ S, readStiffness_ P oldS fs = .ok S) ↔
      (fs.rows = fs.cols ∧ fs.rows = (P : Int) - (SPACE_DIM : Int))) ∧
    (fs.rows ≠ fs.cols → ∀ old1 body1,
      readStiffness_ P old1 ⟨fs.rows, fs.cols, body1⟩ = .error Fault.stiffnessNotSquare) ∧
    (fs.rows = fs.cols → fs.rows ≠ (P : Int) - (SPACE_DIM : Int) → ∀ old1 body1,
      readStiffness_ P old1 ⟨fs.rows, fs.cols, body1⟩ = .error Fault.priorSizeMismatch) := by
  have hmean : ∀ (old1 : Fin P → ℚ) (f : MeanPoseFile),
      (f.size ≠ (P : Int) - (SPACE_DIM : Int) →
        readMeanPose_ P old1 f = .error Fault.priorSizeMismatch) ∧
      (f.size = (P : Int) - (SPACE_DIM : Int) → ∃ m, readMeanPose_ P old1 f = .ok m) := by
    intro old1 f
    constructor
    · intro h
      simp [readMeanPose_, h]
    · intro h
      obtain ⟨mp, hmp, -⟩ := zeroRootPose_spec old1 hP
      obtain ⟨r, hr, -⟩ := readPoseBody_ok mp ⟨f.body, false⟩
      exact ⟨r.1, by simp [readMeanPose_, h, hmp, hr]⟩
  have hstiff : ∀ (old1 : Matrix (Fin P) (Fin P) ℚ) (f : StiffnessFile),
      (f.rows ≠ f.cols → readStiffness_ P old1 f = .error Fault.stiffnessNotSquare) ∧
      (f.rows = f.cols → f.rows ≠ (P : Int) - (SPACE_DIM : Int) →
        readStiffness_ P old1 f = .error Fault.priorSizeMismatch) ∧
      (f.rows = f.cols → f.rows = (P : Int) - (SPACE_DIM : Int) →
        ∃ S, readStiffness_ P old1 f = .ok S) := by
    intro old1 f
    refine ⟨?_, ?_, ?_⟩
    · intro h
      simp [readStiffness_, h]
    · intro h1 h2
      simp only [readStiffness_, h1, ne_eq, not_true_eq_false, if_false]
      rw [← h1]
      simp [h2]
    · intro h1 h2
      obtain ⟨S1, hS1, -⟩ := zeroRootStiffness_ok old1 hP
      obtain ⟨r, hr, -⟩ := readStiffnessBody_ok S1 ⟨f.body, false⟩
      refine ⟨r.1, ?_⟩
      simp only [readStiffness_, h1, ne_eq, not_true_eq_false, if_false]
      rw [← h1]
      simp [h2, hS1, hr]
  refine ⟨?_, ?_, ?_, ?_, ?_, ?_, ?_⟩
  · constructor
    · rintro ⟨e, he⟩ heq
      obtain ⟨m, hm⟩ := (hmean oldm fm).2 heq
      rw [hm] at he
      cases he
    · intro h
      exact ⟨_, (hmean oldm fm).1 h⟩
  · constructor
    · rintro ⟨m, hm⟩
      by_contra h
      rw [(hmean oldm fm).1 h] at hm
      cases hm
    · exact (hmean oldm fm).2
  · intro h old1 body1
    exact (hmean old1 ⟨fm.size, body1⟩).1 h
  · constructor
    · rintro ⟨e, he⟩
      by_contra h
      have h1 : fs.rows = fs.cols := by
        by_contra hh; exact h (Or.inl hh)
      have h2 : fs.rows = (P : Int) - (SPACE_DIM : Int) := by
        by_contra hh; exact h (Or.inr hh)
      obtain ⟨S, hS⟩ := (hstiff oldS fs).2.2 h1 h2
      rw [hS] at he
      cases he
    · intro h
      by_cases h1 : fs.rows = fs.cols
      · rcases h with h | h
        · exact absurd h1 h
        · exact ⟨_, (hstiff oldS fs).2.1 h1 h⟩
      · exact ⟨_, (hstiff oldS fs).1 h1⟩
  · constructor
    · rintro ⟨S, hS⟩
      constructor
      · by_contra h
        rw [(hstiff oldS fs).1 h] at hS
        cases hS
      · by_contra h
        by_cases h1 : fs.rows = fs.cols
        · rw [(hstiff oldS fs).2.1 h1 h] at hS
          cases hS
        · rw [(hstiff oldS fs).1 h1] at hS
          cases hS
    · intro h
      exact (hstiff oldS fs).2.2 h.1 h.2
  · intro h old1 body1
    exact (hstiff old1 ⟨fs.rows, fs.cols, body1⟩).1 h
  · intro h1 h2 old1 body1
    exact (hstiff old1 ⟨fs.rows, fs.cols, body1⟩).2.1 h1 h2


/-- C11, witness: with four pose dimensions a mean-pose file declaring two values and a
stiffness file declaring one row and two columns are both rejected. -/
theorem prior_loaders_fail_iff_witness :
    SPACE_DIM ≤ 4 ∧
    (((∃ e, readMeanPose_ 4 toyOldPrior.mean_pose_ ⟨2, [7, 8]⟩ = .error e) ↔
        (2 : Int) ≠ ((4 : Nat) : Int) - (SPACE_DIM : Int)) ∧
      ((∃ m, readMeanPose_ 4 toyOldPrior.mean_pose_ ⟨2, [7, 8]⟩ = .ok m) ↔
        (2 : Int) = ((4 : Nat) : Int) - (SPACE_DIM : Int)) ∧
      ((2 : Int) ≠ ((4 : Nat) : Int) - (SPACE_DIM : Int) → ∀ old1 body1,
        readMeanPose_ 4 old1 ⟨2, body1⟩ = .error Fault.priorSizeMismatch) ∧
      ((∃ e, readStiffness_ 4 toyOldPrior.stiffness_ ⟨1, 2, [1, 2]⟩ = .error e) ↔
        ((1 : Int) ≠ 2 ∨ (1 : Int) ≠ ((4 : Nat) : Int) - (SPACE_DIM : Int))) ∧
      ((∃ S, readStiffness_ 4 toyOldPrior.stiffness_ ⟨1, 2, [1, 2]⟩ = .ok S) ↔
        ((1 : Int) = 2 ∧ (1 : Int) = ((4 : Nat) : Int) - (SPACE_DIM : Int))) ∧
      ((1 : Int) ≠ 2 → ∀ old1 body1,
        readStiffness_ 4 old1 ⟨1, 2, body1⟩ = .error Fault.stiffnessNotSquare) ∧
      ((1 : Int) = 2 → (1 : Int) ≠ ((4 : Nat) : Int) - (SPACE_DIM : Int) → ∀ old1 body1,
        readStiffness_ 4 old1 ⟨1, 2, body1⟩ = .error Fault.priorSizeMismatch)) :=
  ⟨by decide,
    prior_loaders_fail_iff 4 toyOldPrior.mean_pose_ toyOldPrior.stiffness_ ⟨2, [7, 8]⟩
      ⟨1, 2, [1, 2]⟩ (by decide)⟩

/-- C12: for every pair of prior files with the declared dimensions `n = POSE_SIZE - SPACE_DIM`
and with the `n` and `n * n` values of their format, the loaders accept and the loaded prior
is the zero-padded embedding of the file contents: `mean_pose[i] = 0` for `i < SPACE_DIM`,
`mean_pose[SPACE_DIM + k]` is the `k`-th file value, `stiffness(i, j) = 0` whenever
`i < SPACE_DIM` or `j < SPACE_DIM`, and `stiffness(SPACE_DIM + r, SPACE_DIM + c)` is the file
value at the row-major position `r * n + c`. -/
theorem loadPrior_zero_padded (P : Nat) (old : PriorModel P) (fm : MeanPoseFile)
    (fs : StiffnessFile) (hP : SPACE_DIM ≤ P)
    (hsize : fm.size = (P : Int) - (SPACE_DIM : Int)) (hsq : fs.rows = fs.cols)
    (hrows : fs.rows = (P : Int) - (SPACE_DIM : Int))
    (hmlen : P - SPACE_DIM ≤ fm.body.length)
    (hslen : (P - SPACE_DIM) * (P - SPACE_DIM) ≤ fs.body.length) :
    ∃ o, loadPrior P old fm fs = .ok o ∧
      (∀ i : Fin P, i.val < SPACE_DIM → o.mean_pose_ i = 0) ∧
      (∀ i : Fin P, ∀ k, k < P - SPACE_DIM → i.val = SPACE_DIM + k →
        fm.body[k]? = some (o.mean_pose_ i)) ∧
      (∀ i j : Fin P, i.val < SPACE_DIM ∨ j.val < SPACE_DIM → o.stiffness_ i j = 0) ∧
      (∀ i j : Fin P, ∀ r c, r < P - SPACE_DIM → c < P - SPACE_DIM →
        i.val = SPACE_DIM + r → j.val = SPACE_DIM + c →
        fs.body[r * (P - SPACE_DIM) + c]? = some (o.stiffness_ i j)) := by
  obtain ⟨m, hm, hme⟩ := readMeanPose_spec P old.mean_pose_ fm hP hsize hmlen
  obtain ⟨S, hS, hSe⟩ := readStiffness_spec P old.stiffness_ fs hP hsq hrows hslen
  refine ⟨⟨m, S⟩, by simp [loadPrior, hm, hS], ?_, ?_, ?_, ?_⟩
  · intro i hi
    show m i = 0
    rw [hme i, if_neg (by omega)]
  · intro i k hk hik
    show _ = some (m i)
    rw [hme i, if_pos (by omega)]
    have : i.val - SPACE_DIM = k := by omega
    rw [this]
    exact getD_eq_of_lt _ k 0 (by omega)
  · intro i j hij
    show S i j = 0
    rw [hSe i j, if_neg (by omega)]
  · intro i j r c hr hc hir hjc
    show _ = some (S i j)
    rw [hSe i j, if_pos (by omega)]
    have h1 : i.val - SPACE_DIM = r := by omega
    have h2 : j.val - SPACE_DIM = c := by omega
    rw [h1, h2]
    exact getD_eq_of_lt _ _ 0 (lt_of_lt_of_le (index_lt_sq r c _ hr hc) hslen)

/-- C12, witness: the files `1 / 7` and `1 1 / 2` with four pose dimensions. -/
theorem loadPrior_zero_padded_witness :
    (SPACE_DIM ≤ 4 ∧ (1 : Int) = ((4 : Nat) : Int) - (SPACE_DIM : Int) ∧ (1 : Int) = 1 ∧
      (1 : Int) = ((4 : Nat) : Int) - (SPACE_DIM : Int) ∧
      4 - SPACE_DIM ≤ ([7] : List ℚ).length ∧
      (4 - SPACE_DIM) * (4 - SPACE_DIM) ≤ ([2] : List ℚ).length) ∧
    ∃ o, loadPrior 4 toyOldPrior ⟨1, [7]⟩ ⟨1, 1, [2]⟩ = .ok o ∧
      (∀ i : Fin 4, i.val < SPACE_DIM → o.mean_pose_ i = 0) ∧
      (∀ i : Fin 4, ∀ k, k < 4 - SPACE_DIM → i.val = SPACE_DIM + k →
        ([7] : List ℚ)[k]? = some (o.mean_pose_ i)) ∧
      (∀ i j : Fin 4, i.val < SPACE_DIM ∨ j.val < SPACE_DIM → o.stiffness_ i j = 0) ∧
      (∀ i j : Fin 4, ∀ r c, r < 4 - SPACE_DIM → c < 4 - SPACE_DIM →
        i.val = SPACE_DIM + r → j.val = SPACE_DIM + c →
        ([2] : List ℚ)[r * (4 - SPACE_DIM) + c]? = some (o.stiffness_ i j)) :=
  ⟨⟨by decide, by decide, rfl, by decide, by decide, by decide⟩,
    loadPrior_zero_padded 4 toyOldPrior ⟨1, [7]⟩ ⟨1, 1, [2]⟩ (by decide) (by decide) rfl
      (by decide) (by decide) (by decide)⟩

/-- C13 (as amended): for every stiffness file that `readStiffness_` accepts and whose body
is a symmetric `n x n` matrix, the loaded `POSE_SIZE x POSE_SIZE` stiffness matrix is
symmetric. -/
theorem readStiffness_symmetric (P : Nat) (old : Matrix (Fin P) (Fin P) ℚ)
    (f : StiffnessFile) (hP : SPACE_DIM ≤ P) (hsq : f.rows = f.cols)
    (hrows : f.rows = (P : Int) - (SPACE_DIM : Int))
    (hlen : (P - SPACE_DIM) * (P - SPACE_DIM) ≤ f.body.length)
    (hsym : ∀ r c, r < P - SPACE_DIM → c < P - SPACE_DIM →
      f.body[r * (P - SPACE_DIM) + c]? = f.body[c * (P - SPACE_DIM) + r]?) :
    ∃ S, readStiffness_ P old f = .ok S ∧ ∀ i j : Fin P, S i j = S j i := by
  obtain ⟨S, hS, hSe⟩ := readStiffness_spec P old f hP hsq hrows hlen
  refine ⟨S, hS, ?_⟩
  intro i j
  rw [hSe i j, hSe j i]
  have hi := i.isLt
  have hj := j.isLt
  by_cases h : SPACE_DIM ≤ i.val ∧ SPACE_DIM ≤ j.val
  · rw [if_pos h, if_pos ⟨h.2, h.1⟩]
    have := hsym (i.val - SPACE_DIM) (j.val - SPACE_DIM) (by omega) (by omega)
    simp only [List.getD, List.get?_eq_getElem?]
    rw [this]
  · rw [if_neg h, if_neg (fun hh => h ⟨hh.2, hh.1⟩)]

/-- C13, witness: the symmetric body `1 2 / 2 4` with five pose dimensions. -/
theorem readStiffness_symmetric_witness :
    (SPACE_DIM ≤ 5 ∧ (2 : Int) = 2 ∧ (2 : Int) = ((5 : Nat) : Int) - (SPACE_DIM : Int) ∧
      (5 - SPACE_DIM) * (5 - SPACE_DIM) ≤ ([1, 2, 2, 4] : List ℚ).length ∧
      ∀ r c, r < 5 - SPACE_DIM → c < 5 - SPACE_DIM →
        ([1, 2, 2, 4] : List ℚ)[r * (5 - SPACE_DIM) + c]?
          = ([1, 2, 2, 4] : List ℚ)[c * (5 - SPACE_DIM) + r]?) ∧
    ∃ S, readStiffness_ 5 (fun _ _ => 5) ⟨2, 2, [1, 2, 2, 4]⟩ = .ok S ∧
      ∀ i j : Fin 5, S i j = S j i :=
  have hsym : ∀ r c, r < 5 - SPACE_DIM → c < 5 - SPACE_DIM →
      ([1, 2, 2, 4] : List ℚ)[r * (5 - SPACE_DIM) + c]?
        = ([1, 2, 2, 4] : List ℚ)[c * (5 - SPACE_DIM) + r]? := by
    intro r c hr hc
    have hr2 : r < 2 := hr
    have hc2 : c < 2 := hc
    interval_cases r <;> interval_cases c <;> rfl
  ⟨⟨by decide, rfl, by decide, by decide, hsym⟩,
    readStiffness_symmetric 5 (fun _ _ => 5) ⟨2, 2, [1, 2, 2, 4]⟩ (by decide) rfl (by decide)
      (by decide) hsym⟩

/-- C13, counterexample to the claim as stated: the accepted file `2 2 / 1 2 3 4` with five
pose dimensions loads into a stiffness with entry `(3, 4)` equal to 2 and entry `(4, 3)`
equal to 3. -/
theorem readStiffness_not_symmetric :
    (readStiffness_ 5 (fun _ _ => 5) ⟨2, 2, [1, 2, 3, 4]⟩).map (fun S => (S 3 4, S 4 3))
      = .ok (2, 3) := by
  decide!

/-! ### C14, C15: the driver -/

theorem newArray_length (n : Nat) (g : Nat → ℚ) : (newArray n g).length = n := by
  simp [newArray]

/-- The method `zeros_` over an array of `size` entries leaves `size` zeros. -/
theorem zeros_eq (arr : List ℚ) (size : Nat) (h : arr.length = size) :
    zeros_ arr size = .ok (List.replicate size 0) := by
  obtain ⟨r, hr, hlen, hz⟩ := forLoop_inv
    (fun i (a : List ℚ) => a.length = size ∧ ∀ k, k < i → a[k]? = some 0)
    size (fun i arr => setArr arr i 0) arr ⟨h, fun k hk => by omega⟩ (by
      intro i a hi ⟨hlen, ha⟩
      refine ⟨a.set i 0, by simp [setArr, hlen, hi], by simp [hlen], ?_⟩
      intro k hk
      rw [List.getElem?_set]
      by_cases hik : i = k
      · simp [hik, hlen]
        omega
      · rw [if_neg hik]
        exact ha k (by omega))
  unfold zeros_
  rw [hr]
  congr 1
  apply List.ext_getElem?
  intro k
  by_cases hk : k < size
  · rw [hz k hk]
    simp [List.getElem?_replicate, hk]
  · rw [List.getElem?_eq_none (by omega), List.getElem?_eq_none (by simp; omega)]

/-- C14: at the start of every `findOptimalParameters` run, before the solver is invoked, the
parameter blocks are freshly initialised, whatever a previous run and the allocation left:
`translation[k] = (target centroid)[k] - (model template centroid)[k]` for each `k < 3`, and
every entry of pose and of shape is 0. -/
theorem findOptimalParameters_init_fresh (smpl : SMPLWrapper) (input : GeneralMesh)
    (o : ParameterBlocks) (defaults : SolverOptions)
    (iteration_results : Option (List MatrixXd)) (gt gp gs : Nat → ℚ)
    (hc : input.getMeanPoint.length = SPACE_DIM)
    (ht : smpl.getTemplateMeanPoint.length = SPACE_DIM) :
    ∃ o1 translation,
      findOptimalParameters_init smpl input o defaults iteration_results gt gp gs
        = .ok (o1, findOptimalParameters_options defaults iteration_results) ∧
      o1.translation_ = some translation ∧ translation.length = SPACE_DIM ∧
      (∀ k, k < SPACE_DIM → ∃ a b, input.getMeanPoint[k]? = some a ∧
        smpl.getTemplateMeanPoint[k]? = some b ∧ translation[k]? = some (a - b)) ∧
      o1.pose_ = some (List.replicate smpl.POSE_SIZE 0) ∧
      o1.shape_ = some (List.replicate smpl.SHAPE_SIZE 0) := by
  have hp := zeros_eq (newArray smpl.POSE_SIZE gp) smpl.POSE_SIZE (newArray_length _ _)
  have hs := zeros_eq (newArray smpl.SHAPE_SIZE gs) smpl.SHAPE_SIZE (newArray_length _ _)
  simp only [newArray] at hp hs
  generalize hA : input.getMeanPoint = A at hc
  generalize hB : smpl.getTemplateMeanPoint = B at ht
  match A, hc with
  | [a0, a1, a2], _ =>
    match B, ht with
    | [b0, b1, b2], _ =>
      refine ⟨⟨some [a0 - b0, a1 - b1, a2 - b2], some (List.replicate smpl.POSE_SIZE 0),
        some (List.replicate smpl.SHAPE_SIZE 0)⟩, [a0 - b0, a1 - b1, a2 - b2], ?_, rfl, rfl, ?_,
        rfl, rfl⟩
      · simp [findOptimalParameters_init, hA, hB, hp, hs, rowSub, SPACE_DIM, forLoop,
          List.range_succ, coeffV, setArr, newArray]
      · intro k hk
        have hk3 : k < 3 := hk
        interval_cases k <;> simp


/-- C14, witness: the concrete target with centroid `(0, 1/3, 1/3)` and the concrete model with
template centroid `(0, 0, 0)`, after a previous run that left values behind. -/
theorem findOptimalParameters_init_fresh_witness :
    (toyMesh.getMeanPoint.length = SPACE_DIM ∧
      toySMPL.getTemplateMeanPoint.length = SPACE_DIM) ∧
    (∃ o1 translation,
      findOptimalParameters_init toySMPL toyMesh ⟨some [9, 9, 9], some [9, 9, 9, 9], none⟩
          toyDefaults none (fun _ => 7) (fun _ => 7) (fun _ => 7)
        = .ok (o1, findOptimalParameters_options toyDefaults none) ∧
      o1.translation_ = some translation ∧ translation.length = SPACE_DIM ∧
      (∀ k, k < SPACE_DIM → ∃ a b, toyMesh.getMeanPoint[k]? = some a ∧
        toySMPL.getTemplateMeanPoint[k]? = some b ∧ translation[k]? = some (a - b)) ∧
      o1.pose_ = some (List.replicate toySMPL.POSE_SIZE 0) ∧
      o1.shape_ = some (List.replicate toySMPL.SHAPE_SIZE 0)) ∧
    Prod.fst <$> findOptimalParameters_init toySMPL toyMesh
        ⟨some [9, 9, 9], some [9, 9, 9, 9], none⟩ toyDefaults none (fun _ => 7) (fun _ => 7)
        (fun _ => 7)
      = .ok ⟨some [0, 1 / 3, 1 / 3], some [0, 0, 0, 0], some [0, 0]⟩ :=
  ⟨⟨rfl, rfl⟩,
    findOptimalParameters_init_fresh toySMPL toyMesh ⟨some [9, 9, 9], some [9, 9, 9, 9], none⟩
      toyDefaults none (fun _ => 7) (fun _ => 7) (fun _ => 7) rfl rfl,
    by decide!⟩

/-- C15: each call of the logging callback ends without fault, returns `SOLVER_CONTINUE`,
appends exactly one matrix to the caller-supplied sequence, namely the model vertices for the
current pose and shape with the current translation added to every row, and leaves the earlier
entries of the sequence and the pose, shape and translation arrays as they were; and
`findOptimalParameters` adds the callback to the solver options exactly when a sink is
supplied. -/
theorem SMPLVertsLoggingCallBack.call_appends (smpl : SMPLWrapper) (s : LoggingState)
    (defaults : SolverOptions) (iteration_results : Option (List MatrixXd))
    (hv : (smpl.vertsPS s.pose_ (some s.shape_)).length = smpl.VERTICES_NUM)
    (hr : ∀ r ∈ smpl.vertsPS s.pose_ (some s.shape_), r.length = SPACE_DIM)
    (ht : s.translation_.length = SPACE_DIM) :
    SMPLVertsLoggingCallBack.call smpl s
      = .ok (CallbackReturnType.SOLVER_CONTINUE,
          { pose_ := s.pose_, shape_ := s.shape_, translation_ := s.translation_,
            smpl_verts_results_ := s.smpl_verts_results_ ++
              [(smpl.vertsPS s.pose_ (some s.shape_)).map
                (fun row => List.zipWith (fun x t => x + t) row s.translation_)] }) ∧
    (findOptimalParameters_options defaults iteration_results).callbacks
      = defaults.callbacks ++
          (if iteration_results ≠ none then [IterationCallback.SMPLVertsLoggingCallBack]
           else []) := by
  constructor
  · have h := AbsoluteDistanceForPose.translate_eq
      (AbsoluteDistanceForPose.ctor smpl toyMesh toySignedDistance 0 none)
      (smpl.vertsPS s.pose_ (some s.shape_)) s.translation_ hv hr ht
    simp only [AbsoluteDistanceForPose.translate, AbsoluteDistanceForPose.ctor] at h
    simp only [SMPLVertsLoggingCallBack.call, h, ok_bind, pure_eq_ok]
  · unfold findOptimalParameters_options
    split_ifs <;> simp

/-- C15, witness: one call on the concrete model, with one earlier snapshot in the sink. -/
theorem SMPLVertsLoggingCallBack.call_appends_witness :
    ((toySMPL.vertsPS [0, 0, 0, 1] (some [2, 0])).length = toySMPL.VERTICES_NUM ∧
      (∀ r ∈ toySMPL.vertsPS [0, 0, 0, 1] (some [2, 0]), r.length = SPACE_DIM)) ∧
    (SMPLVertsLoggingCallBack.call toySMPL ⟨[0, 0, 0, 1], [2, 0], [1, 1, 1], [[[9, 9, 9]]]⟩
      = .ok (CallbackReturnType.SOLVER_CONTINUE,
          { pose_ := [0, 0, 0, 1], shape_ := [2, 0], translation_ := [1, 1, 1],
            smpl_verts_results_ := [[[9, 9, 9]]] ++
              [(toySMPL.vertsPS [0, 0, 0, 1] (some [2, 0])).map
                (fun row => List.zipWith (fun x t => x + t) row [1, 1, 1])] }) ∧
    (findOptimalParameters_options toyDefaults (some [])).callbacks
      = toyDefaults.callbacks ++
          (if (some [] : Option (List MatrixXd)) ≠ none
           then [IterationCallback.SMPLVertsLoggingCallBack] else [])) ∧
    (Prod.snd <$> SMPLVertsLoggingCallBack.call toySMPL
        ⟨[0, 0, 0, 1], [2, 0], [1, 1, 1], [[[9, 9, 9]]]⟩)
      = .ok ⟨[0, 0, 0, 1], [2, 0], [1, 1, 1], [[[9, 9, 9]], [[4, 2, 1]]]⟩ :=
  ⟨⟨rfl, by decide⟩,
    SMPLVertsLoggingCallBack.call_appends toySMPL
      ⟨[0, 0, 0, 1], [2, 0], [1, 1, 1], [[[9, 9, 9]]]⟩ toyDefaults (some [])
      rfl (by decide) rfl,
    by decide!⟩

/-! ### C16: a block of an unrecognised kind -/

/-- C16, counterexample to the claim as stated: a block of an unrecognised kind in cached
mode. `PrepareForEvaluation(false, true)` runs the plain forward pass without looking at the
kind, and the `Evaluate` call that follows, with no Jacobian requested, fills the residuals and
returns true. In immediate mode with a Jacobian requested the block, which the constructor
left without parameter block, reads `parameter_block_sizes()[0]` out of bounds before any
switch on the kind is reached. -/
theorem AbsoluteDistanceBase.Evaluate_other_returns_true :
    (toyBlock .other true).parameter_type_ = .other ∧
    (fun o => (o.ret, o.residuals 0)) <$>
        ((toyBlock .other true).PrepareForEvaluation false true (Sys.fresh toyStatePlain)
          >>= fun s => (toyBlock .other true).Evaluate s [0, 0, 0] zeroBuf none)
      = .ok (true, 4) ∧
    (fun o => o.ret) <$>
        (toyBlock .other false).Evaluate (Sys.fresh toyStatePlain) [0, 0, 0] zeroBuf
          (some (some zeroBuf))
      = .error Fault.outOfBounds := by
  decide!

/-- C16 (as amended): for a block whose kind is none of the four, `Evaluate` throws the
"no parameter type specified" exception wherever it reaches a switch on the kind: in immediate
mode when no Jacobian is requested (`calcDistance` throws), and in cached mode when a Jacobian
is requested, where it never returns true and throws as soon as the residuals are filled. -/
theorem AbsoluteDistanceBase.Evaluate_other_throws (b : AbsoluteDistanceBase) (s : Sys)
    (parameters0 : VectorXd) (residuals : Buf) (jacobians : Option (Option Buf))
    (hk : b.parameter_type_ = .other) :
    (b.use_evaluation_callback_ = false → jacobians.join = none →
      b.Evaluate s parameters0 residuals jacobians = .error Fault.noParameterType) ∧
    (b.use_evaluation_callback_ = true → ∀ J, jacobians = some (some J) →
      (∀ out, b.Evaluate s parameters0 residuals jacobians ≠ .ok out) ∧
      (∀ r1, b.fillResiduals s.last_result_ residuals = .ok r1 →
        b.Evaluate s parameters0 residuals jacobians = .error Fault.noParameterType)) := by
  refine ⟨fun hu hj => ?_, fun hu J hJ => ?_⟩
  · rcases jacobians with _ | _ | J
    · simp [Evaluate, calcDistance, hk, hu]
    · simp [Evaluate, calcDistance, hk, hu]
    · simp at hj
  · subst hJ
    cases hr : b.fillResiduals s.last_result_ residuals with
    | error e =>
      refine ⟨fun out h => ?_, fun r1 h => by cases h⟩
      simp [Evaluate, hu, hr] at h
    | ok r =>
      have hE : b.Evaluate s parameters0 residuals (some (some J))
          = .error Fault.noParameterType := by
        simp [Evaluate, hu, hr, fillJacobians, hk]
      refine ⟨fun out h => ?_, fun _ _ => hE⟩
      rw [hE] at h
      cases h

/-- C16, witness: the concrete block of an unrecognised kind, in immediate mode without
Jacobian and, after a `PrepareForEvaluation(false, true)` call, in cached mode with a Jacobian
array: both evaluations throw. -/
theorem AbsoluteDistanceBase.Evaluate_other_throws_witness :
    (toyBlock .other false).parameter_type_ = .other ∧
    (((toyBlock .other false).use_evaluation_callback_ = false →
        (none : Option (Option Buf)).join = none →
        (toyBlock .other false).Evaluate (Sys.fresh toyStatePlain) [0, 0, 0] zeroBuf none
          = .error Fault.noParameterType) ∧
      ((toyBlock .other false).use_evaluation_callback_ = true →
        ∀ J : Buf, (none : Option (Option Buf)) = some (some J) →
        (∀ out, (toyBlock .other false).Evaluate (Sys.fresh toyStatePlain) [0, 0, 0] zeroBuf
          none ≠ .ok out) ∧
        (∀ r1, (toyBlock .other false).fillResiduals (Sys.fresh toyStatePlain).last_result_
            zeroBuf = .ok r1 →
          (toyBlock .other false).Evaluate (Sys.fresh toyStatePlain) [0, 0, 0] zeroBuf none
            = .error Fault.noParameterType))) ∧
    (fun o => o.ret) <$>
        (toyBlock .other false).Evaluate (Sys.fresh toyStatePlain) [0, 0, 0] zeroBuf none
      = .error Fault.noParameterType ∧
    (fun o => o.ret) <$>
        ((toyBlock .other true).PrepareForEvaluation false true (Sys.fresh toyStatePlain)
          >>= fun s => (toyBlock .other true).Evaluate s [0, 0, 0] zeroBuf (some (some zeroBuf)))
      = .error Fault.noParameterType :=
  ⟨rfl,
    AbsoluteDistanceBase.Evaluate_other_throws (toyBlock .other false) (Sys.fresh toyStatePlain)
      [0, 0, 0] zeroBuf none rfl,
    by decide!, by decide!⟩

/-! ### C18: chain-rule assembly -/

theorem AbsoluteDistanceBase.blockSize0_eq (b : AbsoluteDistanceBase) (P : Nat)
    (hP : b.parameter_block_sizes = [P]) : b.blockSize0 = .ok P := by
  simp [blockSize0, hP]

theorem AbsoluteDistanceBase.fillJac_eq (b : AbsoluteDistanceBase) (d : DistanceResult)
    (residuals J : Buf) (P : Nat) (hP : b.parameter_block_sizes = [P])
    (hv : d.verts.length = b.smpl_.VERTICES_NUM)
    (hc : d.closest_points.length = b.smpl_.VERTICES_NUM)
    (hj : d.jacobian.length = P)
    (hblk : ∀ p, p < P → (d.jacobian.getD p []).length = b.smpl_.VERTICES_NUM) :
    b.fillJac d residuals J = .ok (fun k =>
      if k < b.smpl_.VERTICES_NUM * P then
        b.policy.jac_elem_ (d.verts.getD (k / P) []) (d.closest_points.getD (k / P) [])
          (residuals (k / P)) ((d.jacobian.getD (k % P) []).getD (k / P) [])
      else J k) := by
  unfold AbsoluteDistanceBase.fillJac
  simp only [b.blockSize0_eq P hP, ok_bind]
  apply forLoop_fill2D b.smpl_.VERTICES_NUM P _ (fun v p =>
    b.policy.jac_elem_ (d.verts.getD v []) (d.closest_points.getD v [])
      (residuals v) ((d.jacobian.getD p []).getD v []))
  intro v p J hv1 hp1
  rw [rowM_of_lt d.verts v (by omega), rowM_of_lt d.closest_points v (by omega),
    blockAt_of_lt d.jacobian p (by omega)]
  simp only [ok_bind]
  rw [rowM_of_lt _ v (by rw [hblk p hp1]; exact hv1)]
  rfl

theorem AbsoluteDistanceBase.fillJacStores_eq (b : AbsoluteDistanceBase) (P : Nat)
    (hP : b.parameter_block_sizes = [P]) :
    b.fillJacStores = .ok (List.range (b.smpl_.VERTICES_NUM * P)) := by
  unfold AbsoluteDistanceBase.fillJacStores
  simp only [b.blockSize0_eq P hP, ok_bind]
  obtain ⟨s1, h, hp⟩ := forLoop_inv (fun v (log : List Nat) => log = List.range (v * P))
    b.smpl_.VERTICES_NUM (fun v log => forLoop P (fun p log =>
      (pure (log ++ [v * P + p]) : Except Fault (List Nat))) log) [] (by simp) (by
      intro v s hv hs
      obtain ⟨t, ht, hpt⟩ := forLoop_inv
        (fun p (log : List Nat) => log = List.range (v * P + p))
        P (fun p log => (pure (log ++ [v * P + p]) : Except Fault (List Nat))) s
        (by simpa using hs) (by
          intro p log hp hlog
          refine ⟨log ++ [v * P + p], rfl, ?_⟩
          rw [hlog]
          show _ = List.range (v * P + p + 1)
          rw [List.range_succ])
      refine ⟨t, ht, ?_⟩
      rw [hpt]
      show _ = List.range ((v + 1) * P)
      rw [Nat.succ_mul])
  rw [h, hp]

theorem AbsoluteDistanceBase.fillDisplacementJac_eq (b : AbsoluteDistanceBase)
    (d : DistanceResult) (residuals J : Buf) (P : Nat) (hP : b.parameter_block_sizes = [P])
    (hid : b.vertex_id_for_displacement_ < b.smpl_.VERTICES_NUM)
    (hs : d.signedDists.length = b.smpl_.VERTICES_NUM)
    (hv : d.verts.length = b.smpl_.VERTICES_NUM)
    (hc : d.closest_points.length = b.smpl_.VERTICES_NUM)
    (hj : d.jacobian.length = P)
    (hblk : ∀ p, p < P → (d.jacobian.getD p []).length = b.smpl_.VERTICES_NUM) :
    b.fillDisplacementJac d residuals J = .ok (fun k =>
      if k < P then
        b.policy.jac_elem_ (d.verts.getD b.vertex_id_for_displacement_ [])
          (d.closest_points.getD b.vertex_id_for_displacement_ []) (residuals 0)
          ((d.jacobian.getD k []).getD b.vertex_id_for_displacement_ [])
      else J k) := by
  unfold AbsoluteDistanceBase.fillDisplacementJac
  rw [coeffV_of_lt d.signedDists _ (by omega)]
  simp only [b.blockSize0_eq P hP, ok_bind, map_pure, Functor.map, Except.map]
  apply forLoop_fill1D P _ (fun k =>
    b.policy.jac_elem_ (d.verts.getD b.vertex_id_for_displacement_ [])
      (d.closest_points.getD b.vertex_id_for_displacement_ []) (residuals 0)
      ((d.jacobian.getD k []).getD b.vertex_id_for_displacement_ []))
  intro p J hp1
  rw [rowM_of_lt d.verts _ (by omega), rowM_of_lt d.closest_points _ (by omega),
    blockAt_of_lt d.jacobian p (by omega)]
  simp only [ok_bind]
  rw [rowM_of_lt _ _ (by rw [hblk p hp1]; exact hid)]
  rfl

/-- C18: chain-rule assembly. For a block of parameter size `P` and a distance result with `V`
vertices, `V` closest points and `P` Jacobian blocks of `V` rows, `fillJac` ends without fault,
its stores go to the indices `0, 1, ..., V * P - 1` of the row-major `V x P` output, one store
each, the entry at `v * P + p` is `jac_elem_(verts row v, closest_points row v, residuals[v],
row v of the p-th Jacobian block)`, and the rest of the array is left as it was; when `P` is 3,
as for a Displacement block, `fillDisplacementJac` leaves at each of the entries 0, 1, 2 the
value `jac_elem_` gives for the rows of the selected vertex and `residuals[0]`, and leaves the
rest of the array as it was. -/
theorem AbsoluteDistanceBase.fillJac_chain_rule (b : AbsoluteDistanceBase)
    (d : DistanceResult) (residuals J : Buf) (P : Nat) (hP : b.parameter_block_sizes = [P])
    (hid : b.vertex_id_for_displacement_ < b.smpl_.VERTICES_NUM)
    (hs : d.signedDists.length = b.smpl_.VERTICES_NUM)
    (hv : d.verts.length = b.smpl_.VERTICES_NUM)
    (hc : d.closest_points.length = b.smpl_.VERTICES_NUM)
    (hj : d.jacobian.length = P)
    (hblk : ∀ p, p < P → (d.jacobian.getD p []).length = b.smpl_.VERTICES_NUM) :
    (∃ out, b.fillJac d residuals J = .ok out ∧
      (∀ v p, v < b.smpl_.VERTICES_NUM → p < P →
        out (v * P + p) = b.policy.jac_elem_ (d.verts.getD v []) (d.closest_points.getD v [])
          (residuals v) ((d.jacobian.getD p []).getD v [])) ∧
      (∀ k, b.smpl_.VERTICES_NUM * P ≤ k → out k = J k)) ∧
    b.fillJacStores = .ok (List.range (b.smpl_.VERTICES_NUM * P)) ∧
    (P = SPACE_DIM → ∃ out, b.fillDisplacementJac d residuals J = .ok out ∧
      (∀ axis, axis < 3 →
        out axis = b.policy.jac_elem_ (d.verts.getD b.vertex_id_for_displacement_ [])
          (d.closest_points.getD b.vertex_id_for_displacement_ []) (residuals 0)
          ((d.jacobian.getD axis []).getD b.vertex_id_for_displacement_ [])) ∧
      (∀ k, 3 ≤ k → out k = J k)) := by
  refine ⟨⟨_, b.fillJac_eq d residuals J P hP hv hc hj hblk, ?_, ?_⟩,
    b.fillJacStores_eq P hP, fun h3 => ⟨_, b.fillDisplacementJac_eq d residuals J P hP hid hs hv
      hc hj hblk, ?_, ?_⟩⟩
  · intro v p hv1 hp1
    have h1 : (v * P + p) / P = v := by
      rw [Nat.mul_comm, Nat.mul_add_div (by omega), Nat.div_eq_of_lt hp1]; simp
    have h2 : (v * P + p) % P = p := by
      rw [Nat.mul_comm, Nat.mul_add_mod, Nat.mod_eq_of_lt hp1]
    have h3 : v * P + p < b.smpl_.VERTICES_NUM * P := by
      calc v * P + p < v * P + P := by omega
        _ = (v + 1) * P := by rw [Nat.succ_mul]
        _ ≤ b.smpl_.VERTICES_NUM * P := Nat.mul_le_mul_right P hv1
    simp only [h1, h2, h3, if_true]
  · intro k hk
    simp only [if_neg (Nat.not_lt.mpr hk)]
  · intro axis ha
    have : axis < P := by rw [h3]; exact ha
    simp only [this, if_true]
  · intro k hk
    have : ¬ k < P := by rw [h3]; exact Nat.not_lt.mpr hk
    simp only [this, if_false]

/-- C18, witness: the one-vertex model, a block of parameter size 3 and a distance result with
three Jacobian blocks; the entries are `2 (x - c) . g = 4, 0, 12`. -/
theorem AbsoluteDistanceBase.fillJac_chain_rule_witness :
    ((toyBlock .DISPLACEMENT true).parameter_block_sizes = [3] ∧
      (toyBlock .DISPLACEMENT true).vertex_id_for_displacement_
        < (toyBlock .DISPLACEMENT true).smpl_.VERTICES_NUM ∧
      toyResult.signedDists.length = (toyBlock .DISPLACEMENT true).smpl_.VERTICES_NUM ∧
      toyResult.verts.length = (toyBlock .DISPLACEMENT true).smpl_.VERTICES_NUM ∧
      toyResult.closest_points.length = (toyBlock .DISPLACEMENT true).smpl_.VERTICES_NUM ∧
      toyResult.jacobian.length = 3 ∧
      ∀ p, p < 3 →
        (toyResult.jacobian.getD p []).length
          = (toyBlock .DISPLACEMENT true).smpl_.VERTICES_NUM) ∧
    ((∃ out, (toyBlock .DISPLACEMENT true).fillJac toyResult zeroBuf zeroBuf = .ok out ∧
      (∀ v p, v < (toyBlock .DISPLACEMENT true).smpl_.VERTICES_NUM → p < 3 →
        out (v * 3 + p) = (toyBlock .DISPLACEMENT true).policy.jac_elem_
          (toyResult.verts.getD v []) (toyResult.closest_points.getD v [])
          (zeroBuf v) ((toyResult.jacobian.getD p []).getD v [])) ∧
      (∀ k, (toyBlock .DISPLACEMENT true).smpl_.VERTICES_NUM * 3 ≤ k → out k = zeroBuf k)) ∧
    (toyBlock .DISPLACEMENT true).fillJacStores
      = .ok (List.range ((toyBlock .DISPLACEMENT true).smpl_.VERTICES_NUM * 3)) ∧
    (3 = SPACE_DIM → ∃ out,
      (toyBlock .DISPLACEMENT true).fillDisplacementJac toyResult zeroBuf zeroBuf = .ok out ∧
      (∀ axis, axis < 3 →
        out axis = (toyBlock .DISPLACEMENT true).policy.jac_elem_
          (toyResult.verts.getD (toyBlock .DISPLACEMENT true).vertex_id_for_displacement_ [])
          (toyResult.closest_points.getD
            (toyBlock .DISPLACEMENT true).vertex_id_for_displacement_ []) (zeroBuf 0)
          ((toyResult.jacobian.getD axis []).getD
            (toyBlock .DISPLACEMENT true).vertex_id_for_displacement_ [])) ∧
      (∀ k, 3 ≤ k → out k = zeroBuf k))) ∧
    (fun out => [out 0, out 1, out 2, out 3]) <$>
        (toyBlock .DISPLACEMENT true).fillJac toyResult zeroBuf zeroBuf
      = .ok [4, 0, 12, 0] ∧
    (fun out => [out 0, out 1, out 2, out 3]) <$>
        (toyBlock .DISPLACEMENT true).fillDisplacementJac toyResult zeroBuf zeroBuf
      = .ok [4, 0, 12, 0] ∧
    (toyBlock .DISPLACEMENT true).fillJacStores = .ok [0, 1, 2] :=
  ⟨⟨rfl, by decide, rfl, rfl, rfl, rfl, by decide⟩,
    AbsoluteDistanceBase.fillJac_chain_rule (toyBlock .DISPLACEMENT true) toyResult zeroBuf
      zeroBuf 3 rfl (by decide) rfl rfl rfl rfl (by decide),
    by decide!, by decide!, by decide!⟩

/-! ### C17: the Translation block -/

theorem AbsoluteDistanceBase.fillTranslationJac_closed (b : AbsoluteDistanceBase)
    (d : DistanceResult) (residuals J : Buf) (P : Nat) (hP : b.parameter_block_sizes = [P])
    (hv : d.verts.length = b.smpl_.VERTICES_NUM)
    (hc : d.closest_points.length = b.smpl_.VERTICES_NUM)
    (hvr : ∀ r ∈ d.verts, r.length = P) (hcr : ∀ r ∈ d.closest_points, r.length = P) :
    b.fillTranslationJac d residuals J = .ok (fun k =>
      if k < b.smpl_.VERTICES_NUM * P then
        b.policy.translation_jac_elem_ ((d.verts.getD (k / P) []).getD (k % P) 0)
          ((d.closest_points.getD (k / P) []).getD (k % P) 0) (residuals (k / P))
      else J k) := by
  unfold AbsoluteDistanceBase.fillTranslationJac
  simp only [b.blockSize0_eq P hP, ok_bind]
  apply forLoop_fill2D b.smpl_.VERTICES_NUM P _ (fun v p =>
    b.policy.translation_jac_elem_ ((d.verts.getD v []).getD p 0)
      ((d.closest_points.getD v []).getD p 0) (residuals v))
  intro v p J hv1 hp1
  rw [coeffM_of_lt d.verts v p (by omega)
      (by rw [getD_length_of_mem d.verts v P (by omega) hvr]; exact hp1),
    coeffM_of_lt d.closest_points v p (by omega)
      (by rw [getD_length_of_mem d.closest_points v P (by omega) hcr]; exact hp1)]
  rfl

/-- C17 (the code at the failing input): for a Translation block
`PrepareForEvaluation(true, false)` does not do what `PrepareForEvaluation(false, true)` does.
The latter runs one forward pass without Jacobian and leaves the stored `jacobian` sequence
empty; the former, since `case TRANSLATION` has no `break`, runs a second pass that asks the
model for the shape Jacobian, whose blocks are afterwards in the stored sequence. The Jacobian
entries that `Evaluate` then writes are `translation_jac_elem_` of `verts(v, k)`,
`closest_points(v, k)` and `residuals[v]`: here `2 (2 - 0), 2 (0 - 0), 2 (0 - 0)`. -/
theorem AbsoluteDistanceBase.prepare_translation_writes_shape_jacobian :
    (fun s => (s.model_calls, s.last_result_.jacobian)) <$>
        (toyBlock .TRANSLATION true).PrepareForEvaluation false true (Sys.fresh toyStatePlain)
      = .ok ([JacRequest.noJac], []) ∧
    (fun s => (s.model_calls, s.last_result_.jacobian)) <$>
        (toyBlock .TRANSLATION true).PrepareForEvaluation true false (Sys.fresh toyStatePlain)
      = .ok ([JacRequest.noJac, JacRequest.shape], [[[1, 0, 0]], [[0, 0, 0]], []]) ∧
    (fun o => [o.jacobian0.map (fun J => [J 0, J 1, J 2])]) <$>
        ((toyBlock .TRANSLATION true).PrepareForEvaluation true false (Sys.fresh toyStatePlain)
          >>= fun s => (toyBlock .TRANSLATION true).Evaluate s [0, 0, 0] zeroBuf
            (some (some zeroBuf)))
      = .ok [some [4, 0, 0]] := by
  decide!

/-! ### C19: the size of the stored Jacobian sequence -/

/-- C19, counterexample to the claim as stated: a Shape block of parameter size 2.
After `PrepareForEvaluation(false, true)` on a fresh result, and after `calcDistance` without
Jacobian, the `jacobian` sequence has no entry: it is resized only when a Jacobian is
computed. An `Evaluate` call with a Jacobian array after that `PrepareForEvaluation` call
reads `jacobian[0]` out of bounds. -/
theorem AbsoluteDistanceBase.jacobian_not_sized :
    (toyBlock .SHAPE true).parameter_block_sizes = [2] ∧
    (fun s => s.last_result_.jacobian.length) <$>
        (toyBlock .SHAPE true).PrepareForEvaluation false true (Sys.fresh toyStatePlain)
      = .ok 0 ∧
    (fun d => d.jacobian.length) <$>
        (toyBlock .SHAPE false).calcDistance toyStatePlain [2, 0] false
      = .ok 0 ∧
    (fun o => o.ret) <$>
        ((toyBlock .SHAPE true).PrepareForEvaluation false true (Sys.fresh toyStatePlain)
          >>= fun s => (toyBlock .SHAPE true).Evaluate s [2, 0] zeroBuf (some (some zeroBuf)))
      = .error Fault.outOfBounds := by
  decide!

/-- C19 (as amended): the `jacobian` sequence has exactly as many entries as the parameter size
of the block after every call that computes a Jacobian: after `PrepareForEvaluation` with
`evaluate_jacobians = true` of a Shape or Pose block, and of a Displacement block whose flag
is clear; and after `calcDistance` with `with_jacobian = true` of a Shape, Pose or Translation
block. Each of these calls ends without fault. -/
theorem AbsoluteDistanceBase.jacobian_sized (smpl : SMPLWrapper) (toMesh : GeneralMesh)
    (sd : SignedDistanceFn) (policy : ElemPolicy) (use_pre_computation : Bool)
    (vertex_id : Nat) (k : ParameterType) (s : Sys) (new_evaluation_point : Bool)
    (st : StatePointers) (parameter : VectorXd)
    (hk : k = .SHAPE ∨ k = .POSE) (hw : WellSized smpl sd) :
    (∃ s1 P, (ctor smpl toMesh sd policy k use_pre_computation vertex_id).PrepareForEvaluation
        true new_evaluation_point s = .ok s1 ∧
      (ctor smpl toMesh sd policy k use_pre_computation vertex_id).parameter_block_sizes = [P] ∧
      s1.last_result_.jacobian.length = P) ∧
    (∃ d P, (ctor smpl toMesh sd policy k use_pre_computation vertex_id).calcDistance
        st parameter true = .ok d ∧
      (ctor smpl toMesh sd policy k use_pre_computation vertex_id).parameter_block_sizes = [P] ∧
      d.jacobian.length = P) ∧
    (s.displacement_jac_evaluated = false →
      ∃ s1, (ctor smpl toMesh sd policy .DISPLACEMENT use_pre_computation
          vertex_id).PrepareForEvaluation true new_evaluation_point s = .ok s1 ∧
        (ctor smpl toMesh sd policy .DISPLACEMENT use_pre_computation
          vertex_id).parameter_block_sizes = [SPACE_DIM] ∧
        s1.last_result_.jacobian.length = SPACE_DIM) ∧
    (∃ d, (ctor smpl toMesh sd policy .TRANSLATION use_pre_computation vertex_id).calcDistance
        st parameter true = .ok d ∧
      (ctor smpl toMesh sd policy .TRANSLATION use_pre_computation
        vertex_id).parameter_block_sizes = [SPACE_DIM] ∧
      d.jacobian.length = SPACE_DIM) := by
  have hv := hw.1
  have hs := fun P => hw.2 P toMesh.getNormalizedVertices toMesh.getFaces
  refine ⟨?_, ?_, ?_, ?_⟩
  · rcases hk with rfl | rfl <;> cases new_evaluation_point <;>
    simp [PrepareForEvaluation, updateDistanceCalculations, updateShapeCase, ctor, blockSize0,
      SMPLWrapper.calcModel, calcSignedDistByVertecies, hv, (hs _).1, (hs _).2]
  · rcases hk with rfl | rfl <;>
    simp [calcDistance, ctor, blockSize0, SMPLWrapper.calcModel, calcSignedDistByVertecies,
      hv, (hs _).1, (hs _).2, DistanceResult.empty]
  · intro hf
    cases new_evaluation_point <;>
    simp [PrepareForEvaluation, updateDistanceCalculations, ctor, blockSize0, hf,
      SMPLWrapper.calcModel, calcSignedDistByVertecies, hv, (hs _).1, (hs _).2]
  · simp [calcDistance, ctor, blockSize0, SMPLWrapper.calcModel, calcSignedDistByVertecies,
      hv, (hs _).1, (hs _).2, DistanceResult.empty, resize_length]

/-- C19, witness: the Shape block of the one-vertex model, where the sequence has 2 entries
after both calls. -/
theorem AbsoluteDistanceBase.jacobian_sized_witness :
    ((ParameterType.SHAPE = .SHAPE ∨ ParameterType.SHAPE = .POSE) ∧
      WellSized toySMPL toySignedDistance) ∧
    ((∃ s1 P, (ctor toySMPL toyMesh toySignedDistance toyPolicy .SHAPE true
          0).PrepareForEvaluation true false (Sys.fresh toyStatePlain) = .ok s1 ∧
        (ctor toySMPL toyMesh toySignedDistance toyPolicy .SHAPE true 0).parameter_block_sizes
          = [P] ∧
        s1.last_result_.jacobian.length = P) ∧
      (∃ d P, (ctor toySMPL toyMesh toySignedDistance toyPolicy .SHAPE true 0).calcDistance
          toyStatePlain [2, 0] true = .ok d ∧
        (ctor toySMPL toyMesh toySignedDistance toyPolicy .SHAPE true 0).parameter_block_sizes
          = [P] ∧
        d.jacobian.length = P) ∧
      ((Sys.fresh toyStatePlain).displacement_jac_evaluated = false →
        ∃ s1, (ctor toySMPL toyMesh toySignedDistance toyPolicy .DISPLACEMENT true
            0).PrepareForEvaluation true false (Sys.fresh toyStatePlain) = .ok s1 ∧
          (ctor toySMPL toyMesh toySignedDistance toyPolicy .DISPLACEMENT true
            0).parameter_block_sizes = [SPACE_DIM] ∧
          s1.last_result_.jacobian.length = SPACE_DIM) ∧
      (∃ d, (ctor toySMPL toyMesh toySignedDistance toyPolicy .TRANSLATION true 0).calcDistance
          toyStatePlain [2, 0] true = .ok d ∧
        (ctor toySMPL toyMesh toySignedDistance toyPolicy .TRANSLATION true
          0).parameter_block_sizes = [SPACE_DIM] ∧
        d.jacobian.length = SPACE_DIM)) ∧
    (fun s => s.last_result_.jacobian.length) <$>
        (toyBlock .SHAPE true).PrepareForEvaluation true false (Sys.fresh toyStatePlain)
      = .ok 2 ∧
    (fun d => d.jacobian.length) <$>
        (toyBlock .SHAPE false).calcDistance toyStatePlain [2, 0] true
      = .ok 2 :=
  ⟨⟨Or.inl rfl, toy_wellSized⟩,
    AbsoluteDistanceBase.jacobian_sized toySMPL toyMesh toySignedDistance toyPolicy true 0
      .SHAPE (Sys.fresh toyStatePlain) false toyStatePlain [2, 0] (Or.inl rfl) toy_wellSized,
    by decide!, by decide!⟩

end BodyShape
